import Mathlib

/-!
# PRU Voting System: controllers, routing and push channel

A shallow embedding of `backend/controllers/votersController.js`,
`villagesController.js` and `partiesController.js`, of the routing, the push channel
and the rate limiters of `backend/server.js`, `routes/` and `middleware/rateLimiter.js`,
and of the helper `formatICNumber` of the frontend.

* The relational database behind `pool.execute` is a record of four tables
  (lists of rows) with their auto-increment counters.
* Every handler is a function from the database state and the request to the
  response it sends and the database state it leaves.
* Every `pool.execute` call of a handler can be rejected by the database layer:
  a `Fault` names, by the position of the call inside the handler (0 for the
  first call), the error it raises there, if any.
* The identifier in `req.params.id` is taken as the number the database compares
  the `id` column with; timestamps are natural numbers.
* A field of a request body is absent, JSON null, or a value of the type its column
  stores (a string, or a number for an id). The unique keys and the tests of the writing
  handlers compare strings as equal or not.
* The schema is not part of the sources. The tables carry what the handlers rely on:
  auto-increment ids and the unique keys whose `ER_DUP_ENTRY` the handlers translate
  (`voters.ic_number`, `villages.name`, `parties.name`). Foreign-key actions are not
  modelled; any other refusal by the database is a `Fault`.
* In the listing of voters the parameters `page` and `limit` are decimal numerals; the
  handler computes with them as Numbers (doubles), exact below 2^53. `LIKE`, `=` on the
  village name and `ORDER BY` follow the collation the spec states, which ignores letter
  case. SQL leaves the order of rows with equal keys open: each page query takes the
  order in which the engine hands over its rows. `GROUP BY` keeps one row per distinct
  group.
* The aggregate views of the schema are parameters of the statistics helper. A request
  is routed by its method and the segments of its path to the first layer of the
  application stack that takes it; times are milliseconds as natural numbers.
-/

namespace PruVoting

/-! ## Data model -/

/-- A row of the `voters` table. -/
structure Voter where
  id : Nat
  name : String
  ic_number : String
  village_id : Nat
  has_voted : Bool
  voted_at : Option Nat
  party_voted_id : Option Nat
deriving DecidableEq, Repr

/-- A row of the `villages` table. -/
structure Village where
  id : Nat
  name : String
  description : Option String
deriving DecidableEq, Repr

/-- A row of the `parties` table. -/
structure Party where
  id : Nat
  name : String
  abbreviation : Option String
  color : Option String
  logo_path : Option String
  description : Option String
deriving DecidableEq, Repr

/-- A row of the `vote_logs` table. -/
structure VoteLog where
  id : Nat
  voter_id : Nat
  party_id : Nat
  village_id : Nat
  voted_at : Nat
  ip_address : String
  user_agent : String
deriving DecidableEq, Repr

/-- The database state: the four tables and the next auto-increment ids. -/
structure Db where
  voters : List Voter
  villages : List Village
  parties : List Party
  vote_logs : List VoteLog
  nextVoterId : Nat
  nextVillageId : Nat
  nextPartyId : Nat
  nextLogId : Nat
deriving DecidableEq, Repr

/-- An error raised by the database layer: its `code` and its `message`. -/
structure DbError where
  code : String
  message : String
deriving DecidableEq, Repr

/-- The error, if any, raised by the k-th `pool.execute` call of a handler. -/
abbrev Fault := Nat → Option DbError

/-- The database layer answers every call. -/
def noFault : Fault := fun _ => none

/-! ## Request values -/

/-- A field of a parsed request body: absent, JSON null, or a value. -/
inductive Js (α : Type) where
  | undefined
  | null
  | val (a : α)
deriving DecidableEq, Repr

/-- JavaScript truthiness of a string field: `!x` is false exactly for a non-empty string. -/
def truthyStr : Js String → Bool
  | .val s => s != ""
  | _ => false

/-- JavaScript truthiness of a numeric field: `!x` is false exactly for a non-zero number. -/
def truthyNum : Js Nat → Bool
  | .val n => n != 0
  | _ => false

/-- The string a field is coerced to by `RegExp.prototype.test`. -/
def jsString : Js String → String
  | .undefined => "undefined"
  | .null => "null"
  | .val s => s

/-- The value of a field that is known to hold one. -/
def Js.get {α : Type} [Inhabited α] : Js α → α
  | .val a => a
  | _ => default

/-- The test `/^\d{12}$/.test(s)`: exactly twelve characters, each a decimal digit. -/
def isTwelveDigits (s : String) : Bool :=
  s.data.length == 12 && s.data.all Char.isDigit

/-- Whether `pat` occurs in `s` starting at its first character. -/
def startsWith : List Char → List Char → Bool
  | _, [] => true
  | [], _ :: _ => false
  | c :: s, d :: pat => c == d && startsWith s pat

/-- Substring test on character lists. -/
def includesChars : List Char → List Char → Bool
  | [], pat => startsWith [] pat
  | c :: s, pat => startsWith (c :: s) pat || includesChars s pat

/-- The test `s.includes(pat)` of JavaScript strings. -/
def includes (s pat : String) : Bool :=
  includesChars s.data pat.data

/-! ## Responses -/

/-- The row `addVoter` reads back after the insert. -/
structure NewVoterRow where
  id : Nat
  name : String
  ic_number : String
  has_voted : Bool
  village_name : Option String
deriving DecidableEq, Repr

/-- The row `getVoterById` selects. -/
structure VoterDetailRow where
  id : Nat
  name : String
  ic_number : String
  village_id : Nat
  has_voted : Bool
  voted_at : Option Nat
  party_voted_id : Option Nat
  village_name : Option String
  party_name : Option String
  party_color : Option String
deriving DecidableEq, Repr

/-- The row `updateVoter` reads back: `v.*` and the village name. -/
structure UpdatedVoterRow where
  voter : Voter
  village_name : Option String
deriving DecidableEq, Repr

/-- The JSON body of a response. -/
inductive Body where
  | error (error : String)
  | message (message : String)
  | voterAdded (message : String) (voter : Option NewVoterRow)
  | voterDetail (row : VoterDetailRow)
  | voterUpdated (row : Option UpdatedVoterRow)
  | villageSaved (message : String) (village : Option Village)
  | partySaved (message : String) (party : Option Party)
deriving DecidableEq, Repr

/-- The HTTP status and the JSON body of a response. -/
structure Response where
  status : Nat
  body : Body
deriving DecidableEq, Repr

/-- What a handler leaves behind: the database state and the response sent. -/
structure Outcome where
  db : Db
  response : Response
deriving DecidableEq, Repr

/-- The rows a `LEFT JOIN` pairs one left row with: the matching right rows, or one NULL row. -/
def leftJoin {β : Type} (rows : List β) (cond : β → Bool) : List (Option β) :=
  match rows.filter cond with
  | [] => [none]
  | m :: ms => (m :: ms).map some

/-! ## Voters controller -/

/-- The body of `POST /api/voters` and `PUT /api/voters/:id`. -/
structure VoterBody where
  name : Js String
  ic_number : Js String
  village_id : Js Nat
deriving DecidableEq, Repr

/-- The statement `INSERT INTO voters (name, ic_number, village_id) VALUES (?, ?, ?)`:
`ic_number` carries a unique key, `id` is auto-incremented, and the remaining
columns take their defaults. Returns the `insertId`. -/
def insertVoter (db : Db) (name ic_number : String) (village_id : Nat) : Except DbError (Nat × Db) :=
  if db.voters.any (fun v => v.ic_number == ic_number) then
    .error ⟨"ER_DUP_ENTRY", "Duplicate entry for key ic_number"⟩
  else
    .ok (db.nextVoterId,
      { db with
        voters := db.voters ++ [⟨db.nextVoterId, name, ic_number, village_id, false, none, none⟩]
        nextVoterId := db.nextVoterId + 1 })

/-- The `catch` block of `addVoter`. -/
def addVoterCatch (e : DbError) : Response :=
  if e.code == "ER_DUP_ENTRY" then ⟨400, .error "IC number already exists"⟩
  else ⟨500, .error "Failed to add voter"⟩

/-- The query of `addVoter` that reads the created voter back. -/
def selectNewVoter (db : Db) (id : Nat) : List NewVoterRow :=
  (db.voters.filter (fun v => v.id == id)).flatMap fun v =>
    (leftJoin db.villages (fun vil => vil.id == v.village_id)).map fun vil =>
      ⟨v.id, v.name, v.ic_number, v.has_voted, vil.map (fun x => x.name)⟩

/-- The handler `addVoter`. -/
def addVoter (fault : Fault) (db : Db) (body : VoterBody) : Outcome :=
  if !truthyStr body.name || !truthyStr body.ic_number || !truthyNum body.village_id then
    ⟨db, ⟨400, .error "Name, IC number, and village are required"⟩⟩
  else if !isTwelveDigits (jsString body.ic_number) then
    ⟨db, ⟨400, .error "IC number must be 12 digits"⟩⟩
  else
    match fault 0 with
    | some e => ⟨db, addVoterCatch e⟩
    | none =>
      match insertVoter db body.name.get body.ic_number.get body.village_id.get with
      | .error e => ⟨db, addVoterCatch e⟩
      | .ok (insertId, db1) =>
        match fault 1 with
        | some e => ⟨db1, addVoterCatch e⟩
        | none => ⟨db1, ⟨201, .voterAdded "Voter added successfully" (selectNewVoter db1 insertId).head?⟩⟩

/-- The query of `getVoterById`. -/
def selectVoterDetail (db : Db) (id : Nat) : List VoterDetailRow :=
  (db.voters.filter (fun v => v.id == id)).flatMap fun v =>
    (leftJoin db.villages (fun vil => vil.id == v.village_id)).flatMap fun vil =>
      (leftJoin db.parties (fun p => some p.id == v.party_voted_id)).map fun p =>
        ⟨v.id, v.name, v.ic_number, v.village_id, v.has_voted, v.voted_at, v.party_voted_id,
          vil.map (fun x => x.name), p.map (fun x => x.name), p.bind (fun x => x.color)⟩

/-- The handler `getVoterById`. -/
def getVoterById (fault : Fault) (db : Db) (id : Nat) : Response :=
  match fault 0 with
  | some _ => ⟨500, .error "Failed to fetch voter"⟩
  | none =>
    match selectVoterDetail db id with
    | [] => ⟨404, .error "Voter not found"⟩
    | row :: _ => ⟨200, .voterDetail row⟩

/-- The query of `updateVoter` that reads the updated voter back. -/
def selectUpdatedVoter (db : Db) (id : Nat) : List UpdatedVoterRow :=
  (db.voters.filter (fun v => v.id == id)).flatMap fun v =>
    (leftJoin db.villages (fun vil => vil.id == v.village_id)).map fun vil =>
      ⟨v, vil.map (fun x => x.name)⟩

/-- The statement `UPDATE voters SET name = ?, ic_number = ?, village_id = ? WHERE id = ?`. -/
def updateVoterRows (db : Db) (name ic_number : String) (village_id id : Nat) : Db :=
  { db with
    voters := db.voters.map fun v =>
      if v.id == id then { v with name := name, ic_number := ic_number, village_id := village_id }
      else v }

/-- The handler `updateVoter`. -/
def updateVoter (fault : Fault) (db : Db) (id : Nat) (body : VoterBody) : Outcome :=
  if !truthyStr body.name || !truthyStr body.ic_number || !truthyNum body.village_id then
    ⟨db, ⟨400, .error "Name, IC number, and village ID are required"⟩⟩
  else
    match fault 0 with
    | some _ => ⟨db, ⟨500, .error "Failed to update voter"⟩⟩
    | none =>
      match db.voters.filter (fun v => v.id == id) with
      | [] => ⟨db, ⟨404, .error "Voter not found"⟩⟩
      | existing :: _ =>
        if existing.has_voted then
          ⟨db, ⟨400, .error "Cannot edit voter who has already voted"⟩⟩
        else
          match fault 1 with
          | some _ => ⟨db, ⟨500, .error "Failed to update voter"⟩⟩
          | none =>
            if (db.voters.filter
                (fun v => v.ic_number == body.ic_number.get && v.id != id)).length > 0 then
              ⟨db, ⟨400, .error "IC number already exists"⟩⟩
            else
              match fault 2 with
              | some _ => ⟨db, ⟨500, .error "Failed to update voter"⟩⟩
              | none =>
                let db1 := updateVoterRows db body.name.get body.ic_number.get body.village_id.get id
                match fault 3 with
                | some _ => ⟨db1, ⟨500, .error "Failed to update voter"⟩⟩
                | none => ⟨db1, ⟨200, .voterUpdated (selectUpdatedVoter db1 id).head?⟩⟩

/-- The handler `deleteVoter`. -/
def deleteVoter (fault : Fault) (db : Db) (id : Nat) : Outcome :=
  match fault 0 with
  | some _ => ⟨db, ⟨500, .error "Failed to delete voter"⟩⟩
  | none =>
    match db.voters.filter (fun v => v.id == id) with
    | [] => ⟨db, ⟨404, .error "Voter not found"⟩⟩
    | existing :: _ =>
      if existing.has_voted then
        ⟨db, ⟨400, .error "Cannot delete voter who has already voted"⟩⟩
      else
        match fault 1 with
        | some _ => ⟨db, ⟨500, .error "Failed to delete voter"⟩⟩
        | none =>
          ⟨{ db with voters := db.voters.filter (fun v => !(v.id == id)) },
            ⟨200, .message "Voter deleted successfully"⟩⟩

/-! ## Casting a vote -/

/-- The body and the connection data of `POST /api/voters/vote`. -/
structure VoteRequest where
  voter_id : Js Nat
  party_id : Js Nat
  ip : String
  user_agent : Option String
deriving DecidableEq, Repr

/-- A stored procedure behind `CALL CastVote(?, ?, ?, ?)`: from the database state, the
voter, the party, the source address, the user agent and the current time, either an
error or the new database state. -/
abbrev VoteProcedure := Db → Nat → Nat → String → String → Nat → Except DbError Db

/-- Modelled from the spec: the stored procedure `CastVote`, which lives in the database
schema and not in the sources. It verifies that the voter exists and has not voted, then
sets `has_voted`, `voted_at` and `party_voted_id` and appends one vote-log row with the
voter, party, village, timestamp, source address and user agent, as one unit; otherwise
it fails with the single signal "Voter not found or has already voted". -/
def CastVote : VoteProcedure := fun db voter_id party_id ip user_agent now =>
  match db.voters.filter (fun v => v.id == voter_id && !v.has_voted) with
  | [] => .error ⟨"ER_SIGNAL_EXCEPTION", "Voter not found or has already voted"⟩
  | v :: _ =>
    .ok { db with
      voters := db.voters.map fun w =>
        if w.id == voter_id && !w.has_voted then
          { w with has_voted := true, voted_at := some now, party_voted_id := some party_id }
        else w
      vote_logs := db.vote_logs ++
        [⟨db.nextLogId, voter_id, party_id, v.village_id, now, ip, user_agent⟩]
      nextLogId := db.nextLogId + 1 }

/-- What `castVote` leaves behind: the database state, the response sent, the statistics
broadcast as `voteUpdate` events, and whether an exception left the handler. -/
structure VoteOutcome (σ : Type) where
  db : Db
  response : Response
  emitted : List σ
  escaped : Bool

/-- The `catch` block of `castVote`, reached before any response was sent. -/
def castVoteCatch (e : DbError) : Response :=
  if includes e.message "Voter not found or has already voted" then
    ⟨400, .error "Voter not found or has already voted"⟩
  else ⟨500, .error "Failed to cast vote"⟩

/-- The handler `castVote`. `proc` is the stored procedure the database runs, `stats` the
helper `getVotingStats` (it only reads the database), `io` tells whether `req.io` is set
and `now` is the time of the call. When `getVotingStats` throws, the success response
has been sent already: the `catch` block then tries to send a second response, which
throws, and that exception leaves the handler. -/
def castVote {σ : Type} (proc : VoteProcedure) (stats : Db → Except DbError σ) (io : Bool)
    (fault : Fault) (now : Nat) (db : Db) (req : VoteRequest) : VoteOutcome σ :=
  if !truthyNum req.voter_id || !truthyNum req.party_id then
    ⟨db, ⟨400, .error "Voter ID and Party ID are required"⟩, [], false⟩
  else
    match fault 0 with
    | some e => ⟨db, castVoteCatch e, [], false⟩
    | none =>
      match proc db req.voter_id.get req.party_id.get req.ip (req.user_agent.getD "") now with
      | .error e => ⟨db, castVoteCatch e, [], false⟩
      | .ok db1 =>
        if io then
          match stats db1 with
          | .ok s => ⟨db1, ⟨200, .message "Vote cast successfully"⟩, [s], false⟩
          | .error _ => ⟨db1, ⟨200, .message "Vote cast successfully"⟩, [], true⟩
        else ⟨db1, ⟨200, .message "Vote cast successfully"⟩, [], false⟩

/-- The response `castVote` sends for a successful vote. -/
def voteCast : Response := ⟨200, .message "Vote cast successfully"⟩

/-- One `castVote` call of a sequence: the request and the circumstances of the call. -/
structure VoteCall where
  req : VoteRequest
  now : Nat
  io : Bool
  fault : Fault

/-- A sequence of `castVote` calls run one after another against the stored procedure
`CastVote`: the final database state and, per call, the response sent. -/
def castVotes {σ : Type} (stats : Db → Except DbError σ) :
    Db → List VoteCall → Db × List (VoteCall × Response)
  | db, [] => (db, [])
  | db, c :: cs =>
    let r := castVote CastVote stats c.io c.fault c.now db c.req
    let rest := castVotes stats r.db cs
    (rest.1, (c, r.response) :: rest.2)

/-- The number of calls of a trace that address the voter id and were answered with success. -/
def successesFor (trace : List (VoteCall × Response)) (voter_id : Nat) : Nat :=
  (trace.filter (fun cr => cr.1.req.voter_id == Js.val voter_id && cr.2 == voteCast)).length

/-- Whether some row with the voter id has not voted. -/
def canVote (db : Db) (voter_id : Nat) : Bool :=
  db.voters.any (fun v => v.id == voter_id && !v.has_voted)

/-! ## Villages controller -/

/-- The body of `POST /api/villages` and `PUT /api/villages/:id`. -/
structure VillageBody where
  name : Js String
  description : Js String
deriving DecidableEq, Repr

/-- The driver's binding of a parameter: `undefined` is refused with a `TypeError`
before the statement is sent, JSON null is SQL NULL. -/
def bindParam {α : Type} : Js α → Except DbError (Option α)
  | .undefined => .error ⟨"", "Bind parameters must not contain undefined"⟩
  | .null => .ok none
  | .val a => .ok (some a)

/-- A destructuring default `x = d`: it replaces `undefined` only. -/
def withDefault {α : Type} (x : Js α) (d : α) : Js α :=
  match x with
  | .undefined => .val d
  | y => y

/-- The `catch` block of `addVillage` and of `updateVillage` (`what` is "add" or "update"). -/
def villageCatch (what : String) (e : DbError) : Response :=
  if e.code == "ER_DUP_ENTRY" then ⟨400, .error "Village name already exists"⟩
  else ⟨500, .error ("Failed to " ++ what ++ " village")⟩

/-- The handler `addVillage`; `villages.name` carries a unique key. -/
def addVillage (fault : Fault) (db : Db) (body : VillageBody) : Outcome :=
  if !truthyStr body.name then
    ⟨db, ⟨400, .error "Village name is required"⟩⟩
  else
    match bindParam (withDefault body.description "") with
    | .error e => ⟨db, villageCatch "add" e⟩
    | .ok description =>
      match fault 0 with
      | some e => ⟨db, villageCatch "add" e⟩
      | none =>
        if db.villages.any (fun v => v.name == body.name.get) then
          ⟨db, villageCatch "add" ⟨"ER_DUP_ENTRY", "Duplicate entry for key name"⟩⟩
        else
          let db1 := { db with
            villages := db.villages ++ [⟨db.nextVillageId, body.name.get, description⟩]
            nextVillageId := db.nextVillageId + 1 }
          match fault 1 with
          | some e => ⟨db1, villageCatch "add" e⟩
          | none =>
            ⟨db1, ⟨201, .villageSaved "Village added successfully"
              (db1.villages.filter (fun v => v.id == db.nextVillageId)).head?⟩⟩

/-- The handler `updateVillage`. -/
def updateVillage (fault : Fault) (db : Db) (id : Nat) (body : VillageBody) : Outcome :=
  if !truthyStr body.name then
    ⟨db, ⟨400, .error "Village name is required"⟩⟩
  else
    match bindParam body.description with
    | .error e => ⟨db, villageCatch "update" e⟩
    | .ok description =>
      match fault 0 with
      | some e => ⟨db, villageCatch "update" e⟩
      | none =>
        if (db.villages.filter (fun v => v.id == id)).length == 0 then
          ⟨db, ⟨404, .error "Village not found"⟩⟩
        else if db.villages.any (fun v => v.name == body.name.get && v.id != id) then
          ⟨db, villageCatch "update" ⟨"ER_DUP_ENTRY", "Duplicate entry for key name"⟩⟩
        else
          let db1 := { db with
            villages := db.villages.map fun v =>
              if v.id == id then { v with name := body.name.get, description := description }
              else v }
          match fault 1 with
          | some e => ⟨db1, villageCatch "update" e⟩
          | none =>
            ⟨db1, ⟨200, .villageSaved "Village updated successfully"
              (db1.villages.filter (fun v => v.id == id)).head?⟩⟩

/-- The handler `deleteVillage`. -/
def deleteVillage (fault : Fault) (db : Db) (id : Nat) : Outcome :=
  match fault 0 with
  | some _ => ⟨db, ⟨500, .error "Failed to delete village"⟩⟩
  | none =>
    if (db.voters.filter (fun v => v.village_id == id)).length > 0 then
      ⟨db, ⟨400, .error "Cannot delete village with registered voters"⟩⟩
    else
      match fault 1 with
      | some _ => ⟨db, ⟨500, .error "Failed to delete village"⟩⟩
      | none =>
        if (db.villages.filter (fun v => v.id == id)).length == 0 then
          ⟨db, ⟨404, .error "Village not found"⟩⟩
        else
          ⟨{ db with villages := db.villages.filter (fun v => !(v.id == id)) },
            ⟨200, .message "Village deleted successfully"⟩⟩

/-! ## Parties controller -/

/-- The file stored by the upload middleware in `req.file`. -/
structure UploadedFile where
  filename : String
  path : String
deriving DecidableEq, Repr

/-- A file whose deletion a handler requests with `fs.unlink`. -/
inductive Unlink where
  | uploaded (path : String)
  | oldLogo (logo_path : String)
deriving DecidableEq, Repr

/-- The body of `POST /api/parties` and `PUT /api/parties/:id`, and the uploaded file. -/
structure PartyRequest where
  name : Js String
  abbreviation : Js String
  color : Js String
  description : Js String
  file : Option UploadedFile
deriving DecidableEq, Repr

/-- What a party handler leaves behind: the database state, the response sent and the
file deletions requested. -/
structure PartyOutcome where
  db : Db
  response : Response
  unlinks : List Unlink
deriving DecidableEq, Repr

/-- A hexadecimal digit in either case. -/
def isHexDigit (c : Char) : Bool :=
  c.isDigit || ('a' ≤ c && c ≤ 'f') || ('A' ≤ c && c ≤ 'F')

/-- The test `/^#[0-9A-F]{6}$/i.test(s)`. -/
def isHexColor (s : String) : Bool :=
  match s.data with
  | '#' :: rest => rest.length == 6 && rest.all isHexDigit
  | _ => false

/-- The stored path of an uploaded logo. -/
def logoPathOf (f : UploadedFile) : String :=
  "/uploads/party-flags/" ++ f.filename

/-- The cleanup at the head of the `catch` blocks of `addParty` and `uploadLogo`. -/
def cleanupUpload (file : Option UploadedFile) : List Unlink :=
  match file with
  | some f => [.uploaded f.path]
  | none => []

/-- The `catch` block of `addParty` and of `updateParty` (`what` is "add" or "update"). -/
def partyCatch (what : String) (e : DbError) : Response :=
  if e.code == "ER_DUP_ENTRY" then ⟨400, .error "Party name already exists"⟩
  else ⟨500, .error ("Failed to " ++ what ++ " party")⟩

/-- The handler `addParty`; `parties.name` carries a unique key. -/
def addParty (fault : Fault) (db : Db) (req : PartyRequest) : PartyOutcome :=
  let abbreviation := withDefault req.abbreviation ""
  let color := withDefault req.color "#3B82F6"
  let description := withDefault req.description ""
  let logoPath := req.file.map logoPathOf
  if !truthyStr req.name then
    ⟨db, ⟨400, .error "Party name is required"⟩, []⟩
  else if !isHexColor (jsString color) then
    ⟨db, ⟨400, .error "Color must be a valid hex color code"⟩, []⟩
  else
    match bindParam abbreviation, bindParam color, bindParam description with
    | .ok abbr, .ok col, .ok desc =>
      match fault 0 with
      | some e => ⟨db, partyCatch "add" e, cleanupUpload req.file⟩
      | none =>
        if db.parties.any (fun p => p.name == req.name.get) then
          ⟨db, partyCatch "add" ⟨"ER_DUP_ENTRY", "Duplicate entry for key name"⟩,
            cleanupUpload req.file⟩
        else
          let db1 := { db with
            parties := db.parties ++ [⟨db.nextPartyId, req.name.get, abbr, col, logoPath, desc⟩]
            nextPartyId := db.nextPartyId + 1 }
          match fault 1 with
          | some e => ⟨db1, partyCatch "add" e, cleanupUpload req.file⟩
          | none =>
            ⟨db1, ⟨201, .partySaved "Party added successfully"
              (db1.parties.filter (fun p => p.id == db.nextPartyId)).head?⟩, []⟩
    | .error e, _, _ => ⟨db, partyCatch "add" e, cleanupUpload req.file⟩
    | _, .error e, _ => ⟨db, partyCatch "add" e, cleanupUpload req.file⟩
    | _, _, .error e => ⟨db, partyCatch "add" e, cleanupUpload req.file⟩

/-- The handler `updateParty`. It never reads `req.file`. -/
def updateParty (fault : Fault) (db : Db) (id : Nat) (req : PartyRequest) : PartyOutcome :=
  if !truthyStr req.name then
    ⟨db, ⟨400, .error "Party name is required"⟩, []⟩
  else if truthyStr req.color && !isHexColor (jsString req.color) then
    ⟨db, ⟨400, .error "Color must be a valid hex color code"⟩, []⟩
  else
    match bindParam req.abbreviation, bindParam req.color, bindParam req.description with
    | .ok abbr, .ok col, .ok desc =>
      match fault 0 with
      | some e => ⟨db, partyCatch "update" e, []⟩
      | none =>
        if (db.parties.filter (fun p => p.id == id)).length == 0 then
          ⟨db, ⟨404, .error "Party not found"⟩, []⟩
        else if db.parties.any (fun p => p.name == req.name.get && p.id != id) then
          ⟨db, partyCatch "update" ⟨"ER_DUP_ENTRY", "Duplicate entry for key name"⟩, []⟩
        else
          let db1 := { db with
            parties := db.parties.map fun p =>
              if p.id == id then
                { p with name := req.name.get, abbreviation := abbr, color := col,
                         description := desc }
              else p }
          match fault 1 with
          | some e => ⟨db1, partyCatch "update" e, []⟩
          | none =>
            ⟨db1, ⟨200, .partySaved "Party updated successfully"
              (db1.parties.filter (fun p => p.id == id)).head?⟩, []⟩
    | .error e, _, _ => ⟨db, partyCatch "update" e, []⟩
    | _, .error e, _ => ⟨db, partyCatch "update" e, []⟩
    | _, _, .error e => ⟨db, partyCatch "update" e, []⟩

/-- The handler `deleteParty`. -/
def deleteParty (fault : Fault) (db : Db) (id : Nat) : PartyOutcome :=
  match fault 0 with
  | some _ => ⟨db, ⟨500, .error "Failed to delete party"⟩, []⟩
  | none =>
    if (db.voters.filter (fun v => v.party_voted_id == some id && v.has_voted)).length > 0 then
      ⟨db, ⟨400, .error "Cannot delete party that has received votes"⟩, []⟩
    else
      match fault 1 with
      | some _ => ⟨db, ⟨500, .error "Failed to delete party"⟩, []⟩
      | none =>
        if (db.parties.filter (fun p => p.id == id)).length == 0 then
          ⟨db, ⟨404, .error "Party not found"⟩, []⟩
        else
          ⟨{ db with parties := db.parties.filter (fun p => !(p.id == id)) },
            ⟨200, .message "Party deleted successfully"⟩, []⟩

/-- The handler `uploadLogo`. -/
def uploadLogo (fault : Fault) (db : Db) (id : Nat) (file : Option UploadedFile) : PartyOutcome :=
  match file with
  | none => ⟨db, ⟨400, .error "No image file provided"⟩, []⟩
  | some f =>
    match fault 0 with
    | some _ => ⟨db, ⟨500, .error "Failed to upload logo"⟩, [.uploaded f.path]⟩
    | none =>
      match db.parties.filter (fun p => p.id == id) with
      | [] => ⟨db, ⟨404, .error "Party not found"⟩, [.uploaded f.path]⟩
      | current :: _ =>
        match fault 1 with
        | some _ => ⟨db, ⟨500, .error "Failed to upload logo"⟩, [.uploaded f.path]⟩
        | none =>
          let db1 := { db with
            parties := db.parties.map fun p =>
              if p.id == id then { p with logo_path := some (logoPathOf f) } else p }
          let old : List Unlink :=
            match current.logo_path with
            | some l => if l != "" then [.oldLogo l] else []
            | none => []
          match fault 2 with
          | some _ => ⟨db1, ⟨500, .error "Failed to upload logo"⟩, old ++ [.uploaded f.path]⟩
          | none =>
            ⟨db1, ⟨200, .partySaved "Logo uploaded successfully"
              (db1.parties.filter (fun p => p.id == id)).head?⟩, old⟩

/-! ## The administrative operations as one step function -/

/-- A request to one of the handlers that write to the database, `castVote` apart. -/
inductive AdminOp where
  | addVoter (body : VoterBody)
  | updateVoter (id : Nat) (body : VoterBody)
  | deleteVoter (id : Nat)
  | addVillage (body : VillageBody)
  | updateVillage (id : Nat) (body : VillageBody)
  | deleteVillage (id : Nat)
  | addParty (req : PartyRequest)
  | updateParty (id : Nat) (req : PartyRequest)
  | deleteParty (id : Nat)
  | uploadLogo (id : Nat) (file : Option UploadedFile)
deriving DecidableEq, Repr

/-- The database state an administrative request leaves. -/
def AdminOp.run (fault : Fault) (db : Db) : AdminOp → Db
  | .addVoter body => (PruVoting.addVoter fault db body).db
  | .updateVoter id body => (PruVoting.updateVoter fault db id body).db
  | .deleteVoter id => (PruVoting.deleteVoter fault db id).db
  | .addVillage body => (PruVoting.addVillage fault db body).db
  | .updateVillage id body => (PruVoting.updateVillage fault db id body).db
  | .deleteVillage id => (PruVoting.deleteVillage fault db id).db
  | .addParty req => (PruVoting.addParty fault db req).db
  | .updateParty id req => (PruVoting.updateParty fault db id req).db
  | .deleteParty id => (PruVoting.deleteParty fault db id).db
  | .uploadLogo id file => (PruVoting.uploadLogo fault db id file).db

/-! ## Invariants of the database state -/

/-- The number of vote-log rows that reference a voter id. -/
def logCount (db : Db) (voter_id : Nat) : Nat :=
  (db.vote_logs.filter (fun l => l.voter_id == voter_id)).length

/-- The vote invariant: a voter has voted iff exactly one vote-log row references it. -/
def VoteInvariant (db : Db) : Prop :=
  ∀ v ∈ db.voters, (v.has_voted = true ↔ logCount db v.id = 1)

/-- The keys of the voters table: `id` is a primary key assigned by auto-increment, so
ids are pairwise distinct and below the counter, and so are the ids vote logs refer to. -/
def VoterKeys (db : Db) : Prop :=
  (db.voters.map (fun v => v.id)).Nodup ∧
  (∀ v ∈ db.voters, v.id < db.nextVoterId) ∧
  (∀ l ∈ db.vote_logs, l.voter_id < db.nextVoterId)

/-- Every stored identity number is exactly twelve digits. -/
def AllIcTwelveDigits (db : Db) : Prop :=
  ∀ v ∈ db.voters, isTwelveDigits v.ic_number = true

/-! ## Sample data -/

/-- A small database: one village, one party, a voter that has not voted and one that has. -/
def sampleDb : Db :=
  { voters :=
      [⟨1, "Ali", "900101015555", 1, false, none, none⟩,
       ⟨2, "Siti", "880202026666", 1, true, some 5, some 1⟩]
    villages := [⟨1, "Kampung Baru", some ""⟩]
    parties := [⟨1, "Parti Rakyat", some "PR", some "#3B82F6", none, some ""⟩]
    vote_logs := [⟨1, 2, 1, 1, 5, "10.0.0.7", "curl"⟩]
    nextVoterId := 3
    nextVillageId := 2
    nextPartyId := 2
    nextLogId := 2 }

/-- The voter of `sampleDb` that has not voted. -/
def sampleAli : Voter := ⟨1, "Ali", "900101015555", 1, false, none, none⟩

/-- The voter of `sampleDb` that has voted. -/
def sampleSiti : Voter := ⟨2, "Siti", "880202026666", 1, true, some 5, some 1⟩

/-- A statistics helper that reports nothing. -/
def sampleStats : Db → Except DbError Unit := fun _ => .ok ()

/-- A database layer that refuses every call. -/
def sampleOutage : Fault := fun _ => some ⟨"ECONNREFUSED", "connect ECONNREFUSED 127.0.0.1:3306"⟩

/-- A vote request for a voter and a party. -/
def sampleVote (voter_id party_id : Nat) : VoteRequest :=
  ⟨.val voter_id, .val party_id, "10.0.0.7", some "curl"⟩

/-- Three calls: the voter that has voted, then twice the voter that has not. -/
def sampleCalls : List VoteCall :=
  [⟨sampleVote 2 1, 7, true, noFault⟩, ⟨sampleVote 1 1, 8, true, noFault⟩,
   ⟨sampleVote 1 1, 9, false, noFault⟩]

/-! ## Listing voters -/

/-- Modelled from the spec: the collation of the text columns, which belongs to the schema
and not to the sources, compares letters case-insensitively. -/
def sameLetter (a b : Char) : Bool :=
  a.toLower == b.toLower

/-- The escape character of a `LIKE` pattern, the backslash. -/
def likeEscape : Char := Char.ofNat 92

/-- Whether `f` holds of the text or of one of its suffixes: the positions a `%` can skip to. -/
def anySuffix (f : List Char → Bool) : List Char → Bool
  | [] => f []
  | c :: t => f (c :: t) || anySuffix f t

/-- One element of a `LIKE` pattern: `%`, `_`, or a character to be matched itself. -/
inductive LikeToken where
  | anyRun
  | anyOne
  | literal (c : Char)
deriving DecidableEq, Repr

/-- The element an unescaped pattern character stands for. -/
def likeToken (c : Char) : LikeToken :=
  if c == '%' then .anyRun else if c == '_' then .anyOne else .literal c

/-- The elements of a `LIKE` pattern: the escape character makes the character after it
literal, and is literal itself at the end of the pattern. -/
def likeTokens : List Char → List LikeToken
  | [] => []
  | [c] => [likeToken c]
  | c :: d :: p =>
    if c == likeEscape then .literal d :: likeTokens p
    else likeToken c :: likeTokens (d :: p)

/-- Matching of a text against the elements of a pattern: `%` matches any run of
characters, `_` any one character, a literal the same letter up to the collation. -/
def likeMatch : List LikeToken → List Char → Bool
  | [], t => t.isEmpty
  | .anyRun :: p, t => anySuffix (likeMatch p) t
  | .anyOne :: _, [] => false
  | .anyOne :: p, _ :: t => likeMatch p t
  | .literal _ :: _, [] => false
  | .literal c :: p, d :: t => sameLetter c d && likeMatch p t

/-- The SQL test `text LIKE pattern` on characters. -/
def likeChars (pattern text : List Char) : Bool :=
  likeMatch (likeTokens pattern) text

/-- The condition `column LIKE ?` with the parameter `%${search}%`. -/
def likeSearch (search column : String) : Bool :=
  likeChars ('%' :: (search.data ++ ['%'])) column.data

/-- The test `/^\d+$/.test(s)`: at least one character, each a decimal digit. -/
def isAllDigits (s : String) : Bool :=
  !s.data.isEmpty && s.data.all Char.isDigit

/-- The number a string of decimal digits writes; `parseInt(s)` is the Number it converts
to. -/
def parseDigits (s : String) : Nat :=
  s.data.foldl (fun n c => 10 * n + (c.toNat - 48)) 0

/-- The number of binary digits of `n`, found with at most `fuel` halvings. -/
def bitLength : Nat → Nat → Nat
  | 0, _ => 0
  | fuel + 1, n => if n = 0 then 0 else bitLength fuel (n / 2) + 1

/-- The Number (a double) a natural number is converted to: the number itself below
2^53, else the nearest number with 53 significant bits, a tie going to the even
significand; `none` is `Infinity`. -/
def toNumber (n : Nat) : Option Nat :=
  if n < 2 ^ 53 then some n
  else
    let shift := bitLength n n - 53
    let q := n / 2 ^ shift
    let r := n % 2 ^ shift
    let m := if 2 ^ (shift - 1) < r ∨ (2 ^ (shift - 1) = r ∧ q % 2 = 1) then q + 1 else q
    if bitLength (m * 2 ^ shift) (m * 2 ^ shift) ≤ 1024 then some (m * 2 ^ shift) else none

/-- The largest power of ten that is not above `x` (1 for 0), found with at most `fuel`
divisions. -/
def decimalUnit : Nat → Nat → Nat
  | 0, _ => 1
  | fuel + 1, x => if x < 10 then 1 else 10 * decimalUnit fuel (x / 10)

/-- The digit before the point in the string of a Number `x` from 10^21 on, where the
string has the exponent form (`1e+21`, `1.5e+21`). The string writes the shortest decimal
numeral that converts back to `x`: its first digit is the first digit of `x`, unless the
next numeral of one digit followed by zeros converts to `x` and the one at `x` or below
does not. -/
def leadingDigit (x : Nat) : Nat :=
  let unit := decimalUnit x x
  let d := x / unit
  if toNumber (d * unit) ≠ some x ∧ toNumber ((d + 1) * unit) = some x then
    if d = 9 then 1 else d + 1
  else d

/-- The value `parseInt(x)` for a Number `x` that is a non-negative integer: `parseInt`
turns `x` into its string and reads the digits it starts with. Below 10^21 the string is a
decimal numeral that converts back to `x`; from 10^21 on it has the exponent form, of
which `parseInt` reads the digit before the point. -/
def parseIntNumber (x : Nat) : Nat :=
  if x < 10 ^ 21 then x else leadingDigit x

/-- The numbers `getAllVoters` computes from `page` and `limit` as the query string writes
them: `parseInt(page)`, `parseInt(limit)` and `parseInt(offset)` for
`offset = (page - 1) * limit`, the arithmetic being that of Numbers. The result is `none`
when the limit or the offset is not a non-negative integer (it is negative, `NaN` or
`Infinity`), which the database refuses as `LIMIT` or `OFFSET`; for `page` 0 and `limit`
0 the offset is the negative zero, whose string is `0`. -/
def pageParams (page limit : Nat) : Option (Nat × Nat × Nat) :=
  match toNumber page, toNumber limit with
  | some p, some l =>
    if p = 0 then
      if l = 0 then some (0, 0, 0) else none
    else
      (toNumber (p - 1)).bind fun a =>
        (toNumber (a * l)).map fun offset => (p, l, parseIntNumber offset)
  | _, _ => none

/-- The order in which the database engine hands the rows of a query to its `ORDER BY`.
SQL leaves it open, and with it the order of rows with equal keys, which may differ from
one query to the next. -/
structure RowOrder (α : Type) where
  arrange : List α → List α
  perm : ∀ rows, (arrange rows).Perm rows

/-- The engine hands the rows over as the table stores them. -/
def storedOrder {α : Type} : RowOrder α := ⟨fun rows => rows, fun rows => List.Perm.refl rows⟩

/-- The engine hands the rows over in the reverse of the order the table stores them in. -/
def reversedOrder {α : Type} : RowOrder α := ⟨List.reverse, fun rows => List.reverse_perm rows⟩

/-- The order of the rows of the page query of `getAllVoters`. -/
abbrev VoterOrder := RowOrder (Voter × Option Village × Option Party)

/-- Equality of two texts under the collation on characters: the same letters, up to
case, one by one. -/
def sameChars : List Char → List Char → Bool
  | [], [] => true
  | a :: s, b :: t => sameLetter a b && sameChars s t
  | _, _ => false

/-- Modelled from the spec: the SQL test `a = b` on a text column under the collation. -/
def sameText (a b : String) : Bool :=
  sameChars a.data b.data

/-- The query string of `GET /api/voters`: each parameter is absent or given; `page` and
`limit` are given as decimal numerals. -/
structure VoterQuery where
  page : Option Nat
  limit : Option Nat
  search : Option String
  village : Option String
deriving DecidableEq, Repr

/-- The conditions the page query appends to `WHERE 1=1` (lines 27 to 41); the village id
is bound as the Number `parseInt(village)`. -/
def pageWhere (search village : String) (v : Voter) (vil : Option Village) : Bool :=
  (if search != "" then likeSearch search v.name || likeSearch search v.ic_number else true) &&
  (if village != "" then
    if isAllDigits village then toNumber (parseDigits village) == some v.village_id
    else vil.map (fun x => sameText x.name village) == some true
  else true)

/-- The conditions the count query appends to `WHERE 1=1` (lines 52 to 66). -/
def countWhere (search village : String) (v : Voter) (vil : Option Village) : Bool :=
  (if search != "" then likeSearch search v.name || likeSearch search v.ic_number else true) &&
  (if village != "" then
    if isAllDigits village then toNumber (parseDigits village) == some v.village_id
    else vil.map (fun x => sameText x.name village) == some true
  else true)

/-- Modelled from the spec: the order of the collation on characters, case-insensitive and
lexicographic, which `ORDER BY name` sorts by. -/
def nameLe : List Char → List Char → Bool
  | [], _ => true
  | _ :: _, [] => false
  | a :: s, b :: t =>
    if a.toLower.toNat < b.toLower.toNat then true
    else if b.toLower.toNat < a.toLower.toNat then false
    else nameLe s t

/-- Insertion of a row into a list ordered by `key`, before the first row it does not follow. -/
def insertBy {α : Type} (key : α → String) (x : α) : List α → List α
  | [] => [x]
  | y :: ys =>
    if nameLe (key x).data (key y).data then x :: y :: ys
    else y :: insertBy key x ys

/-- The clause `ORDER BY key` on the rows as the engine hands them over: rows with equal
keys stay in the order they arrive in. -/
def orderBy {α : Type} (key : α → String) : List α → List α
  | [] => []
  | x :: xs => insertBy key x (orderBy key xs)

/-- A row of the `voters` array `getAllVoters` returns. -/
structure VoterListRow where
  id : Nat
  name : String
  ic_number : String
  has_voted : Bool
  voted_at : Option Nat
  village_name : Option String
  party_name : Option String
  party_color : Option String
deriving DecidableEq, Repr

/-- The `pagination` object `getAllVoters` returns; `pages` is `Math.ceil(total / limit)`,
which is not a number JSON can carry when `limit` is 0. -/
structure Pagination where
  page : Nat
  limit : Nat
  total : Nat
  pages : Option Nat
deriving DecidableEq, Repr

/-- The body of a successful `getAllVoters` response. -/
structure VoterPage where
  voters : List VoterListRow
  pagination : Pagination
deriving DecidableEq, Repr

/-- The rows of `voters v LEFT JOIN villages vil LEFT JOIN parties p`. -/
def joinVoters (db : Db) : List (Voter × Option Village × Option Party) :=
  db.voters.flatMap fun v =>
    (leftJoin db.villages (fun vil => vil.id == v.village_id)).flatMap fun vil =>
      (leftJoin db.parties (fun p => some p.id == v.party_voted_id)).map fun p => (v, vil, p)

/-- The select list of the page query. -/
def voterListRow (r : Voter × Option Village × Option Party) : VoterListRow :=
  ⟨r.1.id, r.1.name, r.1.ic_number, r.1.has_voted, r.1.voted_at,
    r.2.1.map (fun x => x.name), r.2.2.map (fun x => x.name), r.2.2.bind (fun x => x.color)⟩

/-- The page query: join, `WHERE`, `ORDER BY v.name`, `LIMIT ? OFFSET ?`. -/
def selectVoterPage (order : VoterOrder) (db : Db) (search village : String)
    (limit offset : Nat) : List VoterListRow :=
  ((((orderBy (fun r => r.1.name)
    (order.arrange ((joinVoters db).filter (fun r => pageWhere search village r.1 r.2.1)))).drop
      offset).take limit).map voterListRow)

/-- The count query: `SELECT COUNT(*) FROM voters v LEFT JOIN villages vil ... WHERE ...`. -/
def countVoters (db : Db) (search village : String) : Nat :=
  ((db.voters.flatMap fun v =>
    (leftJoin db.villages (fun vil => vil.id == v.village_id)).map fun vil => (v, vil)).filter
      (fun r => countWhere search village r.1 r.2)).length

/-- The value `Math.ceil(total / limit)`. -/
def ceilDiv (total limit : Nat) : Option Nat :=
  if limit = 0 then none else some ((total + limit - 1) / limit)

/-- The handler `getAllVoters`: the error response it sends, or the body of its 200
response. `order` is the order in which the engine hands over the rows of this page
query. `pages` is `Math.ceil(total / limit)`: for a total below 2^53, as a count of rows
is, the rounded quotient of the two Numbers has the ceiling of the exact quotient. -/
def getAllVoters (order : VoterOrder) (fault : Fault) (db : Db) (q : VoterQuery) :
    Except Response VoterPage :=
  let search := q.search.getD ""
  let village := q.village.getD ""
  match pageParams (q.page.getD 1) (q.limit.getD 50) with
  | none => .error ⟨500, .error "Failed to fetch voters"⟩
  | some (page, limit, offset) =>
    match fault 0 with
    | some _ => .error ⟨500, .error "Failed to fetch voters"⟩
    | none =>
      let voters := selectVoterPage order db search village limit offset
      match fault 1 with
      | some _ => .error ⟨500, .error "Failed to fetch voters"⟩
      | none =>
        let total := countVoters db search village
        .ok ⟨voters, ⟨page, limit, total, ceilDiv total limit⟩⟩

/-- The village a voter's `village_id` refers to, if there is one. -/
def villageOf (db : Db) (v : Voter) : Option Village :=
  db.villages.find? (fun vil => vil.id == v.village_id)

/-- The party a voter's `party_voted_id` refers to, if there is one. -/
def partyOf (db : Db) (v : Voter) : Option Party :=
  db.parties.find? (fun p => some p.id == v.party_voted_id)

/-- The row `getAllVoters` lists for a voter when village and party ids are distinct. -/
def voterListRowOf (db : Db) (v : Voter) : VoterListRow :=
  voterListRow (v, villageOf db v, partyOf db v)

/-- The voters the `WHERE` clause of `getAllVoters` selects when village ids are distinct. -/
def matchingVoters (db : Db) (search village : String) : List Voter :=
  db.voters.filter (fun v => pageWhere search village v (villageOf db v))

/-- Whether `pat` occurs in `s` starting at its first character, up to the collation. -/
def startsWithCI : List Char → List Char → Bool
  | _, [] => true
  | [], _ :: _ => false
  | c :: s, d :: pat => sameLetter d c && startsWithCI s pat

/-- Whether the text contains the string `sub`, compared case-insensitively. -/
def containsCI (text sub : String) : Bool :=
  anySuffix (fun t => startsWithCI t sub.data) text.data

/-- Whether a character is a wildcard or the escape character of a `LIKE` pattern. -/
def isLikeMeta (c : Char) : Bool :=
  c == '%' || c == '_' || c == likeEscape

/-! ## Listing villages -/

/-- A row of the array `getAllVillages` returns. -/
structure VillageListRow where
  id : Nat
  name : String
  description : Option String
  voter_count : Nat
  votes_cast : Nat
deriving DecidableEq, Repr

/-- The row of one group of `villages v LEFT JOIN voters vot GROUP BY v.id, v.name,
v.description`: the counts run over the joined rows of the group. -/
def villageListRow (db : Db) (g : Village) : VillageListRow :=
  ⟨g.id, g.name, g.description,
    db.villages.count g * (db.voters.filter (fun vot => vot.village_id == g.id)).length,
    db.villages.count g *
      (db.voters.filter (fun vot => vot.village_id == g.id && vot.has_voted)).length⟩

/-- The handler `getAllVillages`: the error response it sends, or the array of its 200
response, one row per group, ordered by name; `order` is the order in which the engine
hands over the groups. -/
def getAllVillages (order : RowOrder Village) (fault : Fault) (db : Db) :
    Except Response (List VillageListRow) :=
  match fault 0 with
  | some _ => .error ⟨500, .error "Failed to fetch villages"⟩
  | none =>
    .ok ((orderBy (fun g => g.name) (order.arrange db.villages.dedup)).map (villageListRow db))

/-! ## More sample data -/

/-- An uploaded logo file. -/
def sampleLogo : UploadedFile := ⟨"logo-1700000000.png", "uploads/party-flags/logo-1700000000.png"⟩

/-- A party request with a name, a color and an uploaded file. -/
def samplePartyRequest (name color : String) : PartyRequest :=
  ⟨.val name, .val "PB", .val color, .val "", some sampleLogo⟩

/-- The database `sampleDb` with a second village nobody lives in and a second party
nobody voted for, which has a stored logo. -/
def sampleDb2 : Db :=
  { sampleDb with
    villages := sampleDb.villages ++ [⟨2, "Kampung Hulu", some ""⟩]
    parties := sampleDb.parties ++
      [⟨2, "Parti Baru", some "PB", some "#DC2626", some "/uploads/party-flags/old.png", some ""⟩]
    nextVillageId := 3
    nextPartyId := 3 }

/-- All stored party colors match the pattern `#RRGGBB`. -/
def AllColorsHex (db : Db) : Prop :=
  ∀ p ∈ db.parties, p.color.map isHexColor = some true

/-- Two decimal digits writing a number below 100. -/
def twoDigits (k : Nat) : String :=
  String.mk [Char.ofNat (48 + k / 10), Char.ofNat (48 + k % 10)]

/-- The database `sampleDb` with 45 registered voters instead of two, named "Pengundi 01"
to "Pengundi 45" and stored from the last name to the first: the voter with id `i` has
the name with the number `46 - i`. -/
def sampleDb45 : Db :=
  { sampleDb with
    voters := (List.range 45).map fun i =>
      ⟨i + 1, "Pengundi " ++ twoDigits (45 - i), "9001010155" ++ twoDigits (i + 1), 1, false,
        none, none⟩
    nextVoterId := 46 }

/-- The database `sampleDb` with two voters of one name instead. -/
def sampleDbTwins : Db :=
  { sampleDb with
    voters :=
      [⟨1, "Ali", "900101015555", 1, false, none, none⟩,
       ⟨2, "Ali", "880202026666", 1, false, none, none⟩] }

/-- The database `sampleDb` with a second village under the id 2^53, where its first voter
lives. -/
def sampleDbFar : Db :=
  { sampleDb with
    voters :=
      [⟨1, "Ali", "900101015555", 9007199254740992, false, none, none⟩,
       ⟨2, "Siti", "880202026666", 1, true, some 5, some 1⟩]
    villages := [⟨1, "Kampung Baru", some ""⟩, ⟨9007199254740992, "Kampung Jauh", some ""⟩] }

/-- No two voters of the list have names the collation treats as equal. -/
def DistinctNames (l : List Voter) : Prop :=
  l.Pairwise (fun a b => sameText a.name b.name = false)

/-- The list is ordered by name: each voter's name precedes, under the collation, the
names of the voters after it. -/
def NameOrdered (l : List Voter) : Prop :=
  l.Pairwise (fun a b => nameLe a.name.data b.name.data = true)

/-- The handler `getAllVoters` selects the voters satisfying `sel`: whenever the numbers
of the query are ones the database takes, it answers 200 with the number of those voters
as total and, as rows, with the requested slice of a list that holds each of them once,
ordered by name. -/
def Selects (order : VoterOrder) (db : Db) (q : VoterQuery) (sel : Voter → Bool) : Prop :=
  ∀ page limit offset,
    pageParams (q.page.getD 1) (q.limit.getD 50) = some (page, limit, offset) →
    ∃ pg ordered, getAllVoters order noFault db q = .ok pg ∧
      pg.pagination.total = (db.voters.filter sel).length ∧
      ordered.Perm (db.voters.filter sel) ∧ NameOrdered ordered ∧
      pg.voters = ((ordered.drop offset).take limit).map (voterListRowOf db)

/-! ## Voting statistics -/

/-- Insertion of a row into a list ordered by `key` from newest to oldest, before the first
row that is not newer. -/
def insertNewest {α : Type} (key : α → Nat) (x : α) : List α → List α
  | [] => [x]
  | y :: ys =>
    if key y ≤ key x then x :: y :: ys
    else y :: insertNewest key x ys

/-- The clause `ORDER BY key DESC`, as a sort that keeps rows with equal keys in the order
they arrive in; SQL leaves that order open. -/
def orderNewest {α : Type} (key : α → Nat) : List α → List α
  | [] => []
  | x :: xs => insertNewest key x (orderNewest key xs)

/-- A row of `recent_votes`. -/
structure RecentVote where
  voter_name : String
  party_name : String
  party_color : Option String
  village_name : String
  voted_at : Nat
deriving DecidableEq, Repr

/-- The rows of `vote_logs vl JOIN voters v JOIN parties p JOIN villages vil`. -/
def joinVoteLogs (db : Db) : List (VoteLog × Voter × Party × Village) :=
  db.vote_logs.flatMap fun vl =>
    (db.voters.filter (fun v => v.id == vl.voter_id)).flatMap fun v =>
      (db.parties.filter (fun p => p.id == vl.party_id)).flatMap fun p =>
        (db.villages.filter (fun vil => vil.id == vl.village_id)).map fun vil => (vl, v, p, vil)

/-- The select list of the recent-votes query. -/
def recentVoteRow (r : VoteLog × Voter × Party × Village) : RecentVote :=
  ⟨r.2.1.name, r.2.2.1.name, r.2.2.1.color, r.2.2.2.name, r.1.voted_at⟩

/-- The recent-votes query of `getVotingStats`: the join, `ORDER BY vl.voted_at DESC`,
`LIMIT 10`. -/
def selectRecentVotes (db : Db) : List RecentVote :=
  (((orderNewest (fun r => r.1.voted_at) (joinVoteLogs db)).take 10).map recentVoteRow)

/-- The three aggregate views of the schema (`overall_stats`, `vote_stats_by_party`,
`vote_stats_by_village`), which are not part of the sources: the rows each returns on a
database state, and the object `getVotingStats` puts in place of a missing overall row. -/
structure StatViews (ρ : Type) where
  overall_stats : Db → List ρ
  vote_stats_by_party : Db → List ρ
  vote_stats_by_village : Db → List ρ
  zeroOverall : ρ

/-- A statistics object as sent to clients: `recent_votes` and `timestamp` are fields an
object may lack. -/
structure StatsPayload (ρ : Type) where
  overall : ρ
  by_party : List ρ
  by_village : List ρ
  recent_votes : Option (List RecentVote)
  timestamp : Option Nat
deriving DecidableEq, Repr

/-- The helper `getVotingStats`: four queries, then the statistics object. -/
def getVotingStats {ρ : Type} (views : StatViews ρ) (fault : Fault) (db : Db) :
    Except DbError (StatsPayload ρ) :=
  match fault 0 with
  | some e => .error e
  | none =>
    match fault 1 with
    | some e => .error e
    | none =>
      match fault 2 with
      | some e => .error e
      | none =>
        match fault 3 with
        | some e => .error e
        | none =>
          .ok ⟨((views.overall_stats db).head?).getD views.zeroOverall,
            views.vote_stats_by_party db, views.vote_stats_by_village db,
            some (selectRecentVotes db), none⟩

/-- The handler `getVotingStats` of `GET /api/voters/stats`: the error response it sends,
or the body of its 200 response. -/
def getVotingStatsEndpoint {ρ : Type} (views : StatViews ρ) (fault : Fault) (db : Db) :
    Except Response (StatsPayload ρ) :=
  match getVotingStats views fault db with
  | .ok stats => .ok stats
  | .error _ => .error ⟨500, .error "Failed to fetch statistics"⟩

/-- The vote log a voter id, a party id and a village id refer to existing rows of, on
tables with distinct ids. -/
def LogReferences (db : Db) : Prop :=
  (db.voters.map (fun x => x.id)).Nodup ∧ (db.parties.map (fun x => x.id)).Nodup ∧
  (db.villages.map (fun x => x.id)).Nodup ∧
  ∀ l ∈ db.vote_logs,
    (∃ v ∈ db.voters, v.id = l.voter_id) ∧ (∃ p ∈ db.parties, p.id = l.party_id) ∧
    (∃ g ∈ db.villages, g.id = l.village_id)

/-- The row of `recent_votes` a vote log gives when the rows it refers to exist. -/
def recentVoteOf (db : Db) (l : VoteLog) : Option RecentVote :=
  match db.voters.find? (fun v => v.id == l.voter_id),
        db.parties.find? (fun p => p.id == l.party_id),
        db.villages.find? (fun g => g.id == l.village_id) with
  | some v, some p, some g => some (recentVoteRow (l, v, p, g))
  | _, _, _ => none

/-! ## The push channel -/

/-- An event the server sends over the push channel. -/
inductive PushEvent (ρ : Type) where
  | statsUpdate (stats : StatsPayload ρ)
  | error (message : String)
deriving DecidableEq, Repr

/-- The handler of a client's `requestStats` event in `server.js`: the events it sends to
the requesting socket with `socket.emit`; `now` is the time of the call. -/
def requestStats {ρ : Type} (views : StatViews ρ) (fault : Fault) (now : Nat) (db : Db) :
    List (PushEvent ρ) :=
  match fault 0 with
  | some _ => [.error "Failed to fetch statistics"]
  | none =>
    match fault 1 with
    | some _ => [.error "Failed to fetch statistics"]
    | none =>
      match fault 2 with
      | some _ => [.error "Failed to fetch statistics"]
      | none =>
        [.statsUpdate ⟨((views.overall_stats db).head?).getD views.zeroOverall,
          views.vote_stats_by_party db, views.vote_stats_by_village db, none, some now⟩]

/-- Views for the sample data: every view is empty, the overall row is the number 0. -/
def sampleViews : StatViews Nat :=
  ⟨fun _ => [], fun _ => [], fun _ => [], 0⟩

/-! ## Routing -/

/-- The HTTP methods the application registers routes for. -/
inductive Method where
  | GET
  | POST
  | PUT
  | DELETE
deriving DecidableEq, Repr

/-- The final handlers of the application. -/
inductive Endpoint where
  | getAllVoters
  | addVoter
  | castVote
  | getVotingStats
  | getVoterById
  | updateVoter
  | deleteVoter
  | getAllVillages
  | addVillage
  | getVillageById
  | updateVillage
  | deleteVillage
  | getAllParties
  | addParty
  | getPartyColors
  | getPartyById
  | updateParty
  | uploadLogo
  | deleteParty
  | health
  | info
  | notFound
  | root
deriving DecidableEq, Repr

/-- A segment of a route path: a fixed word or a parameter such as `:id`. -/
inductive Segment where
  | word (w : String)
  | param (name : String)
deriving DecidableEq, Repr

/-- A layer of the application stack that ends the request: `method` and `path` are
`none` for a layer registered with `app.use` without a path, which takes every request. -/
structure Layer where
  method : Option Method
  path : Option (List Segment)
  endpoint : Endpoint
deriving DecidableEq, Repr

/-- Whether a path segment of a request matches a segment of a route: a fixed word up to
letter case (routing is not case sensitive), a parameter any segment. -/
def Segment.accepts : Segment → String → Bool
  | .word w, s => w.data.map Char.toLower == s.data.map Char.toLower
  | .param _, _ => true

/-- Whether the segments of a request path match the segments of a route path. -/
def pathAccepts : List Segment → List String → Bool
  | [], [] => true
  | seg :: segs, s :: ss => seg.accepts s && pathAccepts segs ss
  | _, _ => false

/-- Whether a layer takes a request. -/
def Layer.accepts (l : Layer) (m : Method) (path : List String) : Bool :=
  (match l.method with
    | none => true
    | some lm => lm == m) &&
  (match l.path with
    | none => true
    | some segs => pathAccepts segs path)

/-- The routes of `routes/voters.js`, in the order they are registered. -/
def votersRoutes : List Layer :=
  [⟨some .GET, some [], .getAllVoters⟩,
   ⟨some .POST, some [], .addVoter⟩,
   ⟨some .POST, some [.word "vote"], .castVote⟩,
   ⟨some .GET, some [.word "stats"], .getVotingStats⟩,
   ⟨some .GET, some [.param "id"], .getVoterById⟩,
   ⟨some .PUT, some [.param "id"], .updateVoter⟩,
   ⟨some .DELETE, some [.param "id"], .deleteVoter⟩]

/-- The routes of `routes/villages.js`, in the order they are registered. -/
def villagesRoutes : List Layer :=
  [⟨some .GET, some [], .getAllVillages⟩,
   ⟨some .POST, some [], .addVillage⟩,
   ⟨some .GET, some [.param "id"], .getVillageById⟩,
   ⟨some .PUT, some [.param "id"], .updateVillage⟩,
   ⟨some .DELETE, some [.param "id"], .deleteVillage⟩]

/-- The routes of `routes/parties.js`, in the order they are registered. -/
def partiesRoutes : List Layer :=
  [⟨some .GET, some [], .getAllParties⟩,
   ⟨some .POST, some [], .addParty⟩,
   ⟨some .GET, some [.word "colors"], .getPartyColors⟩,
   ⟨some .GET, some [.param "id"], .getPartyById⟩,
   ⟨some .PUT, some [.param "id"], .updateParty⟩,
   ⟨some .POST, some [.param "id", .word "upload-logo"], .uploadLogo⟩,
   ⟨some .DELETE, some [.param "id"], .deleteParty⟩]

/-- A router mounted with `app.use(path, router)`: its routes below the mount path. -/
def mount (at_ : List Segment) (routes : List Layer) : List Layer :=
  routes.map fun l => { l with path := l.path.map (fun segs => at_ ++ segs) }

/-- The layers of `server.js` registered before its 404 handler that end a request, in
the order they are registered: the three routers, the health and info endpoints. -/
def routedLayers : List Layer :=
  mount [.word "api", .word "voters"] votersRoutes ++
  mount [.word "api", .word "villages"] villagesRoutes ++
  mount [.word "api", .word "parties"] partiesRoutes ++
  [⟨some .GET, some [.word "api", .word "health"], .health⟩,
   ⟨some .GET, some [.word "api", .word "info"], .info⟩]

/-- The layers of `server.js` that end a request, in the order they are registered: the
routed layers, the 404 handler, and after it the root endpoint. -/
def appStack : List Layer :=
  routedLayers ++ [⟨none, none, .notFound⟩, ⟨some .GET, some [], .root⟩]

/-- The endpoint that answers a request: the first layer of the stack that takes it. A
request path is given by its segments, the root path by no segment. -/
def dispatch (m : Method) (path : List String) : Option Endpoint :=
  (appStack.find? (fun l => l.accepts m path)).map (fun l => l.endpoint)

/-! ## Rate limiting -/

/-- The options of a rate limiter built with `rateLimit`. -/
structure Limiter where
  windowMs : Nat
  max : Nat
  message : String
deriving DecidableEq, Repr

/-- The general limiter of `rateLimiter.js`. -/
def generalLimiter : Limiter :=
  ⟨15 * 60 * 1000, 100, "Too many requests from this IP, please try again later."⟩

/-- The vote limiter of `rateLimiter.js`. -/
def voteLimiter : Limiter :=
  ⟨5 * 60 * 1000, 10, "Too many vote attempts from this IP, please try again later."⟩

/-- The registration limiter of `rateLimiter.js`. -/
def registrationLimiter : Limiter :=
  ⟨10 * 60 * 1000, 20, "Too many registration attempts from this IP, please try again later."⟩

/-- The counter a limiter keeps for one client address: the requests counted in the
current window and the time the window started. -/
structure Hits where
  ip : String
  count : Nat
  windowStart : Nat
deriving DecidableEq, Repr

/-- Modelled from the spec: the rate limiter of the library, a fixed-window request counter
per client address. A request is counted in the window of its address, a new window
starting when the old one has run out, and it passes while the count is within `max`. -/
def Limiter.hit (l : Limiter) (store : List Hits) (ip : String) (now : Nat) : Bool × List Hits :=
  match store.find? (fun h => h.ip == ip) with
  | none => (decide (1 ≤ l.max), ⟨ip, 1, now⟩ :: store)
  | some h =>
    if h.windowStart + l.windowMs ≤ now then
      (decide (1 ≤ l.max), ⟨ip, 1, now⟩ :: store.filter (fun x => !(x.ip == ip)))
    else
      (decide (h.count + 1 ≤ l.max),
        ⟨ip, h.count + 1, h.windowStart⟩ :: store.filter (fun x => !(x.ip == ip)))

/-- The limiters `server.js` and the routers mount on the way of a request: the general
limiter on every path below `/api/`, and no other. -/
def mountedLimiters (path : List String) : List Limiter :=
  match path with
  | s :: _ => if (Segment.word "api").accepts s then [generalLimiter] else []
  | [] => []

/-- A request as the rate limiters and the router see it. -/
structure Request where
  method : Method
  path : List String
  ip : String
  now : Nat
deriving DecidableEq, Repr

/-- What becomes of a request: refused by a limiter with status 429, or passed to an
endpoint. -/
inductive Served where
  | limited (message : String)
  | reached (endpoint : Option Endpoint)
deriving DecidableEq, Repr

/-- A request on its way through the mounted limiter, if its path has one, to the
endpoint; `store` holds the counters of that limiter. -/
def serve (store : List Hits) (r : Request) : Served × List Hits :=
  match mountedLimiters r.path with
  | [] => (.reached (dispatch r.method r.path), store)
  | l :: _ =>
    if (l.hit store r.ip r.now).1 then
      (.reached (dispatch r.method r.path), (l.hit store r.ip r.now).2)
    else (.limited l.message, (l.hit store r.ip r.now).2)

/-- A sequence of requests served one after another. -/
def serveAll : List Hits → List Request → List Served
  | _, [] => []
  | store, r :: rs => (serve store r).1 :: serveAll (serve store r).2 rs

/-- The answers of a limiter to a number of requests from one address at one time. -/
def hitTimes (l : Limiter) (ip : String) (now : Nat) : Nat → List Hits → List Bool
  | 0, _ => []
  | n + 1, store => (l.hit store ip now).1 :: hitTimes l ip now n (l.hit store ip now).2

/-- Eleven vote requests from one client address within one second. -/
def sampleVoteRequests : List Request :=
  (List.range 11).map fun i => ⟨.POST, ["api", "voters", "vote"], "10.0.0.7", 1000 + i⟩

/-! ## Formatting of identity numbers (frontend) -/

/-- The helper `formatICNumber` of `utils/helpers.js`. -/
def formatICNumber (ic : String) : String :=
  if ic = "" then ""
  else
    let cleaned := ic.data.filter Char.isDigit
    if cleaned.length ≠ 12 then ic
    else
      String.mk (cleaned.take 6 ++ ['-'] ++ (cleaned.drop 6).take 2 ++ ['-'] ++ cleaned.drop 8)

/-- The database `sampleDb` after voter 1 has voted as well, at time 9. -/
def sampleDbVoted : Db :=
  { sampleDb with
    voters :=
      [⟨1, "Ali", "900101015555", 1, true, some 9, some 1⟩,
       ⟨2, "Siti", "880202026666", 1, true, some 5, some 1⟩]
    vote_logs :=
      [⟨1, 2, 1, 1, 5, "10.0.0.7", "curl"⟩, ⟨2, 1, 1, 1, 9, "10.0.0.8", "curl"⟩]
    nextLogId := 3 }

/-- The rows `getAllVoters` returns for a page of a listing, none if it answers with an
error. -/
def votersOnPage (order : VoterOrder) (db : Db) (limit : Nat) (search village : Option String)
    (page : Nat) : List VoterListRow :=
  match getAllVoters order noFault db ⟨some page, some limit, search, village⟩ with
  | .ok pg => pg.voters
  | .error _ => []

/-- A response is a success (status 200 or 201) or an error body with status 400, 404 or
500. -/
def SuccessOrError (r : Response) : Prop :=
  r.status = 200 ∨ r.status = 201 ∨
  (∃ msg, r.body = .error msg) ∧ (r.status = 400 ∨ r.status = 404 ∨ r.status = 500)

/-! ## Theorems -/

/-! ### Casting a vote -/

theorem castVoteCatch_ne_voteCast (e : DbError) : castVoteCatch e ≠ voteCast := by
  unfold castVoteCatch voteCast
  split <;> simp

/-- Every `castVote` call either fails and leaves the database as it was, or answers
success and leaves the state the stored procedure returned. -/
theorem castVote_cases {σ : Type} (proc : VoteProcedure) (stats : Db → Except DbError σ)
    (io : Bool) (fault : Fault) (now : Nat) (db : Db) (req : VoteRequest) :
    ((castVote proc stats io fault now db req).response ≠ voteCast ∧
      (castVote proc stats io fault now db req).db = db) ∨
    ((castVote proc stats io fault now db req).response = voteCast ∧
      truthyNum req.voter_id = true ∧ truthyNum req.party_id = true ∧
      proc db req.voter_id.get req.party_id.get req.ip (req.user_agent.getD "") now
        = .ok (castVote proc stats io fault now db req).db) := by
  unfold castVote
  by_cases hval : (!truthyNum req.voter_id || !truthyNum req.party_id) = true
  · left
    rw [if_pos hval]
    simp [voteCast]
  · rw [if_neg hval]
    simp only [Bool.or_eq_true, Bool.not_eq_true', not_or, Bool.not_eq_false] at hval
    cases hf : fault 0 with
    | some e => left; exact ⟨castVoteCatch_ne_voteCast e, rfl⟩
    | none =>
      cases hp : proc db req.voter_id.get req.party_id.get req.ip (req.user_agent.getD "") now with
      | error e => left; exact ⟨castVoteCatch_ne_voteCast e, rfl⟩
      | ok db1 =>
        right
        cases io with
        | false => exact ⟨rfl, hval.1, hval.2, rfl⟩
        | true =>
          cases hs : stats db1 with
          | ok s => simp only [hs, if_true]; exact ⟨rfl, hval.1, hval.2, trivial⟩
          | error e => simp only [hs, if_true]; exact ⟨rfl, hval.1, hval.2, trivial⟩

/-- The rows `CastVote` writes: every row of the voter that has not voted becomes voted. -/
theorem CastVote_voters {db db1 : Db} {vid pid now : Nat} {ip ua : String}
    (h : CastVote db vid pid ip ua now = .ok db1) :
    db1.voters = db.voters.map (fun w =>
      if w.id == vid && !w.has_voted then
        { w with has_voted := true, voted_at := some now, party_voted_id := some pid }
      else w) := by
  unfold CastVote at h
  split at h
  · simp at h
  · simp only [Except.ok.injEq] at h
    rw [← h]

/-- The vote-log rows `CastVote` writes: one appended row for the voter. -/
theorem CastVote_logs {db db1 : Db} {vid pid now : Nat} {ip ua : String}
    (h : CastVote db vid pid ip ua now = .ok db1) :
    ∃ l : VoteLog, l.voter_id = vid ∧ db1.vote_logs = db.vote_logs ++ [l] := by
  unfold CastVote at h
  split at h
  · simp at h
  · simp only [Except.ok.injEq] at h
    rw [← h]
    exact ⟨_, rfl, rfl⟩

theorem CastVote_fails {db : Db} {vid : Nat} (pid now : Nat) (ip ua : String)
    (h : canVote db vid = false) :
    CastVote db vid pid ip ua now
      = .error ⟨"ER_SIGNAL_EXCEPTION", "Voter not found or has already voted"⟩ := by
  have hf : db.voters.filter (fun v => v.id == vid && !v.has_voted) = [] := by
    rw [List.filter_eq_nil_iff]
    intro v hv
    unfold canVote at h
    rw [List.any_eq_false] at h
    exact h v hv
  unfold CastVote
  rw [hf]

theorem CastVote_canVote {db db1 : Db} {vid pid now : Nat} {ip ua : String}
    (h : CastVote db vid pid ip ua now = .ok db1) (x : Nat) :
    canVote db1 x = (canVote db x && !(x == vid)) := by
  rw [Bool.eq_iff_iff]
  unfold canVote
  rw [CastVote_voters h]
  simp only [List.any_map, List.any_eq_true, Bool.and_eq_true, Function.comp,
    Bool.not_eq_true', beq_iff_eq, beq_eq_false_iff_ne, ne_eq]
  constructor
  · rintro ⟨w, hw, hx⟩
    by_cases hc : w.id = vid ∧ w.has_voted = false
    · rw [if_pos hc] at hx
      simp at hx
    · rw [if_neg hc] at hx
      refine ⟨⟨w, hw, hx⟩, ?_⟩
      intro hxv
      apply hc
      exact ⟨hx.1.trans hxv, hx.2⟩
  · rintro ⟨⟨w, hw, hx⟩, hne⟩
    refine ⟨w, hw, ?_⟩
    have hc : ¬ (w.id = vid ∧ w.has_voted = false) := by
      rintro ⟨hwv, _⟩
      exact hne (hx.1.symm.trans hwv)
    rw [if_neg hc]
    exact hx

theorem CastVote_logCount {db db1 : Db} {vid pid now : Nat} {ip ua : String}
    (h : CastVote db vid pid ip ua now = .ok db1) (x : Nat) :
    logCount db1 x = logCount db x + (if x = vid then 1 else 0) := by
  obtain ⟨l, hl, hlogs⟩ := CastVote_logs h
  unfold logCount
  rw [hlogs, List.filter_append, List.length_append]
  congr 1
  by_cases hx : x = vid
  · simp [hx, hl]
  · have : ¬ l.voter_id = x := by rw [hl]; exact fun e => hx e.symm
    simp [hx, this]

theorem CastVote_keeps_voted {db db1 : Db} {vid pid now : Nat} {ip ua : String}
    (h : CastVote db vid pid ip ua now = .ok db1) (v : Voter) (hv : v ∈ db.voters)
    (hvoted : v.has_voted = true) : v ∈ db1.voters := by
  rw [CastVote_voters h, List.mem_map]
  refine ⟨v, hv, ?_⟩
  simp [hvoted]

theorem CastVote_ids {db db1 : Db} {vid pid now : Nat} {ip ua : String}
    (h : CastVote db vid pid ip ua now = .ok db1) :
    db1.voters.map (fun v => v.id) = db.voters.map (fun v => v.id) := by
  rw [CastVote_voters h, List.map_map]
  apply List.map_congr_left
  intro w _
  simp only [Function.comp]
  split <;> rfl

theorem truthyNum_val {x : Js Nat} (h : truthyNum x = true) : x = Js.val x.get := by
  cases x <;> simp [truthyNum, Js.get] at h ⊢

theorem successesFor_cons (c : VoteCall) (r : Response) (trace : List (VoteCall × Response))
    (vid : Nat) :
    successesFor ((c, r) :: trace) vid
      = (if c.req.voter_id = Js.val vid ∧ r = voteCast then 1 else 0) + successesFor trace vid := by
  unfold successesFor
  rw [List.filter_cons]
  by_cases h : c.req.voter_id = Js.val vid ∧ r = voteCast
  · simp [h, Nat.add_comm]
  · rw [if_neg h]
    have : (c.req.voter_id == Js.val vid && r == voteCast) = false := by
      rw [Bool.eq_false_iff]
      simpa using h
    simp [this]

/-- The bookkeeping of a sequence of `castVote` calls for one voter id. -/
theorem castVotes_bookkeeping {σ : Type} (stats : Db → Except DbError σ) (vid : Nat) :
    ∀ (calls : List VoteCall) (db : Db),
      successesFor (castVotes stats db calls).2 vid ≤ 1 ∧
      logCount (castVotes stats db calls).1 vid
        = logCount db vid + successesFor (castVotes stats db calls).2 vid ∧
      (canVote db vid = false → successesFor (castVotes stats db calls).2 vid = 0) ∧
      (∀ v ∈ db.voters, v.has_voted = true → v ∈ (castVotes stats db calls).1.voters) := by
  intro calls
  induction calls with
  | nil =>
    intro db
    simp only [castVotes, successesFor, List.filter_nil, List.length_nil, Nat.add_zero]
    exact ⟨Nat.zero_le _, trivial, fun _ => trivial, fun v hv _ => hv⟩
  | cons c cs ih =>
    intro db
    simp only [castVotes]
    rw [successesFor_cons]
    obtain ⟨ih1, ih2, ih3, ih4⟩ := ih (castVote CastVote stats c.io c.fault c.now db c.req).db
    rcases castVote_cases CastVote stats c.io c.fault c.now db c.req with ⟨hne, hdb⟩ | ⟨hok, hv, _, hproc⟩
    · have hhead : ¬ (c.req.voter_id = Js.val vid ∧
          (castVote CastVote stats c.io c.fault c.now db c.req).response = voteCast) :=
        fun h => hne h.2
      rw [if_neg hhead, Nat.zero_add]
      rw [hdb] at ih1 ih2 ih3 ih4 ⊢
      exact ⟨ih1, ih2, ih3, ih4⟩
    · have hcan := CastVote_canVote hproc vid
      have hcount := CastVote_logCount hproc vid
      have hkeep : ∀ v ∈ db.voters, v.has_voted = true →
          v ∈ (castVotes stats (castVote CastVote stats c.io c.fault c.now db c.req).db cs).1.voters :=
        fun v hv hvoted => ih4 v (CastVote_keeps_voted hproc v hv hvoted) hvoted
      by_cases hid : c.req.voter_id = Js.val vid
      · have hget : c.req.voter_id.get = vid := by rw [hid]; rfl
        rw [if_pos ⟨hid, hok⟩]
        rw [hget] at hcan hcount
        have hcan1 : canVote (castVote CastVote stats c.io c.fault c.now db c.req).db vid = false := by
          rw [hcan]; simp
        have hzero := ih3 hcan1
        rw [hzero, ih2, hzero, hcount]
        refine ⟨Nat.le_refl _, by simp, ?_, hkeep⟩
        intro hno
        rw [hget, CastVote_fails _ _ _ _ hno] at hproc
        simp at hproc
      · have hne : ¬ vid = c.req.voter_id.get := by
          intro h
          apply hid
          rw [h]
          exact truthyNum_val hv
        have hhead : ¬ (c.req.voter_id = Js.val vid ∧
            (castVote CastVote stats c.io c.fault c.now db c.req).response = voteCast) :=
          fun h => hid h.1
        rw [if_neg hhead, Nat.zero_add, ih2, hcount, if_neg hne, Nat.add_zero]
        refine ⟨ih1, rfl, ?_, hkeep⟩
        intro hno
        apply ih3
        rw [hcan, hno]
        rfl

/-- In a table whose ids are distinct, a voter that has voted cannot vote. -/
theorem canVote_false_of_voted {db : Db} {v : Voter}
    (hkeys : (db.voters.map (fun v => v.id)).Nodup) (hv : v ∈ db.voters)
    (hvoted : v.has_voted = true) : canVote db v.id = false := by
  unfold canVote
  rw [List.any_eq_false]
  intro w hw
  have hinj := List.inj_on_of_nodup_map hkeys
  by_cases hid : w.id = v.id
  · have : w = v := hinj hw hv hid
    simp [this, hvoted]
  · simp [hid]

/-- C1. For every voter and every sequence of `castVote` calls run against the stored
procedure `CastVote`, `has_voted` goes from false to true at most once: at most one call
for the voter is answered "Vote cast successfully", the voter gains exactly one vote-log
row per such answer, and for a voter whose `has_voted` is already true no call is
answered with success, no vote-log row is added for it and its row stays as it is. -/
theorem castVote_at_most_once {σ : Type} (stats : Db → Except DbError σ) (db : Db)
    (calls : List VoteCall) (v : Voter)
    (hkeys : (db.voters.map (fun v => v.id)).Nodup) (hv : v ∈ db.voters) :
    successesFor (castVotes stats db calls).2 v.id ≤ 1 ∧
    logCount (castVotes stats db calls).1 v.id
      = logCount db v.id + successesFor (castVotes stats db calls).2 v.id ∧
    (v.has_voted = true →
      successesFor (castVotes stats db calls).2 v.id = 0 ∧
      logCount (castVotes stats db calls).1 v.id = logCount db v.id ∧
      v ∈ (castVotes stats db calls).1.voters) := by
  obtain ⟨h1, h2, h3, h4⟩ := castVotes_bookkeeping stats v.id calls db
  refine ⟨h1, h2, ?_⟩
  intro hvoted
  have hzero := h3 (canVote_false_of_voted hkeys hv hvoted)
  refine ⟨hzero, ?_, h4 v hv hvoted⟩
  rw [h2, hzero, Nat.add_zero]

theorem castVote_at_most_once_witness :
    (sampleDb.voters.map (fun v => v.id)).Nodup ∧ sampleSiti ∈ sampleDb.voters ∧
    sampleSiti.has_voted = true ∧
    successesFor (castVotes sampleStats sampleDb sampleCalls).2 sampleSiti.id = 0 ∧
    logCount (castVotes sampleStats sampleDb sampleCalls).1 sampleSiti.id
      = logCount sampleDb sampleSiti.id ∧
    sampleSiti ∈ (castVotes sampleStats sampleDb sampleCalls).1.voters :=
  ⟨by decide, by decide, by decide,
    (castVote_at_most_once sampleStats sampleDb sampleCalls sampleSiti
      (by decide) (by decide)).2.2 (by decide)⟩

theorem includes_signal :
    includes "Voter not found or has already voted" "Voter not found or has already voted"
      = true := by
  decide

/-- C3. For every `castVote` request whose `voter_id` and `party_id` are both present
(truthy), a voter id that no row has and a voter id all of whose rows have voted get the
same answer from the stored procedure `CastVote`: status 400 with error "Voter not found
or has already voted". Whatever the procedure, every failure of the vote call whose
message does not carry that text is answered with status 500 and error "Failed to cast
vote". -/
theorem castVote_rejections {σ : Type} (proc : VoteProcedure) (stats : Db → Except DbError σ)
    (io : Bool) (fault : Fault) (now : Nat) (db : Db) (req : VoteRequest)
    (hvoter : truthyNum req.voter_id = true) (hparty : truthyNum req.party_id = true) :
    (fault 0 = none → (∀ v ∈ db.voters, v.id ≠ req.voter_id.get) →
      (castVote CastVote stats io fault now db req).response
        = ⟨400, .error "Voter not found or has already voted"⟩) ∧
    (fault 0 = none → (∀ v ∈ db.voters, v.id = req.voter_id.get → v.has_voted = true) →
      (castVote CastVote stats io fault now db req).response
        = ⟨400, .error "Voter not found or has already voted"⟩) ∧
    (∀ e : DbError,
      (fault 0 = some e ∨ (fault 0 = none ∧
        proc db req.voter_id.get req.party_id.get req.ip (req.user_agent.getD "") now
          = .error e)) →
      includes e.message "Voter not found or has already voted" = false →
      (castVote proc stats io fault now db req).response
        = ⟨500, .error "Failed to cast vote"⟩) := by
  have hval : (!truthyNum req.voter_id || !truthyNum req.party_id) = false := by
    simp [hvoter, hparty]
  have key : fault 0 = none →
      (∀ v ∈ db.voters, v.id = req.voter_id.get → v.has_voted = true) →
      (castVote CastVote stats io fault now db req).response
        = ⟨400, .error "Voter not found or has already voted"⟩ := by
    intro hf hall
    have hcan : canVote db req.voter_id.get = false := by
      unfold canVote
      rw [List.any_eq_false]
      intro w hw
      by_cases hid : w.id = req.voter_id.get
      · simp [hid, hall w hw hid]
      · simp [hid]
    unfold castVote
    rw [hval]
    simp only [Bool.false_eq_true, if_false, hf, CastVote_fails _ _ _ _ hcan]
    unfold castVoteCatch
    rw [if_pos includes_signal]
  refine ⟨?_, key, ?_⟩
  · intro hf hnone
    exact key hf (fun v hv hid => absurd hid (hnone v hv))
  · intro e he hmsg
    have hcatch : castVoteCatch e = ⟨500, .error "Failed to cast vote"⟩ := by
      unfold castVoteCatch
      rw [hmsg]
      rfl
    unfold castVote
    rw [hval]
    rcases he with hf | ⟨hf, hp⟩
    · simp only [Bool.false_eq_true, if_false, hf, hcatch]
    · simp only [Bool.false_eq_true, if_false, hf, hp, hcatch]

theorem castVote_rejections_witness :
    truthyNum (sampleVote 2 1).voter_id = true ∧ truthyNum (sampleVote 2 1).party_id = true ∧
    (castVote CastVote sampleStats true noFault 7 sampleDb (sampleVote 9 1)).response
      = ⟨400, .error "Voter not found or has already voted"⟩ ∧
    (castVote CastVote sampleStats true noFault 7 sampleDb (sampleVote 2 1)).response
      = ⟨400, .error "Voter not found or has already voted"⟩ ∧
    (castVote CastVote sampleStats true sampleOutage 7 sampleDb (sampleVote 2 1)).response
      = ⟨500, .error "Failed to cast vote"⟩ :=
  ⟨by decide, by decide,
    (castVote_rejections CastVote sampleStats true noFault 7 sampleDb (sampleVote 9 1)
      (by decide) (by decide)).1 rfl (by decide),
    (castVote_rejections CastVote sampleStats true noFault 7 sampleDb (sampleVote 2 1)
      (by decide) (by decide)).2.1 rfl (by decide),
    (castVote_rejections CastVote sampleStats true sampleOutage 7 sampleDb (sampleVote 2 1)
      (by decide) (by decide)).2.2 ⟨"ECONNREFUSED", "connect ECONNREFUSED 127.0.0.1:3306"⟩
      (Or.inl rfl) (by decide)⟩

/-! ### Editing and deleting voters -/

/-- With distinct ids, the rows selected by `WHERE id = ?` for a stored voter are that voter. -/
theorem filter_id_eq_singleton :
    ∀ (l : List Voter) (v : Voter), (l.map (fun v => v.id)).Nodup → v ∈ l →
      l.filter (fun w => w.id == v.id) = [v] := by
  intro l
  induction l with
  | nil => intro v _ hv; simp at hv
  | cons a t ih =>
    intro v hnd hv
    rw [List.map_cons, List.nodup_cons] at hnd
    obtain ⟨ha, ht⟩ := hnd
    have hnone : ∀ w ∈ t, ¬ w.id = a.id := by
      intro w hw hid
      apply ha
      rw [← hid]
      exact List.mem_map_of_mem (fun v => v.id) hw
    rcases List.mem_cons.mp hv with rfl | hvt
    · rw [List.filter_cons]
      have htail : t.filter (fun w => w.id == v.id) = [] := by
        rw [List.filter_eq_nil_iff]
        intro w hw
        simpa using hnone w hw
      simp [htail]
    · rw [List.filter_cons]
      have hav : ¬ a.id = v.id := fun h => hnone v hvt h.symm
      have : (a.id == v.id) = false := by simpa using hav
      rw [this]
      simpa using ih v ht hvt

theorem bodyPresent_iff (body : VoterBody) :
    (!truthyStr body.name || !truthyStr body.ic_number || !truthyNum body.village_id) = false ↔
      truthyStr body.name = true ∧ truthyStr body.ic_number = true ∧
        truthyNum body.village_id = true := by
  cases truthyStr body.name <;> cases truthyStr body.ic_number <;>
    cases truthyNum body.village_id <;> simp

/-- C4. For every voter whose `has_voted` flag is true, `updateVoter` (with name, ic_number
and village_id all supplied) and `deleteVoter` leave the database exactly as it was
whatever the database layer does, and when their first query is answered both respond
with status 400: "Cannot edit voter who has already voted" and "Cannot delete voter who
has already voted". -/
theorem voted_voter_is_locked (fault : Fault) (db : Db) (v : Voter) (body : VoterBody)
    (hkeys : (db.voters.map (fun v => v.id)).Nodup) (hv : v ∈ db.voters)
    (hvoted : v.has_voted = true)
    (hname : truthyStr body.name = true) (hic : truthyStr body.ic_number = true)
    (hvillage : truthyNum body.village_id = true) :
    (updateVoter fault db v.id body).db = db ∧
    (deleteVoter fault db v.id).db = db ∧
    (fault 0 = none →
      (updateVoter fault db v.id body).response
        = ⟨400, .error "Cannot edit voter who has already voted"⟩ ∧
      (deleteVoter fault db v.id).response
        = ⟨400, .error "Cannot delete voter who has already voted"⟩) := by
  have hsel := filter_id_eq_singleton db.voters v hkeys hv
  have hbody := (bodyPresent_iff body).mpr ⟨hname, hic, hvillage⟩
  have hu : ∀ e, fault 0 = e →
      (updateVoter fault db v.id body).db = db ∧
      (e = none → (updateVoter fault db v.id body).response
        = ⟨400, .error "Cannot edit voter who has already voted"⟩) := by
    intro e he
    unfold updateVoter
    rw [hbody, hsel]
    cases e with
    | some e => simp [he]
    | none => simp [he, hvoted]
  have hd : ∀ e, fault 0 = e →
      (deleteVoter fault db v.id).db = db ∧
      (e = none → (deleteVoter fault db v.id).response
        = ⟨400, .error "Cannot delete voter who has already voted"⟩) := by
    intro e he
    unfold deleteVoter
    rw [hsel]
    cases e with
    | some e => simp [he]
    | none => simp [he, hvoted]
  exact ⟨(hu _ rfl).1, (hd _ rfl).1, fun hf => ⟨(hu _ rfl).2 hf, (hd _ rfl).2 hf⟩⟩

theorem voted_voter_is_locked_witness :
    (sampleDb.voters.map (fun v => v.id)).Nodup ∧ sampleSiti ∈ sampleDb.voters ∧
    sampleSiti.has_voted = true ∧
    (updateVoter noFault sampleDb 2 ⟨.val "Siti Aminah", .val "880202026666", .val 1⟩).db
      = sampleDb ∧
    (deleteVoter noFault sampleDb 2).db = sampleDb ∧
    (updateVoter noFault sampleDb 2 ⟨.val "Siti Aminah", .val "880202026666", .val 1⟩).response
      = ⟨400, .error "Cannot edit voter who has already voted"⟩ ∧
    (deleteVoter noFault sampleDb 2).response
      = ⟨400, .error "Cannot delete voter who has already voted"⟩ :=
  have h := voted_voter_is_locked noFault sampleDb sampleSiti
    ⟨.val "Siti Aminah", .val "880202026666", .val 1⟩
    (by decide) (by decide) (by decide) (by decide) (by decide) (by decide)
  ⟨by decide, by decide, by decide, h.1, h.2.1, (h.2.2 rfl).1, (h.2.2 rfl).2⟩

/-- Every `updateVoter` call either leaves the database as it was without answering 200, or
found a first row with the id that has not voted and ran the UPDATE statement. -/
theorem updateVoter_cases (fault : Fault) (db : Db) (id : Nat) (body : VoterBody) :
    ((updateVoter fault db id body).db = db ∧
      (updateVoter fault db id body).response.status ≠ 200) ∨
    ((truthyStr body.name = true ∧ truthyStr body.ic_number = true ∧
        truthyNum body.village_id = true) ∧
      (∃ existing rest, db.voters.filter (fun v => v.id == id) = existing :: rest ∧
        existing.has_voted = false) ∧
      (updateVoter fault db id body).db
        = updateVoterRows db body.name.get body.ic_number.get body.village_id.get id) := by
  unfold updateVoter
  by_cases hbody :
      (!truthyStr body.name || !truthyStr body.ic_number || !truthyNum body.village_id) = true
  · left
    rw [if_pos hbody]
    exact ⟨rfl, by simp⟩
  · rw [if_neg hbody]
    have hpresent := (bodyPresent_iff body).mp (by simpa using hbody)
    cases hf0 : fault 0 with
    | some e => left; exact ⟨rfl, by simp⟩
    | none =>
      cases hsel : db.voters.filter (fun v => v.id == id) with
      | nil => left; exact ⟨rfl, by simp⟩
      | cons existing rest =>
        by_cases hvoted : existing.has_voted = true
        · left; simp [hvoted]
        · cases hf1 : fault 1 with
          | some e => left; simp [hvoted]
          | none =>
            by_cases hdup : (db.voters.filter
                (fun v => v.ic_number == body.ic_number.get && v.id != id)).length > 0
            · left
              simp only [if_neg hvoted, if_pos hdup]
              simp
            · simp only [if_neg hvoted, if_neg hdup]
              cases hf2 : fault 2 with
              | some e => left; exact ⟨rfl, by simp⟩
              | none =>
                right
                refine ⟨hpresent, ⟨existing, rest, rfl, by simpa using hvoted⟩, ?_⟩
                cases hf3 : fault 3 <;> rfl

/-- Every `deleteVoter` call either leaves the database as it was without answering 200, or
found a first row with the id that has not voted and ran the DELETE statement. -/
theorem deleteVoter_cases (fault : Fault) (db : Db) (id : Nat) :
    ((deleteVoter fault db id).db = db ∧ (deleteVoter fault db id).response.status ≠ 200) ∨
    ((∃ existing rest, db.voters.filter (fun v => v.id == id) = existing :: rest ∧
        existing.has_voted = false) ∧
      (deleteVoter fault db id).db
        = { db with voters := db.voters.filter (fun v => !(v.id == id)) }) := by
  unfold deleteVoter
  cases hf0 : fault 0 with
  | some e => left; exact ⟨rfl, by simp⟩
  | none =>
    cases hsel : db.voters.filter (fun v => v.id == id) with
    | nil => left; exact ⟨rfl, by simp⟩
    | cons existing rest =>
      by_cases hvoted : existing.has_voted = true
      · left; simp [hvoted]
      · cases hf1 : fault 1 with
        | some e => left; simp [hvoted]
        | none =>
          right
          refine ⟨⟨existing, rest, rfl, by simpa using hvoted⟩, ?_⟩
          simp [hvoted]

/-- C8. For every stored voter that has not voted, when the first two queries of
`updateVoter` are answered: if some voter with a different id already holds the requested
ic_number, the answer is status 400 "IC number already exists" and the database is
unchanged; if the requested ic_number is held by no voter with a different id, the answer
is not that conflict, and it is status 200 when the remaining statements are answered. -/
theorem updateVoter_ic_conflict (fault : Fault) (db : Db) (v : Voter) (body : VoterBody)
    (hkeys : (db.voters.map (fun v => v.id)).Nodup) (hv : v ∈ db.voters)
    (hnot : v.has_voted = false)
    (hname : truthyStr body.name = true) (hic : truthyStr body.ic_number = true)
    (hvillage : truthyNum body.village_id = true)
    (hf0 : fault 0 = none) (hf1 : fault 1 = none) :
    ((∃ w ∈ db.voters, w.ic_number = body.ic_number.get ∧ w.id ≠ v.id) →
      (updateVoter fault db v.id body).response = ⟨400, .error "IC number already exists"⟩ ∧
      (updateVoter fault db v.id body).db = db) ∧
    ((∀ w ∈ db.voters, w.ic_number = body.ic_number.get → w.id = v.id) →
      (updateVoter fault db v.id body).response ≠ ⟨400, .error "IC number already exists"⟩ ∧
      (fault 2 = none → fault 3 = none →
        (updateVoter fault db v.id body).response.status = 200)) := by
  have hsel := filter_id_eq_singleton db.voters v hkeys hv
  have hbody := (bodyPresent_iff body).mpr ⟨hname, hic, hvillage⟩
  constructor
  · rintro ⟨w, hw, hwic, hwid⟩
    have hdup : (db.voters.filter
        (fun x => x.ic_number == body.ic_number.get && x.id != v.id)).length > 0 := by
      exact List.length_pos_of_mem (List.mem_filter.mpr ⟨hw, by simp [hwic, hwid]⟩)
    unfold updateVoter
    rw [hbody, hsel]
    simp only [Bool.false_eq_true, if_false, hf0, hf1, hnot, if_pos hdup]
    simp
  · intro honly
    have hdup : ¬ (db.voters.filter
        (fun x => x.ic_number == body.ic_number.get && x.id != v.id)).length > 0 := by
      have hnil : db.voters.filter
          (fun x => x.ic_number == body.ic_number.get && x.id != v.id) = [] := by
        rw [List.filter_eq_nil_iff]
        intro w hw
        by_cases hwic : w.ic_number = body.ic_number.get
        · simp [hwic, honly w hw hwic]
        · simp [hwic]
      rw [hnil]
      decide
    unfold updateVoter
    rw [hbody, hsel]
    simp only [Bool.false_eq_true, if_false, hf0, hf1, hnot, if_neg hdup]
    constructor
    · cases hf2 : fault 2 with
      | some e => simp
      | none => cases hf3 : fault 3 <;> simp
    · intro hf2 hf3
      simp [hf2, hf3]

theorem updateVoter_ic_conflict_witness :
    (sampleDb.voters.map (fun v => v.id)).Nodup ∧ sampleAli ∈ sampleDb.voters ∧
    sampleAli.has_voted = false ∧
    (updateVoter noFault sampleDb 1 ⟨.val "Ali", .val "880202026666", .val 1⟩).response
      = ⟨400, .error "IC number already exists"⟩ ∧
    (updateVoter noFault sampleDb 1 ⟨.val "Ali", .val "880202026666", .val 1⟩).db = sampleDb ∧
    (updateVoter noFault sampleDb 1 ⟨.val "Ali bin Abu", .val "900101015555", .val 1⟩).response.status
      = 200 :=
  ⟨by decide, by decide, by decide,
    ((updateVoter_ic_conflict noFault sampleDb sampleAli
      ⟨.val "Ali", .val "880202026666", .val 1⟩
      (by decide) (by decide) (by decide) (by decide) (by decide) (by decide) rfl rfl).1
      ⟨sampleSiti, by decide, by decide, by decide⟩).1,
    ((updateVoter_ic_conflict noFault sampleDb sampleAli
      ⟨.val "Ali", .val "880202026666", .val 1⟩
      (by decide) (by decide) (by decide) (by decide) (by decide) (by decide) rfl rfl).1
      ⟨sampleSiti, by decide, by decide, by decide⟩).2,
    ((updateVoter_ic_conflict noFault sampleDb sampleAli
      ⟨.val "Ali bin Abu", .val "900101015555", .val 1⟩
      (by decide) (by decide) (by decide) (by decide) (by decide) (by decide) rfl rfl).2
      (by decide)).2 rfl rfl⟩

theorem truthyStr_val {x : Js String} (h : truthyStr x = true) : x = Js.val x.get := by
  cases x <;> simp [truthyStr, Js.get] at h ⊢

/-- C9. A successful `updateVoter` (status 200) addressed an existing voter and leaves the
voters table row for row as it was, except that each row with the addressed id now holds
the name, ic_number and village_id of the request; the id, `has_voted`, `voted_at` and
`party_voted_id` of that row, every other voter's row and the other three tables are
unchanged. -/
theorem updateVoter_frame (fault : Fault) (db : Db) (id : Nat) (body : VoterBody)
    (hok : (updateVoter fault db id body).response.status = 200) :
    (∃ v ∈ db.voters, v.id = id) ∧
    List.Forall₂
      (fun v v' =>
        (v.id ≠ id → v' = v) ∧
        (v.id = id →
          body.name = Js.val v'.name ∧ body.ic_number = Js.val v'.ic_number ∧
          body.village_id = Js.val v'.village_id ∧
          v'.id = v.id ∧ v'.has_voted = v.has_voted ∧ v'.voted_at = v.voted_at ∧
          v'.party_voted_id = v.party_voted_id))
      db.voters (updateVoter fault db id body).db.voters ∧
    (updateVoter fault db id body).db.villages = db.villages ∧
    (updateVoter fault db id body).db.parties = db.parties ∧
    (updateVoter fault db id body).db.vote_logs = db.vote_logs := by
  rcases updateVoter_cases fault db id body with ⟨_, hne⟩ | ⟨⟨hname, hic, hvillage⟩, hex, hdb⟩
  · exact absurd hok hne
  · obtain ⟨existing, rest, hsel, _⟩ := hex
    have hmem : existing ∈ db.voters.filter (fun v => v.id == id) := by
      rw [hsel]; exact List.mem_cons_self _ _
    rw [List.mem_filter] at hmem
    refine ⟨⟨existing, hmem.1, by simpa using hmem.2⟩, ?_, ?_, ?_, ?_⟩
    · rw [hdb]
      unfold updateVoterRows
      rw [List.forall₂_map_right_iff, List.forall₂_same]
      intro v _
      by_cases hid : v.id = id
      · have hb : (v.id == id) = true := by simpa using hid
        rw [if_pos hb]
        exact ⟨fun h => absurd hid h, fun _ =>
          ⟨truthyStr_val hname, truthyStr_val hic, truthyNum_val hvillage, rfl, rfl, rfl, rfl⟩⟩
      · have hb : (v.id == id) = false := by simpa using hid
        simp [hb, hid]
    · rw [hdb]; rfl
    · rw [hdb]; rfl
    · rw [hdb]; rfl

theorem updateVoter_frame_witness :
    (updateVoter noFault sampleDb 1 ⟨.val "Ali bin Abu", .val "900101019999", .val 1⟩).response.status
      = 200 ∧
    (updateVoter noFault sampleDb 1 ⟨.val "Ali bin Abu", .val "900101019999", .val 1⟩).db.vote_logs
      = sampleDb.vote_logs :=
  ⟨by decide,
    (updateVoter_frame noFault sampleDb 1 ⟨.val "Ali bin Abu", .val "900101019999", .val 1⟩
      (by decide)).2.2.2.2⟩

/-- With distinct ids, deleting the rows with a stored voter's id erases that voter's row. -/
theorem filter_ne_id_eq_erase :
    ∀ (l : List Voter) (v : Voter), (l.map (fun v => v.id)).Nodup → v ∈ l →
      l.filter (fun w => !(w.id == v.id)) = l.erase v := by
  intro l
  induction l with
  | nil => intro v _ hv; simp at hv
  | cons a t ih =>
    intro v hnd hv
    rw [List.map_cons, List.nodup_cons] at hnd
    obtain ⟨ha, ht⟩ := hnd
    have hnone : ∀ w ∈ t, ¬ w.id = a.id := by
      intro w hw hid
      apply ha
      rw [← hid]
      exact List.mem_map_of_mem (fun v => v.id) hw
    by_cases hav : a = v
    · subst hav
      have htail : t.filter (fun w => !(w.id == a.id)) = t := by
        rw [List.filter_eq_self]
        intro w hw
        simpa using hnone w hw
      simp [htail]
    · have hvt : v ∈ t := by
        rcases List.mem_cons.mp hv with h | h
        · exact absurd h.symm hav
        · exact h
      have hid : ¬ a.id = v.id := fun h => hnone v hvt h.symm
      have hb : (a.id == v.id) = false := by simpa using hid
      rw [List.filter_cons, hb, List.erase_cons_tail (by simpa using hav)]
      simp [ih v ht hvt]

/-- C10. With the database layer answering, `deleteVoter` answers 404 "Voter not found" and
changes nothing when no voter has the given id; for a stored voter that has not voted it
answers success, erases exactly that voter's row from the voters table, leaves the other
rows and the other tables as they were, and a following `getVoterById` for the same id
answers 404. -/
theorem deleteVoter_removes_row (db : Db) (id : Nat) :
    ((∀ v ∈ db.voters, v.id ≠ id) →
      (deleteVoter noFault db id).response = ⟨404, .error "Voter not found"⟩ ∧
      (deleteVoter noFault db id).db = db) ∧
    (∀ v : Voter, (db.voters.map (fun v => v.id)).Nodup → v ∈ db.voters → v.id = id →
      v.has_voted = false →
      (deleteVoter noFault db id).response = ⟨200, .message "Voter deleted successfully"⟩ ∧
      (deleteVoter noFault db id).db.voters = db.voters.erase v ∧
      (deleteVoter noFault db id).db.villages = db.villages ∧
      (deleteVoter noFault db id).db.parties = db.parties ∧
      (deleteVoter noFault db id).db.vote_logs = db.vote_logs ∧
      getVoterById noFault (deleteVoter noFault db id).db id
        = ⟨404, .error "Voter not found"⟩) := by
  constructor
  · intro hnone
    have hsel : db.voters.filter (fun v => v.id == id) = [] := by
      rw [List.filter_eq_nil_iff]
      intro w hw
      simpa using hnone w hw
    unfold deleteVoter
    simp [noFault, hsel]
  · intro v hkeys hv hid hnot
    subst hid
    have hsel := filter_id_eq_singleton db.voters v hkeys hv
    have hdb : deleteVoter noFault db v.id
        = ⟨{ db with voters := db.voters.erase v },
            ⟨200, .message "Voter deleted successfully"⟩⟩ := by
      unfold deleteVoter
      simp [noFault, hsel, hnot, filter_ne_id_eq_erase db.voters v hkeys hv]
    rw [hdb]
    refine ⟨rfl, rfl, rfl, rfl, rfl, ?_⟩
    have hgone : (db.voters.erase v).filter (fun w => w.id == v.id) = [] := by
      rw [← filter_ne_id_eq_erase db.voters v hkeys hv, List.filter_filter,
        List.filter_eq_nil_iff]
      intro w _
      simp
    unfold getVoterById selectVoterDetail
    simp [noFault, hgone]

theorem deleteVoter_removes_row_witness :
    (∀ v ∈ sampleDb.voters, v.id ≠ 7) ∧
    (deleteVoter noFault sampleDb 7).response = ⟨404, .error "Voter not found"⟩ ∧
    (sampleDb.voters.map (fun v => v.id)).Nodup ∧ sampleAli ∈ sampleDb.voters ∧
    sampleAli.has_voted = false ∧
    (deleteVoter noFault sampleDb 1).db.voters = sampleDb.voters.erase sampleAli ∧
    getVoterById noFault (deleteVoter noFault sampleDb 1).db 1
      = ⟨404, .error "Voter not found"⟩ :=
  ⟨by decide, ((deleteVoter_removes_row sampleDb 7).1 (by decide)).1,
    by decide, by decide, by decide,
    ((deleteVoter_removes_row sampleDb 1).2 sampleAli (by decide) (by decide) rfl rfl).2.1,
    ((deleteVoter_removes_row sampleDb 1).2 sampleAli
      (by decide) (by decide) rfl rfl).2.2.2.2.2⟩

/-! ### Registering voters -/

theorem addVoterCatch_body (e : DbError) :
    (addVoterCatch e).body ≠ .error "Name, IC number, and village are required" ∧
    (addVoterCatch e).body ≠ .error "IC number must be 12 digits" := by
  unfold addVoterCatch
  split <;> exact ⟨by decide, by decide⟩

/-- C6. `addVoter` answers status 400 with one of its two validation messages and leaves
the database as it was whenever name, ic_number or village_id is missing (not truthy) or
ic_number is not exactly twelve decimal digits. For every request with the three fields
present and an ic_number of exactly twelve digits, validation passes (the answer is
neither validation message) and the insert is attempted: when the INSERT statement is
answered, an ic_number no voter holds yields the new row, with a fresh id and
`has_voted` false, appended to the voters table (and status 201 once the row is read
back), while an ic_number already held yields status 400 "IC number already exists" and no
change. -/
theorem addVoter_validation (fault : Fault) (db : Db) (body : VoterBody) :
    ((truthyStr body.name = false ∨ truthyStr body.ic_number = false ∨
        truthyNum body.village_id = false ∨
        isTwelveDigits (jsString body.ic_number) = false) →
      (addVoter fault db body).response.status = 400 ∧
      ((addVoter fault db body).response.body
          = .error "Name, IC number, and village are required" ∨
        (addVoter fault db body).response.body = .error "IC number must be 12 digits") ∧
      (addVoter fault db body).db = db) ∧
    ((truthyStr body.name = true ∧ truthyStr body.ic_number = true ∧
        truthyNum body.village_id = true ∧
        isTwelveDigits (jsString body.ic_number) = true) →
      ((addVoter fault db body).response.body
          ≠ .error "Name, IC number, and village are required" ∧
        (addVoter fault db body).response.body ≠ .error "IC number must be 12 digits") ∧
      (fault 0 = none →
        ((∀ v ∈ db.voters, v.ic_number ≠ body.ic_number.get) →
          (addVoter fault db body).db.voters
            = db.voters ++ [⟨db.nextVoterId, body.name.get, body.ic_number.get,
                body.village_id.get, false, none, none⟩] ∧
          (fault 1 = none → (addVoter fault db body).response.status = 201)) ∧
        ((∃ v ∈ db.voters, v.ic_number = body.ic_number.get) →
          (addVoter fault db body).response = ⟨400, .error "IC number already exists"⟩ ∧
          (addVoter fault db body).db = db))) := by
  constructor
  · intro hbad
    unfold addVoter
    by_cases hbody :
        (!truthyStr body.name || !truthyStr body.ic_number || !truthyNum body.village_id) = true
    · rw [if_pos hbody]
      exact ⟨rfl, Or.inl rfl, rfl⟩
    · rw [if_neg hbody]
      obtain ⟨hname, hic, hvillage⟩ := (bodyPresent_iff body).mp (by simpa using hbody)
      have hdigits : isTwelveDigits (jsString body.ic_number) = false := by
        rcases hbad with h | h | h | h
        · rw [hname] at h; exact absurd h (by decide)
        · rw [hic] at h; exact absurd h (by decide)
        · rw [hvillage] at h; exact absurd h (by decide)
        · exact h
      simp only [hdigits, Bool.not_false, if_true]
      exact ⟨trivial, Or.inr trivial, trivial⟩
  · rintro ⟨hname, hic, hvillage, hdigits⟩
    have hbody := (bodyPresent_iff body).mpr ⟨hname, hic, hvillage⟩
    unfold addVoter
    simp only [hbody, hdigits, Bool.false_eq_true, if_false, Bool.not_true]
    cases hf0 : fault 0 with
    | some e => exact ⟨addVoterCatch_body e, fun h => by simp at h⟩
    | none =>
      by_cases hdup : db.voters.any (fun v => v.ic_number == body.ic_number.get) = true
      · have hins : insertVoter db body.name.get body.ic_number.get body.village_id.get
            = .error ⟨"ER_DUP_ENTRY", "Duplicate entry for key ic_number"⟩ := by
          unfold insertVoter
          rw [if_pos hdup]
        simp only [hins]
        refine ⟨addVoterCatch_body _, fun _ => ⟨?_, fun _ => ⟨by decide, trivial⟩⟩⟩
        intro hfree
        rw [List.any_eq_true] at hdup
        obtain ⟨w, hw, hwic⟩ := hdup
        exact absurd (by simpa using hwic) (hfree w hw)
      · have hins : insertVoter db body.name.get body.ic_number.get body.village_id.get
            = .ok (db.nextVoterId,
                { db with
                  voters := db.voters ++ [⟨db.nextVoterId, body.name.get, body.ic_number.get,
                    body.village_id.get, false, none, none⟩]
                  nextVoterId := db.nextVoterId + 1 }) := by
          unfold insertVoter
          rw [if_neg hdup]
        simp only [hins]
        have hnodup : ¬ ∃ v ∈ db.voters, v.ic_number = body.ic_number.get := by
          rintro ⟨w, hw, hwic⟩
          apply hdup
          rw [List.any_eq_true]
          exact ⟨w, hw, by simpa using hwic⟩
        cases hf1 : fault 1 with
        | some e =>
          exact ⟨addVoterCatch_body e, fun _ =>
            ⟨fun _ => ⟨rfl, fun h => by simp at h⟩, fun h => absurd h hnodup⟩⟩
        | none =>
          exact ⟨⟨by simp, by simp⟩, fun _ =>
            ⟨fun _ => ⟨rfl, fun _ => rfl⟩, fun h => absurd h hnodup⟩⟩

theorem addVoter_validation_witness :
    isTwelveDigits "12345" = false ∧ isTwelveDigits "123456789012" = true ∧
    (addVoter noFault sampleDb ⟨.val "Abu", .val "12345", .val 1⟩).response.status = 400 ∧
    (addVoter noFault sampleDb ⟨.val "Abu", .val "12345", .val 1⟩).db = sampleDb ∧
    (addVoter noFault sampleDb ⟨.val "Abu", .val "123456789012", .val 1⟩).response.status
      = 201 ∧
    (addVoter noFault sampleDb ⟨.val "Abu", .val "123456789012", .val 1⟩).db.voters
      = sampleDb.voters ++ [⟨3, "Abu", "123456789012", 1, false, none, none⟩] :=
  ⟨by decide, by decide,
    ((addVoter_validation noFault sampleDb ⟨.val "Abu", .val "12345", .val 1⟩).1
      (Or.inr (Or.inr (Or.inr (by decide))))).1,
    ((addVoter_validation noFault sampleDb ⟨.val "Abu", .val "12345", .val 1⟩).1
      (Or.inr (Or.inr (Or.inr (by decide))))).2.2,
    ((((addVoter_validation noFault sampleDb ⟨.val "Abu", .val "123456789012", .val 1⟩).2
      ⟨by decide, by decide, by decide, by decide⟩).2 rfl).1 (by decide)).2 rfl,
    ((((addVoter_validation noFault sampleDb ⟨.val "Abu", .val "123456789012", .val 1⟩).2
      ⟨by decide, by decide, by decide, by decide⟩).2 rfl).1 (by decide)).1⟩

/-- The format `addVoter` checks is kept by `addVoter`: if every stored identity number is
twelve digits before the call, so it is afterwards. -/
theorem addVoter_keeps_ic_format (fault : Fault) (db : Db) (body : VoterBody)
    (h : AllIcTwelveDigits db) : AllIcTwelveDigits (addVoter fault db body).db := by
  unfold addVoter
  by_cases hbody :
      (!truthyStr body.name || !truthyStr body.ic_number || !truthyNum body.village_id) = true
  · rw [if_pos hbody]; exact h
  · rw [if_neg hbody]
    obtain ⟨_, hic, _⟩ := (bodyPresent_iff body).mp (by simpa using hbody)
    by_cases hdigits : isTwelveDigits (jsString body.ic_number) = true
    · simp only [hdigits, Bool.not_true, Bool.false_eq_true, if_false]
      cases hf0 : fault 0 with
      | some e => exact h
      | none =>
        unfold insertVoter
        by_cases hdup : db.voters.any (fun v => v.ic_number == body.ic_number.get) = true
        · simp only [if_pos hdup]; exact h
        · simp only [if_neg hdup]
          have hnew : AllIcTwelveDigits
              { db with
                voters := db.voters ++ [⟨db.nextVoterId, body.name.get, body.ic_number.get,
                  body.village_id.get, false, none, none⟩]
                nextVoterId := db.nextVoterId + 1 } := by
            intro v hv
            rcases List.mem_append.mp hv with hold | hnew
            · exact h v hold
            · rw [List.mem_singleton] at hnew
              rw [hnew]
              have hval := truthyStr_val hic
              rw [hval] at hdigits
              exact hdigits
          cases hf1 : fault 1 <;> exact hnew
    · have hd : isTwelveDigits (jsString body.ic_number) = false := by simpa using hdigits
      simp only [hd, Bool.not_false, if_true]
      exact h

/-- C7 (the code at the failing input). `updateVoter` does not check the format of the
identity number: on a database whose stored identity numbers are all twelve digits, the
request that sets voter 1's ic_number to "12345" is answered with status 200 and stores
the five-digit number. -/
theorem updateVoter_stores_malformed_ic :
    AllIcTwelveDigits sampleDb ∧
    (updateVoter noFault sampleDb 1 ⟨.val "Ali", .val "12345", .val 1⟩).response.status = 200 ∧
    (updateVoter noFault sampleDb 1 ⟨.val "Ali", .val "12345", .val 1⟩).db.voters
      = [⟨1, "Ali", "12345", 1, false, none, none⟩, sampleSiti] ∧
    ¬ AllIcTwelveDigits (updateVoter noFault sampleDb 1 ⟨.val "Ali", .val "12345", .val 1⟩).db := by
  refine ⟨?_, by decide, by decide, ?_⟩
  · unfold AllIcTwelveDigits
    decide
  · unfold AllIcTwelveDigits
    decide

/-! ### The vote invariant under the administrative operations -/

/-- Every `addVoter` call either leaves the database as it was or appends one row that has
not voted, under the next free id. -/
theorem addVoter_cases (fault : Fault) (db : Db) (body : VoterBody) :
    (addVoter fault db body).db = db ∨
    ∃ name ic village_id,
      (addVoter fault db body).db
        = { db with
            voters := db.voters ++ [⟨db.nextVoterId, name, ic, village_id, false, none, none⟩]
            nextVoterId := db.nextVoterId + 1 } := by
  unfold addVoter
  split
  · left; rfl
  · split
    · left; rfl
    · cases hf0 : fault 0 with
      | some e => left; rfl
      | none =>
        unfold insertVoter
        by_cases hdup : db.voters.any (fun v => v.ic_number == body.ic_number.get) = true
        · left; simp only [if_pos hdup]
        · right
          refine ⟨body.name.get, body.ic_number.get, body.village_id.get, ?_⟩
          simp only [if_neg hdup]
          cases hf1 : fault 1 <;> rfl

theorem addVillage_frame (fault : Fault) (db : Db) (body : VillageBody) :
    (addVillage fault db body).db.voters = db.voters ∧
    (addVillage fault db body).db.vote_logs = db.vote_logs ∧
    (addVillage fault db body).db.nextVoterId = db.nextVoterId := by
  unfold addVillage
  repeat' split
  all_goals exact ⟨rfl, rfl, rfl⟩

theorem updateVillage_frame (fault : Fault) (db : Db) (id : Nat) (body : VillageBody) :
    (updateVillage fault db id body).db.voters = db.voters ∧
    (updateVillage fault db id body).db.vote_logs = db.vote_logs ∧
    (updateVillage fault db id body).db.nextVoterId = db.nextVoterId := by
  unfold updateVillage
  repeat' split
  all_goals exact ⟨rfl, rfl, rfl⟩

theorem deleteVillage_frame (fault : Fault) (db : Db) (id : Nat) :
    (deleteVillage fault db id).db.voters = db.voters ∧
    (deleteVillage fault db id).db.vote_logs = db.vote_logs ∧
    (deleteVillage fault db id).db.nextVoterId = db.nextVoterId := by
  unfold deleteVillage
  repeat' split
  all_goals exact ⟨rfl, rfl, rfl⟩

theorem addParty_frame (fault : Fault) (db : Db) (req : PartyRequest) :
    (addParty fault db req).db.voters = db.voters ∧
    (addParty fault db req).db.vote_logs = db.vote_logs ∧
    (addParty fault db req).db.nextVoterId = db.nextVoterId := by
  unfold addParty
  dsimp only
  repeat' split
  all_goals exact ⟨rfl, rfl, rfl⟩

theorem updateParty_frame (fault : Fault) (db : Db) (id : Nat) (req : PartyRequest) :
    (updateParty fault db id req).db.voters = db.voters ∧
    (updateParty fault db id req).db.vote_logs = db.vote_logs ∧
    (updateParty fault db id req).db.nextVoterId = db.nextVoterId := by
  unfold updateParty
  repeat' split
  all_goals exact ⟨rfl, rfl, rfl⟩

theorem deleteParty_frame (fault : Fault) (db : Db) (id : Nat) :
    (deleteParty fault db id).db.voters = db.voters ∧
    (deleteParty fault db id).db.vote_logs = db.vote_logs ∧
    (deleteParty fault db id).db.nextVoterId = db.nextVoterId := by
  unfold deleteParty
  repeat' split
  all_goals exact ⟨rfl, rfl, rfl⟩

theorem uploadLogo_frame (fault : Fault) (db : Db) (id : Nat) (file : Option UploadedFile) :
    (uploadLogo fault db id file).db.voters = db.voters ∧
    (uploadLogo fault db id file).db.vote_logs = db.vote_logs ∧
    (uploadLogo fault db id file).db.nextVoterId = db.nextVoterId := by
  unfold uploadLogo
  repeat' split
  all_goals exact ⟨rfl, rfl, rfl⟩

theorem logCount_congr {db db1 : Db} (h : db1.vote_logs = db.vote_logs) (x : Nat) :
    logCount db1 x = logCount db x := by
  unfold logCount
  rw [h]

/-- A step that leaves the voters table, the vote logs and the voter counter as they were
keeps the vote invariant and the key properties. -/
theorem preserved_of_same_voters {db db1 : Db} (hv : db1.voters = db.voters)
    (hl : db1.vote_logs = db.vote_logs) (hn : db1.nextVoterId = db.nextVoterId)
    (hkeys : VoterKeys db) (hinv : VoteInvariant db) :
    db1.vote_logs = db.vote_logs ∧
    (∀ v ∈ db.voters, v.has_voted = true → v ∈ db1.voters) ∧
    VoteInvariant db1 ∧ VoterKeys db1 := by
  refine ⟨hl, ?_, ?_, ?_⟩
  · intro v hmem _
    rw [hv]; exact hmem
  · intro v hmem
    rw [hv] at hmem
    rw [logCount_congr hl]
    exact hinv v hmem
  · unfold VoterKeys
    rw [hv, hl, hn]
    exact hkeys

theorem preserved_by_insert {db : Db} (name ic : String) (village_id : Nat)
    (hkeys : VoterKeys db) (hinv : VoteInvariant db) :
    VoteInvariant { db with
      voters := db.voters ++ [⟨db.nextVoterId, name, ic, village_id, false, none, none⟩]
      nextVoterId := db.nextVoterId + 1 } ∧
    VoterKeys { db with
      voters := db.voters ++ [⟨db.nextVoterId, name, ic, village_id, false, none, none⟩]
      nextVoterId := db.nextVoterId + 1 } := by
  obtain ⟨hnd, hlt, hlog⟩ := hkeys
  constructor
  · intro v hmem
    rcases List.mem_append.mp hmem with hold | hnew
    · exact hinv v hold
    · rw [List.mem_singleton] at hnew
      subst hnew
      have hzero : logCount db db.nextVoterId = 0 := by
        unfold logCount
        rw [List.length_eq_zero, List.filter_eq_nil_iff]
        intro l hl
        have := hlog l hl
        simp only [beq_iff_eq]
        omega
      show (false = true ↔ logCount db db.nextVoterId = 1)
      rw [hzero]
      simp
  · refine ⟨?_, ?_, ?_⟩
    · show ((db.voters ++ [(⟨db.nextVoterId, name, ic, village_id, false, none, none⟩ : Voter)]).map
        (fun v => v.id)).Nodup
      rw [List.map_append, List.nodup_append]
      refine ⟨hnd, by simp, ?_⟩
      intro a ha hb
      rw [List.mem_map] at ha
      obtain ⟨w, hw, hwa⟩ := ha
      simp only [List.map_cons, List.map_nil, List.mem_singleton] at hb
      have := hlt w hw
      omega
    · intro v hmem
      show v.id < db.nextVoterId + 1
      rcases List.mem_append.mp hmem with hold | hnew
      · exact Nat.lt_succ_of_lt (hlt v hold)
      · rw [List.mem_singleton] at hnew
        rw [hnew]
        exact Nat.lt_succ_self _
    · intro l hl
      exact Nat.lt_succ_of_lt (hlog l hl)

/-- With distinct ids, a row that has voted is not the row a guarded statement addresses. -/
theorem voted_id_ne {db : Db} {id : Nat} {existing : Voter} {rest : List Voter}
    (hnd : (db.voters.map (fun v => v.id)).Nodup)
    (hsel : db.voters.filter (fun v => v.id == id) = existing :: rest)
    (hnot : existing.has_voted = false)
    {v : Voter} (hv : v ∈ db.voters) (hvoted : v.has_voted = true) : v.id ≠ id := by
  intro hid
  subst hid
  rw [filter_id_eq_singleton db.voters v hnd hv] at hsel
  have : v = existing := by
    injection hsel
  rw [this, hnot] at hvoted
  exact absurd hvoted (by decide)

/-- C5. The vote invariant (a voter has `has_voted` true iff exactly one vote-log row
references it) is preserved by every writing operation other than `castVote`: `addVoter`,
`updateVoter`, `deleteVoter`, `addVillage`, `updateVillage`, `deleteVillage`, `addParty`,
`updateParty`, `deleteParty` and `uploadLogo`. On a database whose voter ids are the
distinct auto-increment keys, whatever the database layer does, each of them leaves the
vote-log table as it was, keeps the row of every voter that has voted as it was, and
leaves a state in which the vote invariant and the key properties hold again. -/
theorem admin_ops_preserve_vote_invariant (fault : Fault) (db : Db) (op : AdminOp)
    (hkeys : VoterKeys db) (hinv : VoteInvariant db) :
    (op.run fault db).vote_logs = db.vote_logs ∧
    (∀ v ∈ db.voters, v.has_voted = true → v ∈ (op.run fault db).voters) ∧
    VoteInvariant (op.run fault db) ∧ VoterKeys (op.run fault db) := by
  cases op with
  | addVoter body =>
    simp only [AdminOp.run]
    rcases addVoter_cases fault db body with h | ⟨name, ic, village_id, h⟩
    · rw [h]
      exact preserved_of_same_voters rfl rfl rfl hkeys hinv
    · rw [h]
      obtain ⟨hi, hk⟩ := preserved_by_insert name ic village_id hkeys hinv
      exact ⟨rfl, fun v hv _ => List.mem_append_left _ hv, hi, hk⟩
  | updateVoter id body =>
    simp only [AdminOp.run]
    rcases updateVoter_cases fault db id body with ⟨h, _⟩ | ⟨_, ⟨existing, rest, hsel, hnot⟩, h⟩
    · rw [h]
      exact preserved_of_same_voters rfl rfl rfl hkeys hinv
    · rw [h]
      obtain ⟨hnd, hlt, hlog⟩ := hkeys
      have hids : (updateVoterRows db body.name.get body.ic_number.get body.village_id.get
          id).voters.map (fun v => v.id) = db.voters.map (fun v => v.id) := by
        unfold updateVoterRows
        rw [List.map_map]
        apply List.map_congr_left
        intro w _
        simp only [Function.comp]
        split <;> rfl
      refine ⟨rfl, ?_, ?_, ?_, ?_, hlog⟩
      · intro v hv hvoted
        have hne := voted_id_ne hnd hsel hnot hv hvoted
        unfold updateVoterRows
        rw [List.mem_map]
        refine ⟨v, hv, ?_⟩
        have hb : (v.id == id) = false := by simpa using hne
        simp [hb]
      · intro v' hv'
        unfold updateVoterRows at hv'
        rw [List.mem_map] at hv'
        obtain ⟨v, hv, hvv'⟩ := hv'
        have hsame : v'.id = v.id ∧ v'.has_voted = v.has_voted := by
          rw [← hvv']
          split <;> exact ⟨rfl, rfl⟩
        rw [hsame.1, hsame.2]
        exact hinv v hv
      · rw [hids]; exact hnd
      · intro v' hv'
        have : v'.id ∈ (updateVoterRows db body.name.get body.ic_number.get
            body.village_id.get id).voters.map (fun v => v.id) :=
          List.mem_map_of_mem (fun v => v.id) hv'
        rw [hids, List.mem_map] at this
        obtain ⟨w, hw, hwid⟩ := this
        rw [← hwid]
        exact hlt w hw
  | deleteVoter id =>
    simp only [AdminOp.run]
    rcases deleteVoter_cases fault db id with ⟨h, _⟩ | ⟨⟨existing, rest, hsel, hnot⟩, h⟩
    · rw [h]
      exact preserved_of_same_voters rfl rfl rfl hkeys hinv
    · rw [h]
      obtain ⟨hnd, hlt, hlog⟩ := hkeys
      refine ⟨rfl, ?_, ?_, ?_, ?_, hlog⟩
      · intro v hv hvoted
        have hne := voted_id_ne hnd hsel hnot hv hvoted
        show v ∈ db.voters.filter (fun v => !(v.id == id))
        rw [List.mem_filter]
        exact ⟨hv, by simpa using hne⟩
      · intro v hv
        exact hinv v (List.mem_of_mem_filter hv)
      · exact hnd.sublist (List.Sublist.map _ (List.filter_sublist _))
      · intro v hv
        exact hlt v (List.mem_of_mem_filter hv)
  | addVillage body =>
    obtain ⟨h1, h2, h3⟩ := addVillage_frame fault db body
    exact preserved_of_same_voters h1 h2 h3 hkeys hinv
  | updateVillage id body =>
    obtain ⟨h1, h2, h3⟩ := updateVillage_frame fault db id body
    exact preserved_of_same_voters h1 h2 h3 hkeys hinv
  | deleteVillage id =>
    obtain ⟨h1, h2, h3⟩ := deleteVillage_frame fault db id
    exact preserved_of_same_voters h1 h2 h3 hkeys hinv
  | addParty req =>
    obtain ⟨h1, h2, h3⟩ := addParty_frame fault db req
    exact preserved_of_same_voters h1 h2 h3 hkeys hinv
  | updateParty id req =>
    obtain ⟨h1, h2, h3⟩ := updateParty_frame fault db id req
    exact preserved_of_same_voters h1 h2 h3 hkeys hinv
  | deleteParty id =>
    obtain ⟨h1, h2, h3⟩ := deleteParty_frame fault db id
    exact preserved_of_same_voters h1 h2 h3 hkeys hinv
  | uploadLogo id file =>
    obtain ⟨h1, h2, h3⟩ := uploadLogo_frame fault db id file
    exact preserved_of_same_voters h1 h2 h3 hkeys hinv

theorem sampleDb_keys : VoterKeys sampleDb := by
  unfold VoterKeys
  decide

theorem sampleDb_invariant : VoteInvariant sampleDb := by
  unfold VoteInvariant
  decide

theorem admin_ops_preserve_vote_invariant_witness :
    VoterKeys sampleDb ∧ VoteInvariant sampleDb ∧
    ((AdminOp.deleteVoter 1).run noFault sampleDb).vote_logs = sampleDb.vote_logs ∧
    VoteInvariant ((AdminOp.deleteVoter 1).run noFault sampleDb) ∧
    VoteInvariant
      ((AdminOp.addVoter ⟨.val "Abu", .val "123456789012", .val 1⟩).run noFault sampleDb) :=
  ⟨sampleDb_keys, sampleDb_invariant,
    (admin_ops_preserve_vote_invariant noFault sampleDb (.deleteVoter 1)
      sampleDb_keys sampleDb_invariant).1,
    (admin_ops_preserve_vote_invariant noFault sampleDb (.deleteVoter 1)
      sampleDb_keys sampleDb_invariant).2.2.1,
    (admin_ops_preserve_vote_invariant noFault sampleDb
      (.addVoter ⟨.val "Abu", .val "123456789012", .val 1⟩)
      sampleDb_keys sampleDb_invariant).2.2.1⟩

/-! ### Round trip of a registered voter -/

/-- A `LEFT JOIN` gives every left row at least one joined row. -/
theorem leftJoin_cons {β : Type} (rows : List β) (cond : β → Bool) :
    ∃ x xs, leftJoin rows cond = x :: xs := by
  unfold leftJoin
  split
  · exact ⟨none, [], rfl⟩
  · exact ⟨_, _, rfl⟩

/-- The rows selected by id after an insert under a fresh id are the inserted row. -/
theorem filter_id_append_fresh (l : List Voter) (nv : Voter)
    (hfresh : ∀ v ∈ l, v.id < nv.id) :
    (l ++ [nv]).filter (fun v => v.id == nv.id) = [nv] := by
  rw [List.filter_append]
  have hold : l.filter (fun v => v.id == nv.id) = [] := by
    rw [List.filter_eq_nil_iff]
    intro v hv
    have := hfresh v hv
    simp only [beq_iff_eq]
    omega
  rw [hold]
  simp

/-- C11. Round trip: for every request whose name, ic_number and village_id are present,
whose ic_number is twelve digits and held by no stored voter, on a database whose voter
ids lie below the auto-increment counter and with the database layer answering,
`addVoter` answers 201 with the created row, and `getVoterById` on the created id then
answers 200 with a record of that id carrying the name, ic_number and village_id of the
request. -/
theorem addVoter_getVoterById_round_trip (db : Db) (body : VoterBody)
    (hname : truthyStr body.name = true) (hic : truthyStr body.ic_number = true)
    (hvillage : truthyNum body.village_id = true)
    (hdigits : isTwelveDigits (jsString body.ic_number) = true)
    (hfree : ∀ v ∈ db.voters, v.ic_number ≠ body.ic_number.get)
    (hids : ∀ v ∈ db.voters, v.id < db.nextVoterId) :
    ∃ created detail,
      (addVoter noFault db body).response
        = ⟨201, .voterAdded "Voter added successfully" (some created)⟩ ∧
      getVoterById noFault (addVoter noFault db body).db created.id
        = ⟨200, .voterDetail detail⟩ ∧
      detail.id = created.id ∧
      body.name = Js.val detail.name ∧ body.ic_number = Js.val detail.ic_number ∧
      body.village_id = Js.val detail.village_id := by
  have hbody := (bodyPresent_iff body).mpr ⟨hname, hic, hvillage⟩
  have hdup : ¬ db.voters.any (fun v => v.ic_number == body.ic_number.get) = true := by
    rw [List.any_eq_true]
    rintro ⟨w, hw, hwic⟩
    exact hfree w hw (by simpa using hwic)
  have hsel := filter_id_append_fresh db.voters
    ⟨db.nextVoterId, body.name.get, body.ic_number.get, body.village_id.get, false, none, none⟩
    hids
  obtain ⟨vil, vils, hvil⟩ := leftJoin_cons db.villages
    (fun vil => vil.id == body.village_id.get)
  obtain ⟨pt, pts, hpt⟩ := leftJoin_cons db.parties
    (fun p => some p.id == (none : Option Nat))
  have hadd : addVoter noFault db body
      = ⟨{ db with
            voters := db.voters ++ [⟨db.nextVoterId, body.name.get, body.ic_number.get,
              body.village_id.get, false, none, none⟩]
            nextVoterId := db.nextVoterId + 1 },
          ⟨201, .voterAdded "Voter added successfully"
            (some ⟨db.nextVoterId, body.name.get, body.ic_number.get, false,
              vil.map (fun x => x.name)⟩)⟩⟩ := by
    unfold addVoter insertVoter selectNewVoter
    simp only [hbody, hdigits, Bool.false_eq_true, if_false, Bool.not_true, noFault,
      if_neg hdup, hsel, List.flatMap_cons, List.flatMap_nil, List.append_nil, hvil,
      List.map_cons, List.head?_cons]
  refine ⟨⟨db.nextVoterId, body.name.get, body.ic_number.get, false,
    vil.map (fun x => x.name)⟩,
    ⟨db.nextVoterId, body.name.get, body.ic_number.get, body.village_id.get, false,
    none, none, vil.map (fun x => x.name), pt.map (fun x => x.name),
    pt.bind (fun x => x.color)⟩, ?_, ?_, rfl, truthyStr_val hname, truthyStr_val hic,
    truthyNum_val hvillage⟩
  · rw [hadd]
  · rw [hadd]
    unfold getVoterById selectVoterDetail
    simp only [noFault, hsel, List.flatMap_cons, List.flatMap_nil, List.append_nil, hvil, hpt,
      List.map_cons, List.cons_append]

theorem addVoter_getVoterById_round_trip_witness :
    truthyStr (Js.val "Abu") = true ∧ isTwelveDigits "123456789012" = true ∧
    (∀ v ∈ sampleDb.voters, v.ic_number ≠ "123456789012") ∧
    (∀ v ∈ sampleDb.voters, v.id < sampleDb.nextVoterId) ∧
    ∃ created detail,
      (addVoter noFault sampleDb ⟨.val "Abu", .val "123456789012", .val 1⟩).response
        = ⟨201, .voterAdded "Voter added successfully" (some created)⟩ ∧
      getVoterById noFault
          (addVoter noFault sampleDb ⟨.val "Abu", .val "123456789012", .val 1⟩).db created.id
        = ⟨200, .voterDetail detail⟩ ∧
      detail.id = created.id ∧
      (Js.val "Abu" : Js String) = Js.val detail.name ∧
      (Js.val "123456789012" : Js String) = Js.val detail.ic_number ∧
      (Js.val 1 : Js Nat) = Js.val detail.village_id :=
  ⟨by decide, by decide, by decide, by decide,
    addVoter_getVoterById_round_trip sampleDb ⟨.val "Abu", .val "123456789012", .val 1⟩
      (by decide) (by decide) (by decide) (by decide) (by decide) (by decide)⟩

/-! ### Listing voters -/

/-- With distinct keys, the rows with a given key are the first such row, if any. -/
theorem filter_key_eq_find {α : Type} (key : α → Nat) (n : Nat) :
    ∀ l : List α, (l.map key).Nodup →
      l.filter (fun x => key x == n) = (l.find? (fun x => key x == n)).toList := by
  intro l
  induction l with
  | nil => intro _; rfl
  | cons a t ih =>
    intro hnd
    rw [List.map_cons, List.nodup_cons] at hnd
    obtain ⟨ha, ht⟩ := hnd
    by_cases hk : key a = n
    · have hnone : t.filter (fun x => key x == n) = [] := by
        rw [List.filter_eq_nil_iff]
        intro x hx
        simp only [beq_iff_eq]
        intro hxn
        apply ha
        rw [hk, ← hxn]
        exact List.mem_map_of_mem key hx
      have hb : (key a == n) = true := by simpa using hk
      rw [List.filter_cons, hb, List.find?_cons]
      simp [hb, hnone]
    · have hb : (key a == n) = false := by simpa using hk
      rw [List.filter_cons, hb, List.find?_cons]
      simp [hb, ih ht]

theorem leftJoin_of_filter_eq_find {β : Type} (rows : List β) (cond : β → Bool)
    (h : rows.filter cond = (rows.find? cond).toList) :
    leftJoin rows cond = [rows.find? cond] := by
  unfold leftJoin
  cases hf : rows.find? cond with
  | none => rw [hf] at h; rw [h]; rfl
  | some x => rw [hf] at h; rw [h]; rfl

theorem leftJoin_village (db : Db) (hvil : (db.villages.map (fun x => x.id)).Nodup)
    (v : Voter) :
    leftJoin db.villages (fun vil => vil.id == v.village_id) = [villageOf db v] :=
  leftJoin_of_filter_eq_find _ _
    (filter_key_eq_find (fun x : Village => x.id) v.village_id db.villages hvil)

theorem leftJoin_party (db : Db) (hpar : (db.parties.map (fun x => x.id)).Nodup) (v : Voter) :
    leftJoin db.parties (fun p => some p.id == v.party_voted_id) = [partyOf db v] := by
  apply leftJoin_of_filter_eq_find
  cases hp : v.party_voted_id with
  | none =>
    have hfalse : (fun p : Party => some p.id == (none : Option Nat)) = fun _ => false := by
      funext p
      rfl
    rw [hfalse]
    have hfind : ∀ l : List Party, l.find? (fun _ => false) = none := by
      intro l
      induction l with
      | nil => rfl
      | cons a t ih => rw [List.find?_cons]; exact ih
    rw [hfind]
    simp
  | some k =>
    have hsame : (fun p : Party => some p.id == some k) = fun p => p.id == k := by
      funext p
      simp
    rw [hsame]
    exact filter_key_eq_find (fun x : Party => x.id) k db.parties hpar

/-- With distinct village ids and party ids, the join has one row per voter. -/
theorem joinVoters_eq (db : Db) (hvil : (db.villages.map (fun x => x.id)).Nodup)
    (hpar : (db.parties.map (fun x => x.id)).Nodup) :
    joinVoters db = db.voters.map (fun v => (v, villageOf db v, partyOf db v)) := by
  unfold joinVoters
  induction db.voters with
  | nil => rfl
  | cons v t ih =>
    rw [List.flatMap_cons, List.map_cons, ih, leftJoin_village db hvil, leftJoin_party db hpar]
    rfl

theorem insertBy_map {α β : Type} (key : β → String) (f : α → β) (x : α) (l : List α) :
    insertBy key (f x) (l.map f) = (insertBy (fun a => key (f a)) x l).map f := by
  induction l with
  | nil => rfl
  | cons y ys ih =>
    simp only [List.map_cons, insertBy]
    split
    · rfl
    · rw [ih]; rfl

/-- Ordering commutes with a map that keeps the key. -/
theorem orderBy_map {α β : Type} (key : β → String) (f : α → β) (l : List α) :
    orderBy key (l.map f) = (orderBy (fun a => key (f a)) l).map f := by
  induction l with
  | nil => rfl
  | cons x xs ih =>
    simp only [List.map_cons, orderBy]
    rw [ih, insertBy_map]

theorem nameLe_total : ∀ s t : List Char, nameLe s t = true ∨ nameLe t s = true := by
  intro s
  induction s with
  | nil => intro t; left; rfl
  | cons a s ih =>
    intro t
    cases t with
    | nil => right; rfl
    | cons b t =>
      simp only [nameLe]
      rcases ih t with h | h
      · split_ifs <;> first | (left; rfl) | (right; rfl) | (left; exact h)
      · split_ifs <;> first | (left; rfl) | (right; rfl) | (right; exact h)

theorem nameLe_trans : ∀ s t u : List Char,
    nameLe s t = true → nameLe t u = true → nameLe s u = true := by
  intro s
  induction s with
  | nil => intro t u _ _; rfl
  | cons a s ih =>
    intro t u hst htu
    cases t with
    | nil => simp [nameLe] at hst
    | cons b t =>
      cases u with
      | nil => simp [nameLe] at htu
      | cons c u =>
        simp only [nameLe] at hst htu ⊢
        split_ifs at hst htu ⊢ <;>
          (first | rfl | omega | exact absurd hst (by decide) | exact absurd htu (by decide)
                 | exact ih t u hst htu)

theorem insertBy_perm {α : Type} (key : α → String) (x : α) (l : List α) :
    (insertBy key x l).Perm (x :: l) := by
  induction l with
  | nil => exact List.Perm.refl _
  | cons y ys ih =>
    simp only [insertBy]
    split
    · exact List.Perm.refl _
    · exact (List.Perm.cons y ih).trans (List.Perm.swap x y ys)

/-- The ordered list holds the same rows as the list it orders. -/
theorem orderBy_perm {α : Type} (key : α → String) (l : List α) : (orderBy key l).Perm l := by
  induction l with
  | nil => exact List.Perm.refl _
  | cons x xs ih =>
    simp only [orderBy]
    exact (insertBy_perm key x _).trans (List.Perm.cons x ih)

theorem insertBy_sorted {α : Type} (key : α → String) (x : α) (l : List α)
    (h : l.Pairwise (fun a b => nameLe (key a).data (key b).data = true)) :
    (insertBy key x l).Pairwise (fun a b => nameLe (key a).data (key b).data = true) := by
  induction l with
  | nil => simp [insertBy]
  | cons y ys ih =>
    rw [List.pairwise_cons] at h
    simp only [insertBy]
    split
    · rename_i hxy
      rw [List.pairwise_cons]
      refine ⟨?_, List.pairwise_cons.mpr h⟩
      intro b hb
      rcases List.mem_cons.mp hb with rfl | hb
      · exact hxy
      · exact nameLe_trans _ _ _ hxy (h.1 b hb)
    · rename_i hxy
      rw [List.pairwise_cons]
      refine ⟨?_, ih h.2⟩
      intro b hb
      rcases List.mem_cons.mp ((insertBy_perm key x ys).subset hb) with rfl | hb
      · rcases nameLe_total (key b).data (key y).data with hle | hle
        · exact absurd hle hxy
        · exact hle
      · exact h.1 b hb

/-- The ordered list is ordered: each row's key precedes the keys of the rows after it. -/
theorem orderBy_sorted {α : Type} (key : α → String) (l : List α) :
    (orderBy key l).Pairwise (fun a b => nameLe (key a).data (key b).data = true) := by
  induction l with
  | nil => exact List.Pairwise.nil
  | cons x xs ih =>
    simp only [orderBy]
    exact insertBy_sorted key x _ ih

theorem ceilDiv_spec (total limit : Nat) (hlimit : 1 ≤ limit) :
    ∃ k, ceilDiv total limit = some k ∧ total ≤ k * limit ∧ ∀ j, total ≤ j * limit → k ≤ j := by
  refine ⟨(total + limit - 1) / limit, ?_, ?_, ?_⟩
  · unfold ceilDiv
    rw [if_neg (by omega)]
  · have h1 := Nat.div_add_mod (total + limit - 1) limit
    have h2 := Nat.mod_lt (total + limit - 1) (show limit > 0 by omega)
    rw [Nat.mul_comm] at h1
    omega
  · intro j hj
    have hlt : (total + limit - 1) / limit < j + 1 := by
      rw [Nat.div_lt_iff_lt_mul (by omega), Nat.succ_mul]
      omega
    omega

/-- Below 2^53 a natural number is a Number. -/
theorem toNumber_exact (n : Nat) (h : n < 2 ^ 53) : toNumber n = some n := by
  unfold toNumber
  rw [if_pos h]

/-- For a page from 1 on, with page, limit and their offset below 2^53, the handler's
arithmetic is exact. -/
theorem pageParams_of_exact (page limit : Nat) (hpage : 1 ≤ page) (hp : page < 2 ^ 53)
    (hl : limit < 2 ^ 53) (ho : (page - 1) * limit < 2 ^ 53) :
    pageParams page limit = some (page, limit, (page - 1) * limit) := by
  have hp1 : page - 1 < 2 ^ 53 := Nat.lt_of_le_of_lt (Nat.sub_le page 1) hp
  have hsmall : (page - 1) * limit < 10 ^ 21 := Nat.lt_trans ho (by decide)
  unfold pageParams
  rw [toNumber_exact page hp, toNumber_exact limit hl]
  simp only []
  rw [if_neg (by omega), toNumber_exact (page - 1) hp1]
  simp only [Option.some_bind]
  rw [toNumber_exact _ ho]
  simp only [Option.map_some', parseIntNumber, if_pos hsmall]

/-- For a page from 1 on and a limit from 1 on whose product is below 2^53 the handler's
arithmetic is exact. -/
theorem pageParams_exact (page limit : Nat) (hpage : 1 ≤ page) (hlimit : 1 ≤ limit)
    (hexact : page * limit < 2 ^ 53) :
    pageParams page limit = some (page, limit, (page - 1) * limit) := by
  have hle1 : page ≤ page * limit := Nat.le_mul_of_pos_right page hlimit
  have hle2 : limit ≤ page * limit := Nat.le_mul_of_pos_left limit hpage
  have hle3 : (page - 1) * limit ≤ page * limit := Nat.mul_le_mul_right limit (Nat.sub_le page 1)
  exact pageParams_of_exact page limit hpage (Nat.lt_of_le_of_lt hle1 hexact)
    (Nat.lt_of_le_of_lt hle2 hexact) (Nat.lt_of_le_of_lt hle3 hexact)

/-- The first page of a listing starts at offset 0, whatever the limit. -/
theorem pageParams_first (limit l : Nat) (hl : toNumber limit = some l) :
    pageParams 1 limit = some (1, l, 0) := by
  unfold pageParams
  rw [toNumber_exact 1 (by decide), hl]
  simp only []
  rw [if_neg (by decide), toNumber_exact (1 - 1) (by decide)]
  simp only [Option.some_bind, Nat.sub_self, Nat.zero_mul]
  rw [toNumber_exact 0 (by decide)]
  rfl

/-- The limit the handler binds is the Number of the limit of the query. -/
theorem pageParams_limit (page limit p l o : Nat)
    (h : pageParams page limit = some (p, l, o)) : toNumber limit = some l := by
  unfold pageParams at h
  cases hp : toNumber page with
  | none => rw [hp] at h; simp at h
  | some a =>
    cases hl : toNumber limit with
    | none => rw [hp, hl] at h; simp at h
    | some b =>
      rw [hp, hl] at h
      simp only [] at h
      split at h
      · split at h
        · rename_i _ hb
          injection h with h
          injection h with _ h
          injection h with h _
          rw [← h, hb]
        · exact absurd h (by simp)
      · cases h1 : toNumber (a - 1) with
        | none => rw [h1] at h; simp at h
        | some c =>
          rw [h1] at h
          simp only [Option.some_bind] at h
          cases h2 : toNumber (c * b) with
          | none => rw [h2] at h; simp at h
          | some d =>
            rw [h2] at h
            simp only [Option.map_some'] at h
            injection h with h
            injection h with _ h
            injection h with h _
            rw [h]

theorem bitLength_zero (fuel : Nat) : bitLength fuel 0 = 0 := by
  cases fuel <;> simp [bitLength]

/-- The number of binary digits brackets a positive number between two powers of two. -/
theorem bitLength_bounds : ∀ fuel n, n ≤ fuel → 0 < n →
    2 ^ (bitLength fuel n - 1) ≤ n ∧ n < 2 ^ bitLength fuel n := by
  intro fuel
  induction fuel with
  | zero => intro n h0 hpos; omega
  | succ fuel ih =>
    intro n hle hpos
    rw [bitLength, if_neg (by omega)]
    by_cases hhalf : n / 2 = 0
    · rw [hhalf, bitLength_zero]
      have : n = 1 := by omega
      subst this
      decide
    · obtain ⟨h1, h2⟩ := ih (n / 2) (by omega) (by omega)
      have hb : 1 ≤ bitLength fuel (n / 2) := by
        by_contra hcon
        have : bitLength fuel (n / 2) = 0 := by omega
        rw [this] at h2
        omega
      constructor
      · have : bitLength fuel (n / 2) + 1 - 1 = (bitLength fuel (n / 2) - 1) + 1 := by omega
        rw [this, Nat.pow_succ]
        omega
      · rw [Nat.pow_succ]
        omega

/-- A number from 2^53 on converts to a Number from 2^53 on. -/
theorem toNumber_ge (n m : Nat) (hn : 2 ^ 53 ≤ n) (h : toNumber n = some m) : 2 ^ 53 ≤ m := by
  unfold toNumber at h
  rw [if_neg (by omega)] at h
  obtain ⟨h1, h2⟩ := bitLength_bounds n n (Nat.le_refl n) (by omega)
  have hB : 54 ≤ bitLength n n := by
    by_contra hcon
    have hle : bitLength n n ≤ 53 := by omega
    have := Nat.pow_le_pow_right (show 0 < 2 by decide) hle
    omega
  have hq : 2 ^ 52 ≤ n / 2 ^ (bitLength n n - 53) := by
    rw [Nat.le_div_iff_mul_le (Nat.pow_pos (by decide)), ← Nat.pow_add]
    have : 52 + (bitLength n n - 53) = bitLength n n - 1 := by omega
    rw [this]
    exact h1
  have hs : 2 ≤ 2 ^ (bitLength n n - 53) := by
    have := Nat.pow_le_pow_right (show 0 < 2 by decide) (show 1 ≤ bitLength n n - 53 by omega)
    simpa using this
  simp only at h
  split at h
  · split at h
    · injection h with h
      rw [← h]
      calc 2 ^ 53 = 2 ^ 52 * 2 := by norm_num
        _ ≤ (n / 2 ^ (bitLength n n - 53) + 1) * 2 ^ (bitLength n n - 53) :=
          Nat.mul_le_mul (by omega) hs
    · exact absurd h (by simp)
  · split at h
    · injection h with h
      rw [← h]
      calc 2 ^ 53 = 2 ^ 52 * 2 := by norm_num
        _ ≤ (n / 2 ^ (bitLength n n - 53)) * 2 ^ (bitLength n n - 53) :=
          Nat.mul_le_mul hq hs
    · exact absurd h (by simp)

theorem sameLetter_symm (a b : Char) : sameLetter a b = sameLetter b a := by
  unfold sameLetter
  exact Bool.beq_comm

theorem sameChars_symm : ∀ s t : List Char, sameChars s t = sameChars t s := by
  intro s
  induction s with
  | nil => intro t; cases t <;> rfl
  | cons a s ih =>
    intro t
    cases t with
    | nil => rfl
    | cons b t => simp only [sameChars, ih t, sameLetter_symm a b]

/-- Two texts each of which precedes the other are equal under the collation. -/
theorem nameLe_antisymm : ∀ s t : List Char,
    nameLe s t = true → nameLe t s = true → sameChars s t = true := by
  intro s
  induction s with
  | nil =>
    intro t _ hts
    cases t with
    | nil => rfl
    | cons b t => simp [nameLe] at hts
  | cons a s ih =>
    intro t hst hts
    cases t with
    | nil => simp [nameLe] at hst
    | cons b t =>
      simp only [nameLe] at hst hts
      by_cases h1 : a.toLower.toNat < b.toLower.toNat
      · rw [if_neg (by omega), if_pos h1] at hts
        exact absurd hts (by decide)
      · by_cases h2 : b.toLower.toNat < a.toLower.toNat
        · rw [if_neg h1, if_pos h2] at hst
          exact absurd hst (by decide)
        · rw [if_neg h1, if_neg h2] at hst
          rw [if_neg h2, if_neg h1] at hts
          have heq : a.toLower = b.toLower := by
            apply Char.ext
            apply UInt32.ext
            exact Nat.le_antisymm (Nat.le_of_not_lt h2) (Nat.le_of_not_lt h1)
          simp only [sameChars, sameLetter, heq, beq_self_eq_true, Bool.true_and]
          exact ih t hst hts

/-- A list of voters without equal names has one arrangement ordered by name. -/
theorem nameOrdered_unique : ∀ l₁ l₂ : List Voter, l₁.Perm l₂ → NameOrdered l₁ →
    NameOrdered l₂ → DistinctNames l₂ → l₁ = l₂ := by
  intro l₁
  induction l₁ with
  | nil =>
    intro l₂ hperm _ _ _
    exact (List.Perm.nil_eq hperm)
  | cons a t₁ ih =>
    intro l₂ hperm h₁ h₂ hd
    cases l₂ with
    | nil => exact absurd hperm.length_eq (by simp)
    | cons b t₂ =>
      unfold NameOrdered at h₁ h₂
      unfold DistinctNames at hd
      rw [List.pairwise_cons] at h₁ h₂ hd
      have hab : a = b := by
        by_contra hne
        have ha : a ∈ t₂ := by
          rcases List.mem_cons.mp (hperm.subset (List.mem_cons_self a t₁)) with h | h
          · exact absurd h hne
          · exact h
        have hb : b ∈ t₁ := by
          rcases List.mem_cons.mp (hperm.symm.subset (List.mem_cons_self b t₂)) with h | h
          · exact absurd h.symm hne
          · exact h
        have hsame := nameLe_antisymm _ _ (h₂.1 a ha) (h₁.1 b hb)
        have hdiff := hd.1 a ha
        unfold sameText at hdiff
        rw [hsame] at hdiff
        exact absurd hdiff (by decide)
      subst hab
      rw [ih t₂ (List.Perm.cons_inv hperm) h₁.2 h₂.2 hd.2]

/-- With distinct village and party ids and the database layer answering, for numbers the
database takes `getAllVoters` answers 200 with the requested slice of a name-ordered
arrangement of the matching voters and with their number as total. -/
theorem getAllVoters_ok (order : VoterOrder) (db : Db) (q : VoterQuery)
    (hvil : (db.villages.map (fun x => x.id)).Nodup)
    (hpar : (db.parties.map (fun x => x.id)).Nodup)
    (page limit offset : Nat)
    (hparams : pageParams (q.page.getD 1) (q.limit.getD 50) = some (page, limit, offset)) :
    ∃ ordered : List Voter,
      ordered.Perm (matchingVoters db (q.search.getD "") (q.village.getD "")) ∧
      NameOrdered ordered ∧
      getAllVoters order noFault db q
        = .ok ⟨((ordered.drop offset).take limit).map (voterListRowOf db),
            ⟨page, limit,
              (matchingVoters db (q.search.getD "") (q.village.getD "")).length,
              ceilDiv (matchingVoters db (q.search.getD "") (q.village.getD "")).length
                limit⟩⟩ := by
  have hfilter : (joinVoters db).filter
      (fun r => pageWhere (q.search.getD "") (q.village.getD "") r.1 r.2.1)
      = (matchingVoters db (q.search.getD "") (q.village.getD "")).map
          (fun v => (v, villageOf db v, partyOf db v)) := by
    unfold matchingVoters
    rw [joinVoters_eq db hvil hpar, List.filter_map]
    rfl
  have hA : (orderBy (fun r : Voter × Option Village × Option Party => r.1.name)
      (order.arrange ((matchingVoters db (q.search.getD "") (q.village.getD "")).map
        (fun v => (v, villageOf db v, partyOf db v))))).Perm
      ((matchingVoters db (q.search.getD "") (q.village.getD "")).map
        (fun v => (v, villageOf db v, partyOf db v))) :=
    (orderBy_perm _ _).trans (order.perm _)
  refine ⟨(orderBy (fun r : Voter × Option Village × Option Party => r.1.name)
      (order.arrange ((matchingVoters db (q.search.getD "") (q.village.getD "")).map
        (fun v => (v, villageOf db v, partyOf db v))))).map Prod.fst, ?_, ?_, ?_⟩
  · have h := hA.map Prod.fst
    rw [List.map_map] at h
    have hid : (Prod.fst ∘ fun v : Voter => (v, villageOf db v, partyOf db v)) = id := rfl
    rw [hid, List.map_id] at h
    exact h
  · unfold NameOrdered
    rw [List.pairwise_map]
    exact orderBy_sorted (fun r : Voter × Option Village × Option Party => r.1.name) _
  · have hrows : selectVoterPage order db (q.search.getD "") (q.village.getD "") limit offset
        = ((((orderBy (fun r : Voter × Option Village × Option Party => r.1.name)
            (order.arrange ((matchingVoters db (q.search.getD "") (q.village.getD "")).map
              (fun v => (v, villageOf db v, partyOf db v))))).map Prod.fst).drop offset).take
                limit).map (voterListRowOf db) := by
      unfold selectVoterPage
      rw [hfilter, ← List.map_drop, ← List.map_take, List.map_map]
      apply List.map_congr_left
      intro r hr
      have hr1 := hA.subset (List.mem_of_mem_drop (List.mem_of_mem_take hr))
      obtain ⟨v, _, rfl⟩ := List.mem_map.mp hr1
      rfl
    have hcount : countVoters db (q.search.getD "") (q.village.getD "")
        = (matchingVoters db (q.search.getD "") (q.village.getD "")).length := by
      unfold countVoters matchingVoters
      have hjoin : (db.voters.flatMap fun v =>
          (leftJoin db.villages (fun vil => vil.id == v.village_id)).map fun vil => (v, vil))
          = db.voters.map (fun v => (v, villageOf db v)) := by
        induction db.voters with
        | nil => rfl
        | cons v t ih =>
          rw [List.flatMap_cons, List.map_cons, ih, leftJoin_village db hvil]
          rfl
      rw [hjoin, List.filter_map, List.length_map]
      rfl
    unfold getAllVoters
    simp only [hparams, noFault, hrows, hcount]

/-- C12 (the claim at a large page, and at voters of one name). The handler computes the
offset with Numbers and binds `parseInt(offset)`: for page 10^21 + 1 and limit 1 over the
two voters of the sample database the offset is the Number 1e+21, of whose string
`parseInt` reads 1, so the handler returns the second voter of the name-ordered list,
where the list has no position (page-1)*limit+1, and reports the page 10^21. And the
voters of one name have no one name-ordered list: over two voters named "Ali", page 1
with limit 1 is the voter 1 or the voter 2, as the engine hands the rows over. -/
theorem getAllVoters_huge_page :
    orderBy (fun v => v.name) (matchingVoters sampleDb "" "") = [sampleAli, sampleSiti] ∧
    (([sampleAli, sampleSiti].drop ((10 ^ 21 + 1 - 1) * 1)).take 1 = []) ∧
    pageParams (10 ^ 21 + 1) 1 = some (10 ^ 21, 1, 1) ∧
    getAllVoters storedOrder noFault sampleDb ⟨some (10 ^ 21 + 1), some 1, none, none⟩
      = .ok ⟨[⟨2, "Siti", "880202026666", true, some 5, some "Kampung Baru",
              some "Parti Rakyat", some "#3B82F6"⟩],
          ⟨10 ^ 21, 1, 2, some 2⟩⟩ ∧
    getAllVoters storedOrder noFault sampleDbTwins ⟨some 1, some 1, none, none⟩
      = .ok ⟨[⟨1, "Ali", "900101015555", false, none, some "Kampung Baru", none, none⟩],
          ⟨1, 1, 2, some 2⟩⟩ ∧
    getAllVoters reversedOrder noFault sampleDbTwins ⟨some 1, some 1, none, none⟩
      = .ok ⟨[⟨2, "Ali", "880202026666", false, none, some "Kampung Baru", none, none⟩],
          ⟨1, 1, 2, some 2⟩⟩ := by
  refine ⟨by decide, by decide, by decide, ?_, ?_, ?_⟩
  · rfl
  · rfl
  · rfl

/-- C12 (amended). On a database with distinct village ids and party ids and with the
database layer answering, for every page >= 1 and limit >= 1 with page * limit below 2^53,
whatever the order in which the engine hands over rows of equal name, `getAllVoters`
answers 200 with: at each position i below limit the row of the voter at position
(page-1)*limit + i of a name-ordered list that holds each matching voter once (none
where that list has ended), and no rows beyond; that list is the one name-ordered list
of the matching voters when no two of them have equal names; the page and limit of the
request; total, the number of matching voters; and pages, the least number whose
multiple of limit reaches total. For limit 20 and page 2 over 45 matching voters that is
20 rows, the voters at positions 20 to 39 counted from 0, and pages 3. -/
theorem getAllVoters_pagination (order : VoterOrder) (db : Db) (page limit : Nat)
    (search village : Option String)
    (hvil : (db.villages.map (fun x => x.id)).Nodup)
    (hpar : (db.parties.map (fun x => x.id)).Nodup)
    (hpage : 1 ≤ page) (hlimit : 1 ≤ limit) (hexact : page * limit < 2 ^ 53) :
    ∃ pg ordered,
      getAllVoters order noFault db ⟨some page, some limit, search, village⟩ = .ok pg ∧
      ordered.Perm (matchingVoters db (search.getD "") (village.getD "")) ∧
      NameOrdered ordered ∧
      (DistinctNames (matchingVoters db (search.getD "") (village.getD "")) →
        ordered = orderBy (fun v => v.name)
          (matchingVoters db (search.getD "") (village.getD ""))) ∧
      (∀ i, i < limit →
        pg.voters[i]? = (ordered[(page - 1) * limit + i]?).map (voterListRowOf db)) ∧
      pg.voters.length
        = min limit ((matchingVoters db (search.getD "") (village.getD "")).length
            - (page - 1) * limit) ∧
      pg.pagination.page = page ∧ pg.pagination.limit = limit ∧
      pg.pagination.total = (matchingVoters db (search.getD "") (village.getD "")).length ∧
      (∃ k, pg.pagination.pages = some k ∧ pg.pagination.total ≤ k * limit ∧
        ∀ j, pg.pagination.total ≤ j * limit → k ≤ j) ∧
      (page = 2 → limit = 20 →
        (matchingVoters db (search.getD "") (village.getD "")).length = 45 →
        pg.voters = ((ordered.drop 20).take 20).map (voterListRowOf db) ∧
        pg.voters.length = 20 ∧ pg.pagination.pages = some 3) := by
  obtain ⟨ordered, hperm, hsorted, hok⟩ :=
    getAllVoters_ok order db ⟨some page, some limit, search, village⟩ hvil hpar
      page limit ((page - 1) * limit) (pageParams_exact page limit hpage hlimit hexact)
  simp only [Option.getD_some] at hok hperm
  refine ⟨_, ordered, hok, hperm, hsorted, ?_, ?_, ?_, rfl, rfl, rfl,
    ceilDiv_spec _ limit hlimit, ?_⟩
  · intro hd
    apply nameOrdered_unique _ _ (hperm.trans (orderBy_perm _ _).symm) hsorted
      (orderBy_sorted (fun v : Voter => v.name) _)
    unfold DistinctNames at hd ⊢
    refine (List.Perm.pairwise_iff ?_ (orderBy_perm (fun v : Voter => v.name) _)).mpr hd
    intro a b hab
    unfold sameText at hab ⊢
    rw [sameChars_symm]
    exact hab
  · intro i hi
    simp only [List.getElem?_map, List.getElem?_take_of_lt hi, List.getElem?_drop]
  · simp only [List.length_map, List.length_take, List.length_drop, hperm.length_eq]
  · intro hp hl h45
    subst hp hl
    refine ⟨rfl, ?_, ?_⟩
    · simp only [List.length_map, List.length_take, List.length_drop, hperm.length_eq, h45]
      decide
    · simp only [h45]
      decide

theorem getAllVoters_pagination_witness :
    (sampleDb45.villages.map (fun x => x.id)).Nodup ∧
    (sampleDb45.parties.map (fun x => x.id)).Nodup ∧
    (matchingVoters sampleDb45 "" "").length = 45 ∧
    DistinctNames (matchingVoters sampleDb45 "" "") ∧
    ∃ pg, getAllVoters reversedOrder noFault sampleDb45 ⟨some 2, some 20, none, none⟩ = .ok pg ∧
      pg.voters.length = 20 ∧ pg.pagination.total = 45 ∧ pg.pagination.pages = some 3 ∧
      pg.voters.map (fun r => r.id)
        = [25, 24, 23, 22, 21, 20, 19, 18, 17, 16, 15, 14, 13, 12, 11, 10, 9, 8, 7, 6] ∧
      pg.voters.map (fun r => r.name)
        = (List.range 20).map (fun i => "Pengundi " ++ twoDigits (21 + i)) :=
  have h45 : (matchingVoters sampleDb45 "" "").length = 45 := by decide
  have hd : DistinctNames (matchingVoters sampleDb45 "" "") := by
    unfold DistinctNames
    decide
  match getAllVoters_pagination reversedOrder sampleDb45 2 20 none none (by decide) (by decide)
      (by decide) (by decide) (by decide) with
  | ⟨pg, ordered, hpg, _, _, hunique, _, _, _, _, htotal, _, hexample⟩ =>
    ⟨by decide, by decide, h45, hd, pg, hpg, (hexample rfl rfl h45).2.1, htotal.trans h45,
      (hexample rfl rfl h45).2.2,
      by rw [(hexample rfl rfl h45).1, hunique hd]; decide,
      by rw [(hexample rfl rfl h45).1, hunique hd]; decide⟩


theorem selects_of_matching (order : VoterOrder) (db : Db) (q : VoterQuery) (sel : Voter → Bool)
    (hvil : (db.villages.map (fun x => x.id)).Nodup)
    (hpar : (db.parties.map (fun x => x.id)).Nodup)
    (hsel : ∀ v, pageWhere (q.search.getD "") (q.village.getD "") v (villageOf db v) = sel v) :
    Selects order db q sel := by
  have hmatch : matchingVoters db (q.search.getD "") (q.village.getD "")
      = db.voters.filter sel := by
    unfold matchingVoters
    congr 1
    funext v
    exact hsel v
  intro page limit offset hparams
  obtain ⟨ordered, hperm, hsorted, hok⟩ :=
    getAllVoters_ok order db q hvil hpar page limit offset hparams
  rw [hmatch] at hok hperm
  exact ⟨_, ordered, hok, rfl, hperm, hsorted, rfl⟩

theorem anySuffix_isEmpty : ∀ t : List Char, anySuffix List.isEmpty t = true := by
  intro t
  induction t with
  | nil => rfl
  | cons c t ih => simp [anySuffix, ih]

theorem likeToken_plain (c : Char) (hc : isLikeMeta c = false) :
    likeToken c = .literal c ∧ (c == likeEscape) = false := by
  simp only [isLikeMeta, Bool.or_eq_false_iff] at hc
  obtain ⟨⟨h1, h2⟩, h3⟩ := hc
  refine ⟨?_, h3⟩
  unfold likeToken
  simp only [h1, h2, Bool.false_eq_true, if_false]

/-- The elements of a pattern of plain characters followed by `%`. -/
theorem likeTokens_plain : ∀ plain : List Char, (∀ c ∈ plain, isLikeMeta c = false) →
    likeTokens (plain ++ ['%']) = plain.map LikeToken.literal ++ [LikeToken.anyRun] := by
  intro plain
  induction plain with
  | nil => intro _; rfl
  | cons c rest ih =>
    intro hplain
    obtain ⟨htok, hesc⟩ := likeToken_plain c (hplain c (List.mem_cons_self _ _))
    have hrest : ∀ d ∈ rest, isLikeMeta d = false :=
      fun d hd => hplain d (List.mem_cons_of_mem _ hd)
    have hstep : ∀ d p, likeTokens (c :: d :: p) = LikeToken.literal c :: likeTokens (d :: p) := by
      intro d p
      rw [likeTokens]
      simp only [hesc, Bool.false_eq_true, if_false, htok]
    cases rest with
    | nil => exact hstep '%' []
    | cons d r =>
      have := ih hrest
      rw [List.cons_append, List.cons_append, hstep, ← List.cons_append, this]
      rfl

theorem likeMatch_literals : ∀ (plain t : List Char),
    likeMatch (plain.map LikeToken.literal ++ [LikeToken.anyRun]) t = startsWithCI t plain := by
  intro plain
  induction plain with
  | nil =>
    intro t
    have hnil : likeMatch [] = List.isEmpty := by
      funext u
      cases u <;> rfl
    simp only [List.map_nil, List.nil_append, likeMatch, hnil, anySuffix_isEmpty]
    cases t <;> rfl
  | cons c rest ih =>
    intro t
    cases t with
    | nil => rfl
    | cons d t1 =>
      have hstep : likeMatch (LikeToken.literal c ::
          (rest.map LikeToken.literal ++ [LikeToken.anyRun])) (d :: t1)
          = (sameLetter c d && likeMatch (rest.map LikeToken.literal ++ [LikeToken.anyRun]) t1) :=
        rfl
      rw [List.map_cons, List.cons_append, hstep, ih t1]
      rfl

/-- For a search string without wildcard and escape characters, the `LIKE` condition of
`getAllVoters` is the case-insensitive substring test. -/
theorem likeSearch_plain (search column : String)
    (hplain : ∀ c ∈ search.data, isLikeMeta c = false) :
    likeSearch search column = containsCI column search := by
  unfold likeSearch containsCI likeChars
  have htok : likeTokens ('%' :: (search.data ++ ['%']))
      = LikeToken.anyRun :: (search.data.map LikeToken.literal ++ [LikeToken.anyRun]) := by
    rw [← likeTokens_plain search.data hplain]
    cases hs : search.data ++ ['%'] with
    | nil => simp at hs
    | cons d p =>
      rw [likeTokens]
      rw [if_neg (by decide)]
      rfl
  have hfun : likeMatch (search.data.map LikeToken.literal ++ [LikeToken.anyRun])
      = fun t => startsWithCI t search.data := by
    funext t
    exact likeMatch_literals search.data t
  rw [htok, likeMatch, hfun]

/-- For a non-empty search string without wildcard and escape characters, the voters
`getAllVoters` selects are the voters whose name or identity number contains the search
string, compared case-insensitively. -/
theorem getAllVoters_search_plain (order : VoterOrder) (db : Db) (page limit : Option Nat)
    (search : String)
    (hvil : (db.villages.map (fun x => x.id)).Nodup)
    (hpar : (db.parties.map (fun x => x.id)).Nodup)
    (hne : search ≠ "")
    (hplain : ∀ c ∈ search.data, isLikeMeta c = false) :
    Selects order db ⟨page, limit, some search, none⟩
      (fun v => containsCI v.name search || containsCI v.ic_number search) := by
  apply selects_of_matching order db _ _ hvil hpar
  intro v
  have hs : (search != "") = true := by simpa using hne
  simp [pageWhere, hs, likeSearch_plain _ _ hplain]

/-- C13 (the code at the failing input). The search string is put into the `LIKE` pattern
as it is: for the search "a_i" `getAllVoters` lists and counts the voter named "Ali",
whose name and identity number do not contain "a_i". -/
theorem getAllVoters_search_wildcard :
    containsCI "Ali" "a_i" = false ∧ containsCI "900101015555" "a_i" = false ∧
    getAllVoters storedOrder noFault sampleDb ⟨none, none, some "a_i", none⟩
      = .ok ⟨[⟨1, "Ali", "900101015555", false, none, some "Kampung Baru", none, none⟩],
          ⟨1, 50, 1, some 1⟩⟩ := by
  refine ⟨by decide, by decide, ?_⟩
  rfl

/-- C14 (the claim at two inputs). The village name is compared under the collation of
the column and the village id as the Number `parseInt` gives. For the village parameter
"kampung baru" `getAllVoters` lists and counts the two voters of the sample database,
whose village is named "Kampung Baru" and not "kampung baru"; for the village parameter
"9007199254740993" it lists and counts the voter whose `village_id` is
9007199254740992. -/
theorem getAllVoters_village_loose :
    (sampleDb.villages.map (fun x => x.name) = ["Kampung Baru"]) ∧
    isAllDigits "kampung baru" = false ∧
    getAllVoters storedOrder noFault sampleDb ⟨none, none, none, some "kampung baru"⟩
      = .ok ⟨[⟨1, "Ali", "900101015555", false, none, some "Kampung Baru", none, none⟩,
              ⟨2, "Siti", "880202026666", true, some 5, some "Kampung Baru",
                some "Parti Rakyat", some "#3B82F6"⟩],
          ⟨1, 50, 2, some 1⟩⟩ ∧
    isAllDigits "9007199254740993" = true ∧
    parseDigits "9007199254740993" = 9007199254740993 ∧
    (sampleDbFar.voters.map (fun v => (v.id, v.village_id))
      = [(1, 9007199254740992), (2, 1)]) ∧
    getAllVoters storedOrder noFault sampleDbFar ⟨none, none, none, some "9007199254740993"⟩
      = .ok ⟨[⟨1, "Ali", "900101015555", false, none, some "Kampung Jauh", none, none⟩],
          ⟨1, 50, 1, some 1⟩⟩ := by
  refine ⟨by decide, by decide, ?_, by decide, by decide, by decide, ?_⟩
  · rfl
  · rfl

/-- C14 (amended). On a database with distinct village ids and party ids, with no search
and with the database layer answering, whatever the order in which the engine hands over
rows of equal name: a village parameter made only of decimal digits makes `getAllVoters`
select the voters whose `village_id` is the Number the digits convert to, which is the
number they write when that is below 2^53; a non-empty village parameter with any other
character makes it select the voters whose village has a name equal to the parameter
under the collation of the column, that is as a whole and up to letter case; an empty or
absent village parameter makes it select all voters. -/
theorem getAllVoters_village_filter (order : VoterOrder) (db : Db) (page limit : Option Nat)
    (hvil : (db.villages.map (fun x => x.id)).Nodup)
    (hpar : (db.parties.map (fun x => x.id)).Nodup) :
    (∀ village : String, isAllDigits village = true →
      Selects order db ⟨page, limit, none, some village⟩
        (fun v => toNumber (parseDigits village) == some v.village_id)) ∧
    (∀ village : String, isAllDigits village = true → parseDigits village < 2 ^ 53 →
      Selects order db ⟨page, limit, none, some village⟩
        (fun v => v.village_id == parseDigits village)) ∧
    (∀ village : String, village ≠ "" → isAllDigits village = false →
      Selects order db ⟨page, limit, none, some village⟩
        (fun v => (villageOf db v).map (fun x => sameText x.name village) == some true)) ∧
    Selects order db ⟨page, limit, none, some ""⟩ (fun _ => true) ∧
    Selects order db ⟨page, limit, none, none⟩ (fun _ => true) := by
  have hne : ∀ village : String, isAllDigits village = true → (village != "") = true := by
    intro village hdigits
    by_cases h : village = ""
    · subst h
      exact absurd hdigits (by decide)
    · simpa using h
  refine ⟨?_, ?_, ?_, ?_, ?_⟩
  · intro village hdigits
    apply selects_of_matching order db _ _ hvil hpar
    intro v
    simp [pageWhere, hne village hdigits, hdigits]
  · intro village hdigits hsmall
    apply selects_of_matching order db _ _ hvil hpar
    intro v
    simp only [pageWhere, Option.getD_none, Option.getD_some, hne village hdigits, hdigits,
      toNumber_exact _ hsmall, if_true]
    simp [eq_comm]
  · intro village hne1 hdigits
    apply selects_of_matching order db _ _ hvil hpar
    intro v
    have hne2 : (village != "") = true := by simpa using hne1
    simp [pageWhere, hne2, hdigits]
  · apply selects_of_matching order db _ _ hvil hpar
    intro v
    simp [pageWhere]
  · apply selects_of_matching order db _ _ hvil hpar
    intro v
    simp [pageWhere]

theorem getAllVoters_village_filter_witness :
    (sampleDbFar.villages.map (fun x => x.id)).Nodup ∧
    (sampleDbFar.parties.map (fun x => x.id)).Nodup ∧
    isAllDigits "1" = true ∧ parseDigits "1" = 1 ∧ isAllDigits "kampung JAUH" = false ∧
    pageParams 1 50 = some (1, 50, 0) ∧
    (∃ pg ordered,
      getAllVoters reversedOrder noFault sampleDbFar ⟨none, none, none, some "1"⟩ = .ok pg ∧
      pg.pagination.total
        = (sampleDbFar.voters.filter (fun v => v.village_id == parseDigits "1")).length ∧
      ordered.Perm (sampleDbFar.voters.filter (fun v => v.village_id == parseDigits "1")) ∧
      NameOrdered ordered ∧
      pg.voters = ((ordered.drop 0).take 50).map (voterListRowOf sampleDbFar)) ∧
    (∃ pg ordered,
      getAllVoters reversedOrder noFault sampleDbFar ⟨none, none, none, some "kampung JAUH"⟩
        = .ok pg ∧
      pg.pagination.total
        = (sampleDbFar.voters.filter (fun v =>
            (villageOf sampleDbFar v).map (fun x => sameText x.name "kampung JAUH")
              == some true)).length ∧
      ordered.Perm (sampleDbFar.voters.filter (fun v =>
          (villageOf sampleDbFar v).map (fun x => sameText x.name "kampung JAUH")
            == some true)) ∧
      NameOrdered ordered ∧
      pg.voters = ((ordered.drop 0).take 50).map (voterListRowOf sampleDbFar)) ∧
    (sampleDbFar.voters.filter (fun v => v.village_id == parseDigits "1")).map (fun v => v.id)
      = [2] ∧
    (sampleDbFar.voters.filter (fun v =>
        (villageOf sampleDbFar v).map (fun x => sameText x.name "kampung JAUH")
          == some true)).map (fun v => v.id) = [1] :=
  ⟨by decide, by decide, by decide, by decide, by decide, by decide,
    (getAllVoters_village_filter reversedOrder sampleDbFar none none (by decide)
      (by decide)).2.1 "1" (by decide) (by decide) 1 50 0 (by decide),
    (getAllVoters_village_filter reversedOrder sampleDbFar none none (by decide)
      (by decide)).2.2.1 "kampung JAUH" (by decide) (by decide) 1 50 0 (by decide),
    by decide, by decide⟩

/-! ### Deleting villages and parties -/

/-- C15. `deleteVillage` leaves the database as it was whenever at least one voter
references the village, and answers status 400 "Cannot delete village with registered
voters" when its first query is answered. For a stored village that no voter references,
with the database layer answering, it answers success; `getAllVillages` listed the
village before, and afterwards it lists no row with that id, while for every other
stored village it still lists the row with the id, name and description of that village
that it listed before, with the same counts, and lists no row it did not list before,
whatever the order in which the engine hands over the rows of the two listings. -/
theorem deleteVillage_guard (order₁ order₂ : RowOrder Village) (fault : Fault) (db : Db)
    (id : Nat) :
    ((∃ v ∈ db.voters, v.village_id = id) →
      (deleteVillage fault db id).db = db ∧
      (fault 0 = none →
        (deleteVillage fault db id).response
          = ⟨400, .error "Cannot delete village with registered voters"⟩)) ∧
    ((∀ v ∈ db.voters, v.village_id ≠ id) → (∃ g ∈ db.villages, g.id = id) →
      (deleteVillage noFault db id).response = ⟨200, .message "Village deleted successfully"⟩ ∧
      ∃ before after,
        getAllVillages order₁ noFault db = .ok before ∧
        getAllVillages order₂ noFault (deleteVillage noFault db id).db = .ok after ∧
        (∃ r ∈ before, r.id = id) ∧
        (∀ r ∈ after, r.id ≠ id) ∧
        (∀ g ∈ db.villages, g.id ≠ id →
          ∃ r ∈ after, r.id = g.id ∧ r.name = g.name ∧ r.description = g.description ∧
            r ∈ before) ∧
        (∀ r ∈ after, r ∈ before)) := by
  constructor
  · rintro ⟨v, hv, hvid⟩
    have hpos : (db.voters.filter (fun v => v.village_id == id)).length > 0 :=
      List.length_pos_of_mem (List.mem_filter.mpr ⟨hv, by simpa using hvid⟩)
    unfold deleteVillage
    cases hf : fault 0 with
    | some e => exact ⟨rfl, fun h => by simp at h⟩
    | none =>
      simp only [if_pos hpos]
      exact ⟨trivial, fun _ => trivial⟩
  · rintro hnone ⟨g, hg, hgid⟩
    have hzero : ¬ (db.voters.filter (fun v => v.village_id == id)).length > 0 := by
      have hnil : db.voters.filter (fun v => v.village_id == id) = [] := by
        rw [List.filter_eq_nil_iff]
        intro v hv
        simpa using hnone v hv
      rw [hnil]
      decide
    have hfound : ¬ ((db.villages.filter (fun v => v.id == id)).length == 0) = true := by
      have hpos : (db.villages.filter (fun v => v.id == id)).length > 0 :=
        List.length_pos_of_mem (List.mem_filter.mpr ⟨hg, by simpa using hgid⟩)
      simp only [beq_iff_eq]
      omega
    have hdel : deleteVillage noFault db id
        = ⟨{ db with villages := db.villages.filter (fun v => !(v.id == id)) },
            ⟨200, .message "Village deleted successfully"⟩⟩ := by
      unfold deleteVillage
      simp only [noFault, if_neg hzero, if_neg hfound]
    have hsame : ∀ g1 ∈ db.villages, g1.id ≠ id →
        villageListRow { db with villages := db.villages.filter (fun v => !(v.id == id)) } g1
          = villageListRow db g1 := by
      intro g1 _ hne
      have hkeep : (!(g1.id == id)) = true := by simpa using hne
      unfold villageListRow
      rw [List.count_filter (p := fun v : Village => !(v.id == id)) hkeep]
    have hlisted : ∀ g1 ∈ db.villages, villageListRow db g1
        ∈ (orderBy (fun g => g.name) (order₁.arrange db.villages.dedup)).map
            (villageListRow db) := by
      intro g1 hg1
      rw [List.mem_map]
      exact ⟨g1, (orderBy_perm _ _).symm.subset
        ((order₁.perm _).symm.subset (List.mem_dedup.mpr hg1)), rfl⟩
    rw [hdel]
    refine ⟨rfl, _, _, rfl, rfl, ⟨villageListRow db g, hlisted g hg, hgid⟩, ?_, ?_, ?_⟩
    · intro r hr
      rw [List.mem_map] at hr
      obtain ⟨g1, hg1, hrow⟩ := hr
      have hmem := (List.mem_dedup.mp ((order₂.perm _).subset ((orderBy_perm _ _).subset hg1)))
      have hne : ¬ g1.id = id := by simpa using (List.mem_filter.mp hmem).2
      rw [← hrow]
      exact hne
    · intro g1 hg1 hne
      have hkeep : (!(g1.id == id)) = true := by simpa using hne
      have hmem1 : g1 ∈ db.villages.filter (fun v => !(v.id == id)) :=
        List.mem_filter.mpr ⟨hg1, hkeep⟩
      refine ⟨villageListRow
        { db with villages := db.villages.filter (fun v => !(v.id == id)) } g1, ?_, rfl, rfl,
        rfl, ?_⟩
      · rw [List.mem_map]
        exact ⟨g1, (orderBy_perm _ _).symm.subset
          ((order₂.perm _).symm.subset (List.mem_dedup.mpr hmem1)), rfl⟩
      · rw [hsame g1 hg1 hne]
        exact hlisted g1 hg1
    · intro r hr
      rw [List.mem_map] at hr
      obtain ⟨g1, hg1, hrow⟩ := hr
      have hmem := (List.mem_dedup.mp ((order₂.perm _).subset ((orderBy_perm _ _).subset hg1)))
      have hne : ¬ g1.id = id := by simpa using (List.mem_filter.mp hmem).2
      have hin : g1 ∈ db.villages := (List.mem_filter.mp hmem).1
      rw [← hrow, hsame g1 hin hne]
      exact hlisted g1 hin

theorem deleteVillage_guard_witness :
    (∃ v ∈ sampleDb2.voters, v.village_id = 1) ∧
    (deleteVillage noFault sampleDb2 1).response
      = ⟨400, .error "Cannot delete village with registered voters"⟩ ∧
    (deleteVillage noFault sampleDb2 1).db = sampleDb2 ∧
    (∀ v ∈ sampleDb2.voters, v.village_id ≠ 2) ∧ (∃ g ∈ sampleDb2.villages, g.id = 2) ∧
    ((deleteVillage noFault sampleDb2 2).response
        = ⟨200, .message "Village deleted successfully"⟩ ∧
      ∃ before after,
        getAllVillages storedOrder noFault sampleDb2 = .ok before ∧
        getAllVillages reversedOrder noFault (deleteVillage noFault sampleDb2 2).db = .ok after ∧
        (∃ r ∈ before, r.id = 2) ∧
        (∀ r ∈ after, r.id ≠ 2) ∧
        (∀ g ∈ sampleDb2.villages, g.id ≠ 2 →
          ∃ r ∈ after, r.id = g.id ∧ r.name = g.name ∧ r.description = g.description ∧
            r ∈ before) ∧
        (∀ r ∈ after, r ∈ before)) ∧
    getAllVillages storedOrder noFault sampleDb2
      = .ok [⟨1, "Kampung Baru", some "", 2, 1⟩, ⟨2, "Kampung Hulu", some "", 0, 0⟩] ∧
    getAllVillages reversedOrder noFault (deleteVillage noFault sampleDb2 2).db
      = .ok [⟨1, "Kampung Baru", some "", 2, 1⟩] :=
  ⟨⟨sampleAli, by decide, by decide⟩,
    ((deleteVillage_guard storedOrder reversedOrder noFault sampleDb2 1).1 ⟨sampleAli, by decide, by decide⟩).2 rfl,
    ((deleteVillage_guard storedOrder reversedOrder noFault sampleDb2 1).1 ⟨sampleAli, by decide, by decide⟩).1,
    by decide, ⟨⟨2, "Kampung Hulu", some ""⟩, by decide, by decide⟩,
    (deleteVillage_guard storedOrder reversedOrder noFault sampleDb2 2).2 (by decide)
      ⟨⟨2, "Kampung Hulu", some ""⟩, by decide, by decide⟩,
    rfl, rfl⟩

/-- C16. `deleteParty` leaves the database as it was whenever some voter with `has_voted`
true has that party as `party_voted_id`, and answers status 400 "Cannot delete party that
has received votes" when its first query is answered. For every stored party with no
such voter, with the database layer answering, it answers success and removes the rows
of that party from the parties table, leaving every other party and the other tables as
they were. -/
theorem deleteParty_guard (fault : Fault) (db : Db) (id : Nat) :
    ((∃ v ∈ db.voters, v.party_voted_id = some id ∧ v.has_voted = true) →
      (deleteParty fault db id).db = db ∧
      (fault 0 = none →
        (deleteParty fault db id).response
          = ⟨400, .error "Cannot delete party that has received votes"⟩)) ∧
    ((∀ v ∈ db.voters, ¬ (v.party_voted_id = some id ∧ v.has_voted = true)) →
      (∃ p ∈ db.parties, p.id = id) →
      (deleteParty noFault db id).response = ⟨200, .message "Party deleted successfully"⟩ ∧
      (∀ p, p ∈ (deleteParty noFault db id).db.parties ↔ p ∈ db.parties ∧ p.id ≠ id) ∧
      (deleteParty noFault db id).db.voters = db.voters ∧
      (deleteParty noFault db id).db.villages = db.villages ∧
      (deleteParty noFault db id).db.vote_logs = db.vote_logs) := by
  constructor
  · rintro ⟨v, hv, hvp, hvoted⟩
    have hpos : (db.voters.filter
        (fun v => v.party_voted_id == some id && v.has_voted)).length > 0 :=
      List.length_pos_of_mem (List.mem_filter.mpr ⟨hv, by simp [hvp, hvoted]⟩)
    unfold deleteParty
    cases hf : fault 0 with
    | some e => exact ⟨rfl, fun h => by simp at h⟩
    | none =>
      simp only [if_pos hpos]
      exact ⟨trivial, fun _ => trivial⟩
  · rintro hnone ⟨p, hp, hpid⟩
    have hzero : ¬ (db.voters.filter
        (fun v => v.party_voted_id == some id && v.has_voted)).length > 0 := by
      have hnil : db.voters.filter
          (fun v => v.party_voted_id == some id && v.has_voted) = [] := by
        rw [List.filter_eq_nil_iff]
        intro v hv
        have := hnone v hv
        simpa using this
      rw [hnil]
      decide
    have hfound : ¬ ((db.parties.filter (fun p => p.id == id)).length == 0) = true := by
      have hpos : (db.parties.filter (fun p => p.id == id)).length > 0 :=
        List.length_pos_of_mem (List.mem_filter.mpr ⟨hp, by simpa using hpid⟩)
      simp only [beq_iff_eq]
      omega
    have hdel : deleteParty noFault db id
        = ⟨{ db with parties := db.parties.filter (fun p => !(p.id == id)) },
            ⟨200, .message "Party deleted successfully"⟩, []⟩ := by
      unfold deleteParty
      simp only [noFault, if_neg hzero, if_neg hfound]
    rw [hdel]
    refine ⟨rfl, ?_, rfl, rfl, rfl⟩
    intro q
    simp [List.mem_filter]

theorem deleteParty_guard_witness :
    (∃ v ∈ sampleDb2.voters, v.party_voted_id = some 1 ∧ v.has_voted = true) ∧
    (deleteParty noFault sampleDb2 1).response
      = ⟨400, .error "Cannot delete party that has received votes"⟩ ∧
    (deleteParty noFault sampleDb2 2).response
      = ⟨200, .message "Party deleted successfully"⟩ :=
  ⟨⟨sampleSiti, by decide, by decide, by decide⟩,
    ((deleteParty_guard noFault sampleDb2 1).1
      ⟨sampleSiti, by decide, by decide, by decide⟩).2 rfl,
    ((deleteParty_guard noFault sampleDb2 2).2 (by decide)
      ⟨⟨2, "Parti Baru", some "PB", some "#DC2626", some "/uploads/party-flags/old.png",
        some ""⟩, by decide, by decide⟩).1⟩

/-! ### Party colors and logos -/

theorem partyCatch_body (what : String) (e : DbError) :
    partyCatch what e ≠ ⟨400, .error "Color must be a valid hex color code"⟩ ∧
    partyCatch what e ≠ ⟨400, .error "Party name is required"⟩ := by
  unfold partyCatch
  split
  · exact ⟨by decide, by decide⟩
  · constructor <;> intro h <;> injection h with h1 _ <;> exact absurd h1 (by decide)

/-- A parameter with a destructuring default is never refused by the driver. -/
theorem bindParam_withDefault {α : Type} (x : Js α) (d : α) :
    ∃ o, bindParam (withDefault x d) = .ok o := by
  cases x with
  | undefined => exact ⟨some d, rfl⟩
  | null => exact ⟨none, rfl⟩
  | val a => exact ⟨some a, rfl⟩

/-- Past its two validation tests `addParty` answers from its INSERT or its `catch` block,
never with a validation message; the row it inserts carries the validated color. -/
theorem addParty_cases (fault : Fault) (db : Db) (req : PartyRequest)
    (hname : truthyStr req.name = true)
    (hcolor : isHexColor (jsString (withDefault req.color "#3B82F6")) = true) :
    ((addParty fault db req).response ≠ ⟨400, .error "Color must be a valid hex color code"⟩ ∧
      (addParty fault db req).response ≠ ⟨400, .error "Party name is required"⟩) ∧
    ((addParty fault db req).db = db ∨
      ∃ abbr desc,
        (addParty fault db req).db
          = { db with
              parties := db.parties ++ [⟨db.nextPartyId, req.name.get, abbr,
                some (jsString (withDefault req.color "#3B82F6")), req.file.map logoPathOf, desc⟩]
              nextPartyId := db.nextPartyId + 1 }) := by
  have hn : (!truthyStr req.name) = false := by simp [hname]
  have hc : (!isHexColor (jsString (withDefault req.color "#3B82F6"))) = false := by
    simp [hcolor]
  have hcol : bindParam (withDefault req.color "#3B82F6")
      = .ok (some (jsString (withDefault req.color "#3B82F6"))) := by
    cases hreq : req.color with
    | undefined => rfl
    | null => rw [hreq] at hcolor; exact absurd hcolor (by decide)
    | val c => rfl
  obtain ⟨abbr, ha⟩ := bindParam_withDefault req.abbreviation ""
  obtain ⟨desc, hd⟩ := bindParam_withDefault req.description ""
  unfold addParty
  simp only [hn, hc, Bool.false_eq_true, if_false, hcol, ha, hd]
  cases hf0 : fault 0 with
  | some e => exact ⟨partyCatch_body _ _, Or.inl rfl⟩
  | none =>
    by_cases hdup : db.parties.any (fun p => p.name == req.name.get) = true
    · simp only [if_pos hdup]
      exact ⟨partyCatch_body _ _, Or.inl trivial⟩
    · simp only [if_neg hdup]
      cases hf1 : fault 1 with
      | some e => exact ⟨partyCatch_body _ _, Or.inr ⟨abbr, desc, rfl⟩⟩
      | none =>
        refine ⟨⟨?_, ?_⟩, Or.inr ⟨abbr, desc, rfl⟩⟩
        · intro h; injection h with h1 _; exact absurd h1 (by decide)
        · intro h; injection h with h1 _; exact absurd h1 (by decide)

/-- C17. For every `addParty` request with a name: when a color is supplied (a string or
null), the request is answered with the validation failure, status 400 "Color must be a
valid hex color code", if and only if the color is not `#` followed by exactly six
hexadecimal digits in either case, and a rejected request changes nothing; when no color
is supplied the default "#3B82F6" is taken and validation passes. The color "blue" is
rejected and "#3B82F6" is accepted. -/
theorem addParty_color_validation (fault : Fault) (db : Db) (req : PartyRequest)
    (hname : truthyStr req.name = true) :
    (req.color ≠ Js.undefined →
      ((addParty fault db req).response = ⟨400, .error "Color must be a valid hex color code"⟩
        ↔ isHexColor (jsString req.color) = false) ∧
      (isHexColor (jsString req.color) = false → (addParty fault db req).db = db)) ∧
    (req.color = Js.undefined →
      (addParty fault db req).response ≠ ⟨400, .error "Color must be a valid hex color code"⟩) ∧
    (addParty fault db req).response ≠ ⟨400, .error "Party name is required"⟩ ∧
    isHexColor "blue" = false ∧ isHexColor "#3B82F6" = true := by
  have hn : (!truthyStr req.name) = false := by simp [hname]
  have hreject : isHexColor (jsString (withDefault req.color "#3B82F6")) = false →
      addParty fault db req
        = ⟨db, ⟨400, .error "Color must be a valid hex color code"⟩, []⟩ := by
    intro hbad
    unfold addParty
    simp only [hn, hbad, Bool.false_eq_true, if_false, Bool.not_false, if_true]
  have hdefault : ∀ c : Js String, c ≠ Js.undefined → withDefault c "#3B82F6" = c := by
    intro c hc
    cases c with
    | undefined => exact absurd rfl hc
    | null => rfl
    | val x => rfl
  refine ⟨?_, ?_, ?_, by decide, by decide⟩
  · intro hsupplied
    have hd := hdefault req.color hsupplied
    constructor
    · constructor
      · intro hresp
        by_cases hgood : isHexColor (jsString req.color) = true
        · have hgood1 : isHexColor (jsString (withDefault req.color "#3B82F6")) = true := by
            rw [hd]; exact hgood
          exact absurd hresp (addParty_cases fault db req hname hgood1).1.1
        · simpa using hgood
      · intro hbad
        rw [hreject (by rw [hd]; exact hbad)]
    · intro hbad
      rw [hreject (by rw [hd]; exact hbad)]
  · intro hnone
    have hgood : isHexColor (jsString (withDefault req.color "#3B82F6")) = true := by
      rw [hnone]; decide
    exact (addParty_cases fault db req hname hgood).1.1
  · by_cases hgood : isHexColor (jsString (withDefault req.color "#3B82F6")) = true
    · exact (addParty_cases fault db req hname hgood).1.2
    · rw [hreject (by simpa using hgood)]
      simp

theorem addParty_color_validation_witness :
    truthyStr (samplePartyRequest "Parti Baru" "blue").name = true ∧
    (addParty noFault sampleDb (samplePartyRequest "Parti Baru" "blue")).response
      = ⟨400, .error "Color must be a valid hex color code"⟩ ∧
    (addParty noFault sampleDb (samplePartyRequest "Parti Baru" "#3B82F6")).response
      ≠ ⟨400, .error "Color must be a valid hex color code"⟩ ∧
    (addParty noFault sampleDb (samplePartyRequest "Parti Baru" "#3B82F6")).response.status
      = 201 :=
  ⟨by decide,
    ((addParty_color_validation noFault sampleDb (samplePartyRequest "Parti Baru" "blue")
      (by decide)).1 (by decide)).1.mpr (by decide),
    fun h => absurd
      (((addParty_color_validation noFault sampleDb (samplePartyRequest "Parti Baru" "#3B82F6")
        (by decide)).1 (by decide)).1.mp h) (by decide),
    by decide⟩

/-- Every `updateParty` call either leaves the database as it was, or passed its color
test and ran the UPDATE statement with the color bound as it came. -/
theorem updateParty_cases (fault : Fault) (db : Db) (id : Nat) (req : PartyRequest) :
    (updateParty fault db id req).db = db ∨
    ∃ abbr col desc,
      bindParam req.color = .ok col ∧
      ¬ (truthyStr req.color = true ∧ isHexColor (jsString req.color) = false) ∧
      (updateParty fault db id req).db
        = { db with
            parties := db.parties.map fun p =>
              if p.id == id then
                { p with name := req.name.get, abbreviation := abbr, color := col,
                         description := desc }
              else p } := by
  unfold updateParty
  by_cases hn : (!truthyStr req.name) = true
  · left; rw [if_pos hn]
  · rw [if_neg hn]
    by_cases hc : (truthyStr req.color && !isHexColor (jsString req.color)) = true
    · left; rw [if_pos hc]
    · rw [if_neg hc]
      have hc1 : ¬ (truthyStr req.color = true ∧ isHexColor (jsString req.color) = false) := by
        intro h
        apply hc
        simp [h.1, h.2]
      cases ha : bindParam req.abbreviation <;> cases hcb : bindParam req.color <;>
        cases hd : bindParam req.description <;> try (left; rfl)
      rename_i abbr col desc
      simp only []
      cases hf0 : fault 0 with
      | some e => left; rfl
      | none =>
        simp only []
        split
        · left; rfl
        · split
          · left; rfl
          · right
            refine ⟨abbr, col, desc, rfl, hc1, ?_⟩
            cases hf1 : fault 1 <;> rfl

/-- C18 (counterexample). `updateParty` tests the color only when it is truthy: on a
database whose party colors all match the pattern, the request that sets the color of
party 1 to the empty string is answered with status 200 and stores the empty string,
which does not match. -/
theorem updateParty_stores_empty_color :
    AllColorsHex sampleDb ∧ isHexColor "" = false ∧
    (updateParty noFault sampleDb 1
      ⟨.val "Parti Rakyat", .val "PR", .val "", .val "", none⟩).response.status = 200 ∧
    ¬ AllColorsHex (updateParty noFault sampleDb 1
      ⟨.val "Parti Rakyat", .val "PR", .val "", .val "", none⟩).db := by
  refine ⟨?_, by decide, by decide, ?_⟩
  · unfold AllColorsHex
    decide
  · unfold AllColorsHex
    decide

/-- C18 (amended). `updateParty` rejects with status 400, changing nothing, every request
whose color is a non-empty string that does not match `^#[0-9A-F]{6}$` case-insensitively.
If all party colors match the pattern before `addParty`, or before an `updateParty` whose
color is a non-empty string, they all match afterwards. -/
theorem party_color_invariant (fault : Fault) (db : Db) :
    (∀ id req, truthyStr req.color = true → isHexColor (jsString req.color) = false →
      (updateParty fault db id req).response.status = 400 ∧
      (updateParty fault db id req).db = db) ∧
    (∀ req, AllColorsHex db → AllColorsHex (addParty fault db req).db) ∧
    (∀ id req, truthyStr req.color = true → AllColorsHex db →
      AllColorsHex (updateParty fault db id req).db) := by
  refine ⟨?_, ?_, ?_⟩
  · intro id req htruthy hbad
    unfold updateParty
    by_cases hn : (!truthyStr req.name) = true
    · rw [if_pos hn]
      exact ⟨rfl, rfl⟩
    · rw [if_neg hn]
      have hc : (truthyStr req.color && !isHexColor (jsString req.color)) = true := by
        simp [htruthy, hbad]
      rw [if_pos hc]
      exact ⟨rfl, rfl⟩
  · intro req hall
    by_cases hn : truthyStr req.name = true
    · by_cases hc : isHexColor (jsString (withDefault req.color "#3B82F6")) = true
      · rcases (addParty_cases fault db req hn hc).2 with h | ⟨abbr, desc, h⟩
        · rw [h]; exact hall
        · rw [h]
          intro p hp
          rcases List.mem_append.mp hp with hold | hnew
          · exact hall p hold
          · rw [List.mem_singleton] at hnew
            rw [hnew]
            show Option.map isHexColor (some _) = some true
            rw [Option.map_some', hc]
      · have hc1 : (!isHexColor (jsString (withDefault req.color "#3B82F6"))) = true := by
          simpa using hc
        have hn1 : (!truthyStr req.name) = false := by simp [hn]
        have : addParty fault db req
            = ⟨db, ⟨400, .error "Color must be a valid hex color code"⟩, []⟩ := by
          unfold addParty
          simp only [hn1, hc1, Bool.false_eq_true, if_false, if_true]
        rw [this]; exact hall
    · have hn1 : (!truthyStr req.name) = true := by simpa using hn
      have : addParty fault db req = ⟨db, ⟨400, .error "Party name is required"⟩, []⟩ := by
        unfold addParty
        simp only [hn1, if_true]
      rw [this]; exact hall
  · intro id req htruthy hall
    rcases updateParty_cases fault db id req with h | ⟨abbr, col, desc, hcol, hpass, h⟩
    · rw [h]; exact hall
    · rw [h]
      have hval := truthyStr_val htruthy
      have hgood : isHexColor req.color.get = true := by
        by_cases hg : isHexColor (jsString req.color) = true
        · rw [hval] at hg; exact hg
        · exact absurd ⟨htruthy, by simpa using hg⟩ hpass
      have hcol1 : col = some req.color.get := by
        rw [hval] at hcol
        injection hcol with hcol
        exact hcol.symm
      intro p hp
      rw [List.mem_map] at hp
      obtain ⟨p0, hp0, hpp⟩ := hp
      by_cases hid : (p0.id == id) = true
      · rw [if_pos hid] at hpp
        rw [← hpp, hcol1]
        show Option.map isHexColor (some _) = some true
        rw [Option.map_some', hgood]
      · rw [if_neg hid] at hpp
        rw [← hpp]
        exact hall p0 hp0

theorem sampleDb_colors : AllColorsHex sampleDb := by
  unfold AllColorsHex
  decide

theorem party_color_invariant_witness :
    truthyStr (samplePartyRequest "Parti Rakyat" "blue").color = true ∧
    isHexColor (jsString (samplePartyRequest "Parti Rakyat" "blue").color) = false ∧
    (updateParty noFault sampleDb 1 (samplePartyRequest "Parti Rakyat" "blue")).response.status
      = 400 ∧
    AllColorsHex sampleDb ∧
    AllColorsHex (addParty noFault sampleDb (samplePartyRequest "Parti Baru" "#dc2626")).db ∧
    AllColorsHex
      (updateParty noFault sampleDb 1 (samplePartyRequest "Parti Rakyat" "#dc2626")).db :=
  ⟨by decide, by decide,
    ((party_color_invariant noFault sampleDb).1 1 (samplePartyRequest "Parti Rakyat" "blue")
      (by decide) (by decide)).1,
    sampleDb_colors,
    (party_color_invariant noFault sampleDb).2.1 (samplePartyRequest "Parti Baru" "#dc2626")
      sampleDb_colors,
    (party_color_invariant noFault sampleDb).2.2 1
      (samplePartyRequest "Parti Rakyat" "#dc2626") (by decide) sampleDb_colors⟩

/-- Every error answer of `uploadLogo` to a request with a file removes the uploaded file. -/
theorem uploadLogo_cleans_up (fault : Fault) (db : Db) (id : Nat) (f : UploadedFile)
    (herr : (uploadLogo fault db id (some f)).response.status ≠ 200) :
    Unlink.uploaded f.path ∈ (uploadLogo fault db id (some f)).unlinks := by
  unfold uploadLogo at herr ⊢
  simp only [] at herr ⊢
  cases hf0 : fault 0 with
  | some e => simp
  | none =>
    cases hsel : db.parties.filter (fun p => p.id == id) with
    | nil => simp
    | cons current rest =>
      cases hf1 : fault 1 with
      | some e => simp
      | none =>
        cases hf2 : fault 2 with
        | some e => simp
        | none =>
          rw [hf0, hsel] at herr
          simp only [hf1, hf2] at herr
          exact absurd rfl herr

/-- Past its two validation tests, every error answer of `addParty` comes from its `catch`
block and removes the uploaded file. -/
theorem addParty_catch_cleans_up (fault : Fault) (db : Db) (req : PartyRequest)
    (hname : truthyStr req.name = true)
    (hcolor : isHexColor (jsString (withDefault req.color "#3B82F6")) = true)
    (herr : (addParty fault db req).response.status ≠ 201) :
    (addParty fault db req).unlinks = cleanupUpload req.file := by
  have hn : (!truthyStr req.name) = false := by simp [hname]
  have hc : (!isHexColor (jsString (withDefault req.color "#3B82F6"))) = false := by
    simp [hcolor]
  obtain ⟨abbr, ha⟩ := bindParam_withDefault req.abbreviation ""
  obtain ⟨col, hcb⟩ := bindParam_withDefault req.color "#3B82F6"
  obtain ⟨desc, hd⟩ := bindParam_withDefault req.description ""
  unfold addParty at herr ⊢
  simp only [hn, hc, Bool.false_eq_true, if_false, ha, hcb, hd] at herr ⊢
  cases hf0 : fault 0 with
  | some e => rfl
  | none =>
    rw [hf0] at herr
    by_cases hdup : db.parties.any (fun p => p.name == req.name.get) = true
    · simp only [if_pos hdup]
    · simp only [if_neg hdup] at herr ⊢
      cases hf1 : fault 1 with
      | some e => rfl
      | none =>
        rw [hf1] at herr
        exact absurd rfl herr

/-- C19 (the code at the failing input). The validation answers of `addParty` and every
error answer of `updateParty` leave the uploaded file in place: with an uploaded logo,
`addParty` with color "blue" and `addParty` without a name answer 400, and `updateParty`
for an unknown party answers 404, each without requesting any file deletion. -/
theorem addParty_validation_keeps_upload :
    addParty noFault sampleDb (samplePartyRequest "Parti Baru" "blue")
      = ⟨sampleDb, ⟨400, .error "Color must be a valid hex color code"⟩, []⟩ ∧
    addParty noFault sampleDb ⟨.undefined, .val "PB", .val "#DC2626", .val "", some sampleLogo⟩
      = ⟨sampleDb, ⟨400, .error "Party name is required"⟩, []⟩ ∧
    updateParty noFault sampleDb 9 (samplePartyRequest "Parti Baru" "#DC2626")
      = ⟨sampleDb, ⟨404, .error "Party not found"⟩, []⟩ := by
  refine ⟨by decide, by decide, by decide⟩

/-- C20. Without a file `uploadLogo` answers 400 "No image file provided" and changes
nothing. For a stored party and an uploaded file, with the database layer answering, it
answers 200 "Logo uploaded successfully"; in the parties table each row with the party's
id now has `logo_path` "/uploads/party-flags/" followed by the file's name and is
otherwise as before, and every other row is unchanged; the deletion of the previously
stored logo file is requested exactly when the party's stored `logo_path` was a non-empty
string, and nothing else is deleted. The answer is fixed by the request and the database
alone, so it does not depend on how that deletion ends. -/
theorem uploadLogo_sets_logo (fault : Fault) (db : Db) (id : Nat) :
    uploadLogo fault db id none = ⟨db, ⟨400, .error "No image file provided"⟩, []⟩ ∧
    (∀ (f : UploadedFile) (current : Party) (rest : List Party),
      db.parties.filter (fun p => p.id == id) = current :: rest →
      fault 0 = none → fault 1 = none → fault 2 = none →
      (uploadLogo fault db id (some f)).response.status = 200 ∧
      (∃ row, (uploadLogo fault db id (some f)).response.body
        = .partySaved "Logo uploaded successfully" row) ∧
      List.Forall₂
        (fun p p1 =>
          (p.id ≠ id → p1 = p) ∧
          (p.id = id →
            p1.logo_path = some ("/uploads/party-flags/" ++ f.filename) ∧
            p1.id = p.id ∧ p1.name = p.name ∧ p1.abbreviation = p.abbreviation ∧
            p1.color = p.color ∧ p1.description = p.description))
        db.parties (uploadLogo fault db id (some f)).db.parties ∧
      (∀ l, current.logo_path = some l → l ≠ "" →
        (uploadLogo fault db id (some f)).unlinks = [.oldLogo l]) ∧
      (current.logo_path = none ∨ current.logo_path = some "" →
        (uploadLogo fault db id (some f)).unlinks = [])) := by
  refine ⟨rfl, ?_⟩
  intro f current rest hsel hf0 hf1 hf2
  unfold uploadLogo
  simp only [hf0, hsel, hf1, hf2]
  refine ⟨trivial, ⟨_, rfl⟩, ?_, ?_, ?_⟩
  · rw [List.forall₂_map_right_iff, List.forall₂_same]
    intro p _
    by_cases hid : p.id = id
    · have hb : (p.id == id) = true := by simpa using hid
      rw [if_pos hb]
      exact ⟨fun h => absurd hid h, fun _ => ⟨rfl, rfl, rfl, rfl, rfl, rfl⟩⟩
    · have hb : ¬ (p.id == id) = true := by simpa using hid
      rw [if_neg hb]
      exact ⟨fun _ => rfl, fun h => absurd h hid⟩
  · intro l hl hne
    rw [hl]
    have hb : (l != "") = true := by simpa using hne
    simp only [hb, if_true]
  · intro hno
    rcases hno with h | h
    · rw [h]
    · rw [h]
      rfl

theorem uploadLogo_sets_logo_witness :
    uploadLogo noFault sampleDb2 2 none
      = ⟨sampleDb2, ⟨400, .error "No image file provided"⟩, []⟩ ∧
    (uploadLogo noFault sampleDb2 2 (some sampleLogo)).response.status = 200 ∧
    (uploadLogo noFault sampleDb2 2 (some sampleLogo)).unlinks
      = [.oldLogo "/uploads/party-flags/old.png"] ∧
    (uploadLogo noFault sampleDb2 1 (some sampleLogo)).unlinks = [] :=
  ⟨(uploadLogo_sets_logo noFault sampleDb2 2).1,
    ((uploadLogo_sets_logo noFault sampleDb2 2).2 sampleLogo
      ⟨2, "Parti Baru", some "PB", some "#DC2626", some "/uploads/party-flags/old.png", some ""⟩
      [] (by decide) rfl rfl rfl).1,
    ((uploadLogo_sets_logo noFault sampleDb2 2).2 sampleLogo
      ⟨2, "Parti Baru", some "PB", some "#DC2626", some "/uploads/party-flags/old.png", some ""⟩
      [] (by decide) rfl rfl rfl).2.2.2.1 "/uploads/party-flags/old.png" rfl (by decide),
    ((uploadLogo_sets_logo noFault sampleDb2 1).2 sampleLogo
      ⟨1, "Parti Rakyat", some "PR", some "#3B82F6", none, some ""⟩
      [] (by decide) rfl rfl rfl).2.2.2.2 (Or.inl rfl)⟩

/-! ### Voting statistics -/

theorem insertNewest_perm {α : Type} (key : α → Nat) (x : α) (l : List α) :
    (insertNewest key x l).Perm (x :: l) := by
  induction l with
  | nil => exact List.Perm.refl _
  | cons y ys ih =>
    simp only [insertNewest]
    split
    · exact List.Perm.refl _
    · exact (List.Perm.cons y ih).trans (List.Perm.swap x y ys)

/-- The list ordered newest first holds the same rows as the list it orders. -/
theorem orderNewest_perm {α : Type} (key : α → Nat) (l : List α) :
    (orderNewest key l).Perm l := by
  induction l with
  | nil => exact List.Perm.refl _
  | cons x xs ih =>
    simp only [orderNewest]
    exact (insertNewest_perm key x _).trans (List.Perm.cons x ih)

theorem insertNewest_sorted {α : Type} (key : α → Nat) (x : α) (l : List α)
    (h : l.Pairwise (fun a b => key b ≤ key a)) :
    (insertNewest key x l).Pairwise (fun a b => key b ≤ key a) := by
  induction l with
  | nil => simp [insertNewest]
  | cons y ys ih =>
    rw [List.pairwise_cons] at h
    simp only [insertNewest]
    split
    · rename_i hyx
      rw [List.pairwise_cons]
      refine ⟨?_, List.pairwise_cons.mpr h⟩
      intro b hb
      rcases List.mem_cons.mp hb with rfl | hb
      · exact hyx
      · exact Nat.le_trans (h.1 b hb) hyx
    · rename_i hyx
      rw [List.pairwise_cons]
      refine ⟨?_, ih h.2⟩
      intro b hb
      rcases List.mem_cons.mp ((insertNewest_perm key x ys).subset hb) with rfl | hb
      · omega
      · exact h.1 b hb

/-- The list ordered newest first is ordered: no row is older than a row after it. -/
theorem orderNewest_sorted {α : Type} (key : α → Nat) (l : List α) :
    (orderNewest key l).Pairwise (fun a b => key b ≤ key a) := by
  induction l with
  | nil => exact List.Pairwise.nil
  | cons x xs ih =>
    simp only [orderNewest]
    exact insertNewest_sorted key x _ ih

/-- With distinct keys, the rows with a key that some row carries are that one row. -/
theorem filter_key_singleton {α : Type} (key : α → Nat) (n : Nat) (l : List α)
    (hnd : (l.map key).Nodup) (hex : ∃ x ∈ l, key x = n) :
    ∃ x, l.filter (fun y => key y == n) = [x] := by
  have hfind := filter_key_eq_find key n l hnd
  cases hf : l.find? (fun y => key y == n) with
  | none =>
    obtain ⟨x, hx, hk⟩ := hex
    have := List.find?_eq_none.mp hf x hx
    simp [hk] at this
  | some x =>
    rw [hf] at hfind
    exact ⟨x, hfind⟩

/-- On tables with distinct ids, a vote log whose voter, party and village exist gives
exactly one row of the join. -/
theorem joinVoteLogs_logs (db : Db) (hrefs : LogReferences db) :
    (joinVoteLogs db).map (fun r => r.1) = db.vote_logs := by
  obtain ⟨hv, hp, hg, hall⟩ := hrefs
  have key : ∀ logs : List VoteLog,
      (∀ l ∈ logs,
        (∃ v ∈ db.voters, v.id = l.voter_id) ∧ (∃ p ∈ db.parties, p.id = l.party_id) ∧
        (∃ g ∈ db.villages, g.id = l.village_id)) →
      (logs.flatMap fun vl =>
        (db.voters.filter (fun v => v.id == vl.voter_id)).flatMap fun v =>
          (db.parties.filter (fun p => p.id == vl.party_id)).flatMap fun p =>
            (db.villages.filter (fun vil => vil.id == vl.village_id)).map fun vil =>
              (vl, v, p, vil)).map (fun r => r.1) = logs := by
    intro logs
    induction logs with
    | nil => intro _; rfl
    | cons l t ih =>
      intro hlogs
      have hl := hlogs l (List.mem_cons_self _ _)
      obtain ⟨v, hfv⟩ := filter_key_singleton (fun x : Voter => x.id) l.voter_id db.voters hv
        hl.1
      obtain ⟨p, hfp⟩ := filter_key_singleton (fun x : Party => x.id) l.party_id db.parties hp
        hl.2.1
      obtain ⟨g, hfg⟩ := filter_key_singleton (fun x : Village => x.id) l.village_id
        db.villages hg hl.2.2
      rw [List.flatMap_cons, List.map_append,
        ih (fun l1 h1 => hlogs l1 (List.mem_cons_of_mem _ h1)), hfv, hfp, hfg]
      rfl
  exact key db.vote_logs hall

/-- C21. With the database layer answering, the `recent_votes` of the statistics
`getVotingStats` returns have at most 10 entries, ordered by `voted_at` from newest to
oldest, and they are the most recent events: the rows of the vote-log join split into
the listed ones and the rest, no row of the rest is newer than a listed one, and the
list is full (10 entries) whenever there is a rest. On tables with distinct ids whose
vote logs refer to existing voters, parties and villages, the rows of the join are the
vote logs, one row each. -/
theorem recent_votes_newest_first {ρ : Type} (views : StatViews ρ) (db : Db)
    (hrefs : LogReferences db) :
    ∃ stats rows, getVotingStats views noFault db = .ok stats ∧
      stats.recent_votes = some rows ∧
      rows.length ≤ 10 ∧
      rows.Pairwise (fun a b => b.voted_at ≤ a.voted_at) ∧
      ∃ listed rest : List (VoteLog × Voter × Party × Village),
        rows = listed.map recentVoteRow ∧
        ((listed ++ rest).map (fun r => r.1)).Perm db.vote_logs ∧
        (rest ≠ [] → listed.length = 10) ∧
        ∀ a ∈ listed, ∀ b ∈ rest, b.1.voted_at ≤ a.1.voted_at := by
  have hsorted := orderNewest_sorted (fun r : VoteLog × Voter × Party × Village => r.1.voted_at)
    (joinVoteLogs db)
  have hsplit := List.take_append_drop 10
    (orderNewest (fun r : VoteLog × Voter × Party × Village => r.1.voted_at) (joinVoteLogs db))
  rw [← hsplit, List.pairwise_append] at hsorted
  obtain ⟨hlisted, _, hcross⟩ := hsorted
  refine ⟨_, selectRecentVotes db, rfl, rfl, ?_, ?_,
    (orderNewest (fun r : VoteLog × Voter × Party × Village => r.1.voted_at)
      (joinVoteLogs db)).take 10,
    (orderNewest (fun r : VoteLog × Voter × Party × Village => r.1.voted_at)
      (joinVoteLogs db)).drop 10, rfl, ?_, ?_, ?_⟩
  · unfold selectRecentVotes
    rw [List.length_map, List.length_take]
    exact Nat.min_le_left _ _
  · unfold selectRecentVotes
    rw [List.pairwise_map]
    exact hlisted
  · rw [hsplit]
    have hperm := (orderNewest_perm
      (fun r : VoteLog × Voter × Party × Village => r.1.voted_at) (joinVoteLogs db)).map
        (fun r => r.1)
    rw [joinVoteLogs_logs db hrefs] at hperm
    exact hperm
  · intro hrest
    rw [List.length_take]
    have hlen : 10 < (orderNewest (fun r : VoteLog × Voter × Party × Village => r.1.voted_at)
        (joinVoteLogs db)).length := by
      by_contra hle
      exact hrest (List.drop_eq_nil_of_le (by omega))
    omega
  · intro a ha b hb
    exact hcross a ha b hb

theorem sampleDbVoted_references : LogReferences sampleDbVoted := by
  unfold LogReferences
  decide

theorem recent_votes_newest_first_witness :
    LogReferences sampleDbVoted ∧
    getVotingStats sampleViews noFault sampleDbVoted
      = .ok ⟨0, [], [],
          some [⟨"Ali", "Parti Rakyat", some "#3B82F6", "Kampung Baru", 9⟩,
                ⟨"Siti", "Parti Rakyat", some "#3B82F6", "Kampung Baru", 5⟩], none⟩ ∧
    ∃ stats rows, getVotingStats sampleViews noFault sampleDbVoted = .ok stats ∧
      stats.recent_votes = some rows ∧ rows.length ≤ 10 ∧
      rows.Pairwise (fun a b => b.voted_at ≤ a.voted_at) :=
  match recent_votes_newest_first sampleViews sampleDbVoted sampleDbVoted_references with
  | ⟨stats, rows, hstats, hrows, hlen, hsorted, _⟩ =>
    ⟨sampleDbVoted_references, rfl, stats, rows, hstats, hrows, hlen, hsorted⟩

/-! ### The push channel -/

/-- C22 (the claim at a failing recomputation). A vote can succeed without an event: the
stored procedure records the vote of voter 1 and the success response is sent, then the
database refuses the queries of the statistics helper, and `castVote` emits nothing. -/
theorem castVote_success_without_event :
    (castVote CastVote (getVotingStats sampleViews sampleOutage) true noFault 9 sampleDb
      (sampleVote 1 1)).response = voteCast ∧
    canVote sampleDb 1 = true ∧
    canVote (castVote CastVote (getVotingStats sampleViews sampleOutage) true noFault 9
      sampleDb (sampleVote 1 1)).db 1 = false ∧
    logCount (castVote CastVote (getVotingStats sampleViews sampleOutage) true noFault 9
      sampleDb (sampleVote 1 1)).db 1 = 1 ∧
    (castVote CastVote (getVotingStats sampleViews sampleOutage) true noFault 9 sampleDb
      (sampleVote 1 1)).emitted = [] := by
  refine ⟨by decide, by decide, by decide, by decide, by decide⟩

/-- C22 (amended). `castVote` broadcasts a `voteUpdate` event carrying the statistics `s`
exactly when the vote succeeded, `req.io` is set and the recomputation of the statistics
on the database state the vote left returned `s`; it broadcasts that one event or none.
In particular a request rejected by validation, or whose vote call failed, emits no
event. -/
theorem castVote_emits_when_recomputed {σ : Type} (proc : VoteProcedure)
    (stats : Db → Except DbError σ) (io : Bool) (fault : Fault) (now : Nat) (db : Db)
    (req : VoteRequest) :
    ((!truthyNum req.voter_id || !truthyNum req.party_id) = true →
      (castVote proc stats io fault now db req).emitted = []) ∧
    ((castVote proc stats io fault now db req).response ≠ voteCast →
      (castVote proc stats io fault now db req).emitted = []) ∧
    (∀ s, (castVote proc stats io fault now db req).emitted = [s] ↔
      ((castVote proc stats io fault now db req).response = voteCast ∧ io = true ∧
        stats (castVote proc stats io fault now db req).db = .ok s)) ∧
    ((castVote proc stats io fault now db req).emitted = [] ∨
      ∃ s, (castVote proc stats io fault now db req).emitted = [s]) := by
  unfold castVote
  by_cases hval : (!truthyNum req.voter_id || !truthyNum req.party_id) = true
  · rw [if_pos hval]
    refine ⟨fun _ => rfl, fun _ => rfl, fun s => ⟨fun h => by simp at h, fun h => ?_⟩,
      Or.inl rfl⟩
    exact absurd h.1 (by simp [voteCast])
  · rw [if_neg hval]
    refine ⟨fun h => absurd h hval, ?_⟩
    cases hf : fault 0 with
    | some e =>
      refine ⟨fun _ => rfl, fun s => ⟨fun h => by simp at h, fun h => ?_⟩, Or.inl rfl⟩
      exact absurd h.1 (castVoteCatch_ne_voteCast e)
    | none =>
      cases hp : proc db req.voter_id.get req.party_id.get req.ip (req.user_agent.getD "")
          now with
      | error e =>
        refine ⟨fun _ => rfl, fun s => ⟨fun h => by simp at h, fun h => ?_⟩, Or.inl rfl⟩
        exact absurd h.1 (castVoteCatch_ne_voteCast e)
      | ok db1 =>
        cases io with
        | false =>
          refine ⟨fun _ => rfl, fun s => ⟨fun h => by simp at h, fun h => ?_⟩, Or.inl rfl⟩
          exact absurd h.2.1 (by decide)
        | true =>
          cases hs : stats db1 with
          | error e =>
            refine ⟨fun _ => ?_, fun s => ⟨fun h => ?_, fun h => ?_⟩, Or.inl ?_⟩
            · simp [hs]
            · simp [hs] at h
            · have h3 := h.2.2
              simp [hs] at h3
            · simp [hs]
          | ok s0 =>
            refine ⟨fun h => ?_, fun s => ⟨fun h => ?_, fun h => ?_⟩, Or.inr ⟨s0, ?_⟩⟩
            · exact absurd (by simp [hs, voteCast]) h
            · have hs0 : s0 = s := by simpa [hs] using h
              subst hs0
              simp [hs, voteCast]
            · have h3 := h.2.2
              simp [hs] at h3
              simp [hs, h3]
            · simp [hs]

theorem castVote_emits_when_recomputed_witness :
    (castVote CastVote (getVotingStats sampleViews noFault) true noFault 9 sampleDb
      (sampleVote 1 1)).response = voteCast ∧
    (castVote CastVote (getVotingStats sampleViews noFault) true noFault 9 sampleDb
      (sampleVote 1 1)).emitted
      = [⟨0, [], [],
          some [⟨"Ali", "Parti Rakyat", some "#3B82F6", "Kampung Baru", 9⟩,
                ⟨"Siti", "Parti Rakyat", some "#3B82F6", "Kampung Baru", 5⟩], none⟩] ∧
    (castVote CastVote (getVotingStats sampleViews noFault) true noFault 9 sampleDb
      (sampleVote 2 1)).response ≠ voteCast ∧
    (castVote CastVote (getVotingStats sampleViews noFault) true noFault 9 sampleDb
      (sampleVote 2 1)).emitted = [] :=
  ⟨by decide,
    ((castVote_emits_when_recomputed CastVote (getVotingStats sampleViews noFault) true noFault
      9 sampleDb (sampleVote 1 1)).2.2.1 _).mpr ⟨by decide, rfl, rfl⟩,
    by decide,
    (castVote_emits_when_recomputed CastVote (getVotingStats sampleViews noFault) true noFault 9
      sampleDb (sampleVote 2 1)).2.1 (by decide)⟩

/-- With the database layer answering, `requestStats` sends one `statsUpdate` to the
requesting socket, and its overall totals, per-party and per-village rows are those of
`getVotingStats` on the same database state. -/
theorem requestStats_aggregates {ρ : Type} (views : StatViews ρ) (now : Nat) (db : Db) :
    ∃ sent stats, requestStats views noFault now db = [.statsUpdate sent] ∧
      getVotingStats views noFault db = .ok stats ∧
      sent.overall = stats.overall ∧ sent.by_party = stats.by_party ∧
      sent.by_village = stats.by_village :=
  ⟨_, _, rfl, rfl, rfl, rfl, rfl⟩

/-- C23 (the code at the failing input). The `requestStats` handler builds its own
statistics object: on a database with one vote log it sends one `statsUpdate` that has a
timestamp and no `recent_votes`, while `getVotingStats` on the same state returns the
recent vote and no timestamp. -/
theorem requestStats_lacks_recent_votes :
    requestStats sampleViews noFault 99 sampleDb
      = [.statsUpdate ⟨0, [], [], none, some 99⟩] ∧
    getVotingStats sampleViews noFault sampleDb
      = .ok ⟨0, [], [],
          some [⟨"Siti", "Parti Rakyat", some "#3B82F6", "Kampung Baru", 5⟩], none⟩ := by
  exact ⟨rfl, rfl⟩

/-! ### Errors that leave a handler -/

/-- An exception leaves `castVote` exactly when the vote succeeded, `req.io` is set and
the recomputation of the statistics fails; the response sent is then the success
response. -/
theorem castVote_escaped_iff {σ : Type} (proc : VoteProcedure)
    (stats : Db → Except DbError σ) (io : Bool) (fault : Fault) (now : Nat) (db : Db)
    (req : VoteRequest) :
    (castVote proc stats io fault now db req).escaped = true ↔
      (castVote proc stats io fault now db req).response = voteCast ∧ io = true ∧
      ∃ e, stats (castVote proc stats io fault now db req).db = .error e := by
  unfold castVote
  by_cases hval : (!truthyNum req.voter_id || !truthyNum req.party_id) = true
  · rw [if_pos hval]
    simp [voteCast]
  · rw [if_neg hval]
    cases hf : fault 0 with
    | some e =>
      have := castVoteCatch_ne_voteCast e
      simp [this]
    | none =>
      cases hp : proc db req.voter_id.get req.party_id.get req.ip (req.user_agent.getD "")
          now with
      | error e =>
        have := castVoteCatch_ne_voteCast e
        simp [this]
      | ok db1 =>
        cases io with
        | false => simp
        | true =>
          cases hs : stats db1 with
          | error e => simp [hs, voteCast]
          | ok s0 => simp [hs]

/-- C26 (the code at the failing input). In `castVote` the recomputation of the statistics
runs inside the `try` block after the success response was sent: when the database
refuses its queries, the failure is answered with nothing but the 200 success response
already sent, the `catch` block's attempt to answer a second time throws, and that
exception leaves the handler. -/
theorem castVote_exception_escapes :
    (castVote CastVote (getVotingStats sampleViews sampleOutage) true noFault 9 sampleDb
      (sampleVote 1 1)).escaped = true ∧
    (castVote CastVote (getVotingStats sampleViews sampleOutage) true noFault 9 sampleDb
      (sampleVote 1 1)).response = ⟨200, .message "Vote cast successfully"⟩ ∧
    (castVote CastVote (getVotingStats sampleViews sampleOutage) true noFault 9 sampleDb
      (sampleVote 1 1)).emitted = [] := by
  refine ⟨by decide, by decide, by decide⟩

/-! ### Routing and rate limiting -/

/-- No request reaches the root endpoint: every request is taken by a layer registered
before it, at the latest by the 404 handler. -/
theorem dispatch_ne_root (m : Method) (path : List String) : dispatch m path ≠ some .root := by
  unfold dispatch appStack
  rw [List.find?_append]
  cases hfind : routedLayers.find? (fun l => l.accepts m path) with
  | some l =>
    have hmem := List.mem_of_find?_eq_some hfind
    have hall : ∀ x ∈ routedLayers, x.endpoint ≠ Endpoint.root := by decide
    intro h
    exact hall l hmem (by simpa using h)
  | none =>
    intro h
    simp [List.find?_cons, Layer.accepts] at h

/-- C25 (the code at the failing input). The root endpoint is registered after the 404
handler, which takes every request: a GET request for the root path is answered by the
404 handler, and no request at all reaches the root endpoint. -/
theorem root_endpoint_unreachable :
    dispatch .GET [] = some .notFound ∧ ∀ m path, dispatch m path ≠ some .root :=
  ⟨by decide, dispatch_ne_root⟩

/-- C24 (the code at the failing input). The vote limiter is defined but mounted nowhere:
the only limiter on the way of `POST /api/voters/vote` is the general one (100 requests
per 15 minutes), so eleven vote requests from one address within one second all reach
`castVote`, although the vote limiter as configured passes ten requests of a window and
refuses the eleventh. -/
theorem vote_limiter_not_mounted :
    mountedLimiters ["api", "voters", "vote"] = [generalLimiter] ∧
    serveAll [] sampleVoteRequests = List.replicate 11 (.reached (some .castVote)) ∧
    hitTimes voteLimiter "10.0.0.7" 1000 11 [] = List.replicate 10 true ++ [false] := by
  refine ⟨by decide, by decide, by decide⟩

theorem accepts_api : (Segment.word "api").accepts "api" = true := by decide

theorem accepts_voters : (Segment.word "voters").accepts "voters" = true := by decide

theorem accepts_parties : (Segment.word "parties").accepts "parties" = true := by decide

theorem rejects_voters_villages : (Segment.word "villages").accepts "voters" = false := by
  decide

theorem rejects_parties_voters : (Segment.word "voters").accepts "parties" = false := by decide

theorem rejects_parties_villages : (Segment.word "villages").accepts "parties" = false := by
  decide

/-- C30. Routing resolves the fixed sub-paths before the id parameter: `GET
/api/voters/stats` reaches `getVotingStats`, `POST /api/voters/vote` reaches `castVote`
and `GET /api/parties/colors` reaches `getPartyColors`. For every segment in the place of
the id, `GET /api/voters/<segment>` reaches `getVotingStats` when the segment is the word
"stats" (in any letter case) and `getVoterById` otherwise, and `GET
/api/parties/<segment>` reaches `getPartyColors` when the segment is the word "colors"
and `getPartyById` otherwise; so no voter is fetched under the id "stats" and no party
under the id "colors". -/
theorem fixed_paths_before_id :
    dispatch .GET ["api", "voters", "stats"] = some .getVotingStats ∧
    dispatch .POST ["api", "voters", "vote"] = some .castVote ∧
    dispatch .GET ["api", "parties", "colors"] = some .getPartyColors ∧
    (∀ id : String, dispatch .GET ["api", "voters", id]
      = some (if (Segment.word "stats").accepts id then .getVotingStats else .getVoterById)) ∧
    (∀ id : String, dispatch .GET ["api", "parties", id]
      = some (if (Segment.word "colors").accepts id then .getPartyColors else .getPartyById)) ∧
    (∀ id : String, dispatch .POST ["api", "voters", id]
      = some (if (Segment.word "vote").accepts id then .castVote else .notFound)) := by
  refine ⟨by decide, by decide, by decide, ?_, ?_, ?_⟩
  · intro id
    simp [dispatch, appStack, routedLayers, mount, votersRoutes, List.find?_cons,
      Layer.accepts, pathAccepts, accepts_api, accepts_voters, Segment.accepts]
    split <;> simp_all
  · intro id
    simp [dispatch, appStack, routedLayers, mount, votersRoutes, villagesRoutes, partiesRoutes,
      List.find?_cons, Layer.accepts, pathAccepts, accepts_api, accepts_parties,
      rejects_parties_voters, rejects_parties_villages, Segment.accepts]
    split <;> simp_all
  · intro id
    simp [dispatch, appStack, routedLayers, mount, votersRoutes, villagesRoutes, partiesRoutes,
      List.find?_cons, Layer.accepts, pathAccepts, accepts_api, accepts_voters,
      rejects_voters_villages, Segment.accepts]
    split <;> simp_all

/-! ### Formatting of identity numbers -/

/-- C27. `formatICNumber` gives, for every input whose digits (the input without its
non-digit characters) are exactly 12, the first 6 digits, `-`, the next 2 digits, `-` and
the last 4 digits; it returns every other non-empty input unchanged (and the empty input
as the empty string); applying it to its own result gives the same result; and
"123456789012" becomes "123456-78-9012". -/
theorem formatICNumber_groups (ic : String) :
    ((ic.data.filter Char.isDigit).length = 12 →
      formatICNumber ic
        = String.mk ((ic.data.filter Char.isDigit).take 6 ++ ['-'] ++
            ((ic.data.filter Char.isDigit).drop 6).take 2 ++ ['-'] ++
            (ic.data.filter Char.isDigit).drop 8) ∧
      ((ic.data.filter Char.isDigit).take 6).length = 6 ∧
      (((ic.data.filter Char.isDigit).drop 6).take 2).length = 2 ∧
      ((ic.data.filter Char.isDigit).drop 8).length = 4) ∧
    ((ic.data.filter Char.isDigit).length ≠ 12 → formatICNumber ic = ic) ∧
    formatICNumber (formatICNumber ic) = formatICNumber ic ∧
    formatICNumber "123456789012" = "123456-78-9012" := by
  have hfmt : ∀ s : String, (s.data.filter Char.isDigit).length = 12 →
      formatICNumber s
        = String.mk ((s.data.filter Char.isDigit).take 6 ++ ['-'] ++
            ((s.data.filter Char.isDigit).drop 6).take 2 ++ ['-'] ++
            (s.data.filter Char.isDigit).drop 8) := by
    intro s hlen
    have hne : ¬ s = "" := by
      intro h
      rw [h] at hlen
      exact absurd hlen (by decide)
    unfold formatICNumber
    rw [if_neg hne]
    simp only [hlen, ne_eq, not_true_eq_false, if_false]
  have hsame : ∀ s : String, (s.data.filter Char.isDigit).length ≠ 12 →
      formatICNumber s = s := by
    intro s hlen
    unfold formatICNumber
    by_cases h : s = ""
    · rw [if_pos h, h]
    · rw [if_neg h]
      simp only [ne_eq, hlen, not_false_eq_true, if_true]
  refine ⟨fun hlen => ⟨hfmt ic hlen, ?_, ?_, ?_⟩, hsame ic, ?_, by decide⟩
  · rw [List.length_take]; omega
  · rw [List.length_take, List.length_drop]; omega
  · rw [List.length_drop]; omega
  · by_cases hlen : (ic.data.filter Char.isDigit).length = 12
    · rw [hfmt ic hlen]
      have hdig : ∀ c ∈ ic.data.filter Char.isDigit, c.isDigit = true :=
        fun c hc => (List.mem_filter.mp hc).2
      have h1 : ((ic.data.filter Char.isDigit).take 6).filter Char.isDigit
          = (ic.data.filter Char.isDigit).take 6 :=
        List.filter_eq_self.mpr (fun c hc => hdig c (List.mem_of_mem_take hc))
      have h2 : (((ic.data.filter Char.isDigit).drop 6).take 2).filter Char.isDigit
          = ((ic.data.filter Char.isDigit).drop 6).take 2 :=
        List.filter_eq_self.mpr
          (fun c hc => hdig c (List.mem_of_mem_drop (List.mem_of_mem_take hc)))
      have h3 : ((ic.data.filter Char.isDigit).drop 8).filter Char.isDigit
          = (ic.data.filter Char.isDigit).drop 8 :=
        List.filter_eq_self.mpr (fun c hc => hdig c (List.mem_of_mem_drop hc))
      have hdash : ['-'].filter Char.isDigit = [] := by decide
      have hjoin : (ic.data.filter Char.isDigit).take 6 ++
          ((ic.data.filter Char.isDigit).drop 6).take 2 ++
          (ic.data.filter Char.isDigit).drop 8 = ic.data.filter Char.isDigit := by
        have h8 : (ic.data.filter Char.isDigit).drop 8
            = ((ic.data.filter Char.isDigit).drop 6).drop 2 := by
          rw [List.drop_drop]
        rw [h8, List.append_assoc, List.take_append_drop, List.take_append_drop]
      have hclean : (String.mk ((ic.data.filter Char.isDigit).take 6 ++ ['-'] ++
            ((ic.data.filter Char.isDigit).drop 6).take 2 ++ ['-'] ++
            (ic.data.filter Char.isDigit).drop 8)).data.filter Char.isDigit
          = ic.data.filter Char.isDigit := by
        simp only [List.filter_append, h1, h2, h3, hdash, List.append_nil]
        exact hjoin
      have hlen1 : ((String.mk ((ic.data.filter Char.isDigit).take 6 ++ ['-'] ++
            ((ic.data.filter Char.isDigit).drop 6).take 2 ++ ['-'] ++
            (ic.data.filter Char.isDigit).drop 8)).data.filter Char.isDigit).length = 12 := by
        rw [hclean, hlen]
      rw [hfmt _ hlen1, hclean]
    · rw [hsame ic hlen]
      exact hsame ic hlen

theorem formatICNumber_groups_witness :
    ("9001 0101 5555".data.filter Char.isDigit).length = 12 ∧
    formatICNumber "9001 0101 5555" = "900101-01-5555" ∧
    ("12345".data.filter Char.isDigit).length ≠ 12 ∧
    formatICNumber "12345" = "12345" ∧
    formatICNumber (formatICNumber "9001 0101 5555") = formatICNumber "9001 0101 5555" :=
  ⟨by decide,
    ((formatICNumber_groups "9001 0101 5555").1 (by decide)).1.trans (by decide),
    by decide,
    (formatICNumber_groups "12345").2.1 (by decide),
    (formatICNumber_groups "9001 0101 5555").2.2.1⟩

/-! ### Pages of the voter listing -/

/-- The slices of a list, one after another, make up its start. -/
theorem flatMap_slices {α : Type} (l : List α) (n : Nat) :
    ∀ k, (List.range k).flatMap (fun i => (l.drop (i * n)).take n) = l.take (k * n) := by
  intro k
  induction k with
  | zero => simp
  | succ k ih =>
    rw [List.range_succ, List.flatMap_append, ih, List.flatMap_singleton, Nat.succ_mul,
      List.take_add]

/-- C28 (the claim on voters of one name). `ORDER BY v.name` leaves the order of voters
with equal names to the engine, which may hand the rows over differently from one page
query to the next: over two voters named "Ali" and with limit 1, page 1 answered in the
stored order and page 2 answered in the reverse order both list the voter 1. Both
report total 2 and pages 2, and the voter 2 is on neither page. -/
theorem getAllVoters_pages_repeat :
    countVoters sampleDbTwins "" "" = 2 ∧
    getAllVoters storedOrder noFault sampleDbTwins ⟨some 1, some 1, none, none⟩
      = .ok ⟨[⟨1, "Ali", "900101015555", false, none, some "Kampung Baru", none, none⟩],
          ⟨1, 1, 2, some 2⟩⟩ ∧
    getAllVoters reversedOrder noFault sampleDbTwins ⟨some 2, some 1, none, none⟩
      = .ok ⟨[⟨1, "Ali", "900101015555", false, none, some "Kampung Baru", none, none⟩],
          ⟨2, 1, 2, some 2⟩⟩ := by
  refine ⟨by decide, ?_, ?_⟩
  · rfl
  · rfl

/-- C28 (amended). In `getAllVoters` the count query applies the same search and village
conditions as the page query. On a database with distinct village ids and party ids and
fewer than 2^53 voters, with the database layer answering and a limit >= 1 that converts
to a finite Number: the total reported is the number of rows the page query returns
without `LIMIT` and `OFFSET`; every page whose numbers the database takes reports that
total and the same number of pages; and when no two matching voters have names equal
under the collation, the rows of pages 1 to pages, one after another, are the rows of
the name-ordered matching voters, each voter once, whatever the order in which the
engine hands over the rows of each page query. -/
theorem getAllVoters_pages_cover (orders : Nat → VoterOrder) (db : Db) (limit l : Nat)
    (search village : Option String)
    (hvil : (db.villages.map (fun x => x.id)).Nodup)
    (hpar : (db.parties.map (fun x => x.id)).Nodup)
    (hlimit : 1 ≤ limit) (hl : toNumber limit = some l) (hsize : db.voters.length < 2 ^ 53) :
    (∀ s g v vil, countWhere s g v vil = pageWhere s g v vil) ∧
    countVoters db (search.getD "") (village.getD "")
      = ((joinVoters db).filter
          (fun r => pageWhere (search.getD "") (village.getD "") r.1 r.2.1)).length ∧
    ∃ pages,
      (∀ page, (pageParams page limit).isSome = true →
        ∃ pg, getAllVoters (orders page) noFault db ⟨some page, some limit, search, village⟩
            = .ok pg ∧
          pg.pagination.total = countVoters db (search.getD "") (village.getD "") ∧
          pg.pagination.pages = some pages) ∧
      (DistinctNames (matchingVoters db (search.getD "") (village.getD "")) →
        (List.range pages).flatMap
            (fun i => votersOnPage (orders (i + 1)) db limit search village (i + 1))
          = (orderBy (fun v => v.name)
              (matchingVoters db (search.getD "") (village.getD ""))).map
                (voterListRowOf db)) := by
  have hcount : countVoters db (search.getD "") (village.getD "")
      = (matchingVoters db (search.getD "") (village.getD "")).length := by
    unfold countVoters matchingVoters
    have hjoin : (db.voters.flatMap fun v =>
        (leftJoin db.villages (fun vil => vil.id == v.village_id)).map fun vil => (v, vil))
        = db.voters.map (fun v => (v, villageOf db v)) := by
      induction db.voters with
      | nil => rfl
      | cons v t ih =>
        rw [List.flatMap_cons, List.map_cons, ih, leftJoin_village db hvil]
        rfl
    rw [hjoin, List.filter_map, List.length_map]
    rfl
  have hsmall : (matchingVoters db (search.getD "") (village.getD "")).length < 2 ^ 53 := by
    have : (matchingVoters db (search.getD "") (village.getD "")).length ≤ db.voters.length := by
      unfold matchingVoters
      exact List.length_filter_le _ _
    omega
  have hl1 : 1 ≤ l := by
    by_cases hlt : limit < 2 ^ 53
    · rw [toNumber_exact limit hlt] at hl
      injection hl with hl
      omega
    · have := toNumber_ge limit l (by omega) hl
      omega
  obtain ⟨k, hk, hreach, hmin⟩ := ceilDiv_spec
    (matchingVoters db (search.getD "") (village.getD "")).length l hl1
  refine ⟨fun _ _ _ _ => rfl, ?_, k, ?_, ?_⟩
  · rw [hcount]
    unfold matchingVoters
    rw [joinVoters_eq db hvil hpar, List.filter_map, List.length_map]
    rfl
  · intro page hsome
    cases hparams : pageParams page limit with
    | none => rw [hparams] at hsome; exact absurd hsome (by decide)
    | some t =>
      obtain ⟨p, l2, o⟩ := t
      have hl2 := pageParams_limit page limit p l2 o hparams
      rw [hl] at hl2
      injection hl2 with hl2
      subst hl2
      obtain ⟨ordered, _, _, hpg⟩ := getAllVoters_ok (orders page) db
        ⟨some page, some limit, search, village⟩ hvil hpar p l o hparams
      simp only [Option.getD_some] at hpg
      exact ⟨_, hpg, hcount.symm, hk⟩
  · intro hd
    have hparams : ∀ i ∈ List.range k, pageParams (i + 1) limit = some (i + 1, l, i * l) := by
      intro i hi
      have hik : i < k := List.mem_range.mp hi
      by_cases hlt : limit < 2 ^ 53
      · rw [toNumber_exact limit hlt] at hl
        injection hl with hl
        subst hl
        have hbelow : i * limit
            < (matchingVoters db (search.getD "") (village.getD "")).length := by
          by_contra hcon
          have := hmin i (by omega)
          omega
        have hktotal : k ≤ (matchingVoters db (search.getD "") (village.getD "")).length :=
          hmin _ (Nat.le_mul_of_pos_right _ hlimit)
        have := pageParams_of_exact (i + 1) limit (by omega) (by omega) hlt
          (by simpa using (by omega : i * limit < 2 ^ 53))
        simpa using this
      · have hbig := toNumber_ge limit l (by omega) hl
        have hk1 : k ≤ 1 := hmin 1 (by omega)
        have hi0 : i = 0 := by omega
        subst hi0
        simpa using pageParams_first limit l hl
    have hrows : ∀ i ∈ List.range k,
        votersOnPage (orders (i + 1)) db limit search village (i + 1)
        = ((((orderBy (fun v => v.name)
            (matchingVoters db (search.getD "") (village.getD ""))).map
              (voterListRowOf db)).drop (i * l)).take l) := by
      intro i hi
      obtain ⟨ordered1, hperm1, hsorted1, hpg1⟩ := getAllVoters_ok (orders (i + 1)) db
        ⟨some (i + 1), some limit, search, village⟩ hvil hpar (i + 1) l (i * l)
        (hparams i hi)
      simp only [Option.getD_some] at hpg1 hperm1
      have heq : ordered1 = orderBy (fun v => v.name)
          (matchingVoters db (search.getD "") (village.getD "")) := by
        apply nameOrdered_unique _ _ (hperm1.trans (orderBy_perm _ _).symm) hsorted1
          (orderBy_sorted (fun v : Voter => v.name) _)
        unfold DistinctNames at hd ⊢
        refine (List.Perm.pairwise_iff ?_ (orderBy_perm (fun v : Voter => v.name) _)).mpr hd
        intro a b hab
        unfold sameText at hab ⊢
        rw [sameChars_symm]
        exact hab
      unfold votersOnPage
      rw [hpg1, heq, List.map_take, List.map_drop]
    have hflat : (List.range k).flatMap
        (fun i => votersOnPage (orders (i + 1)) db limit search village (i + 1))
        = (List.range k).flatMap (fun i => ((((orderBy (fun v => v.name)
            (matchingVoters db (search.getD "") (village.getD ""))).map
              (voterListRowOf db)).drop (i * l)).take l)) := by
      rw [List.flatMap_def, List.flatMap_def, List.map_congr_left hrows]
    rw [hflat, flatMap_slices, List.take_of_length_le]
    rw [List.length_map, (orderBy_perm _ _).length_eq]
    exact hreach

theorem getAllVoters_pages_cover_witness :
    (sampleDb45.villages.map (fun x => x.id)).Nodup ∧
    (sampleDb45.parties.map (fun x => x.id)).Nodup ∧
    toNumber 20 = some 20 ∧ sampleDb45.voters.length = 45 ∧
    countVoters sampleDb45 "" "" = 45 ∧
    DistinctNames (matchingVoters sampleDb45 "" "") ∧
    (pageParams 3 20).isSome = true ∧
    ∃ pages,
      (∀ page, (pageParams page 20).isSome = true →
        ∃ pg, getAllVoters (if page = 2 then reversedOrder else storedOrder) noFault sampleDb45
            ⟨some page, some 20, none, none⟩ = .ok pg ∧
          pg.pagination.total = countVoters sampleDb45 "" "" ∧
          pg.pagination.pages = some pages) ∧
      (List.range pages).flatMap
          (fun i => votersOnPage (if i + 1 = 2 then reversedOrder else storedOrder) sampleDb45
            20 none none (i + 1))
        = (orderBy (fun v => v.name) (matchingVoters sampleDb45 "" "")).map
            (voterListRowOf sampleDb45) :=
  have hd : DistinctNames (matchingVoters sampleDb45 "" "") := by
    unfold DistinctNames
    decide
  match getAllVoters_pages_cover (fun page => if page = 2 then reversedOrder else storedOrder)
      sampleDb45 20 20 none none (by decide) (by decide) (by decide) (by decide)
      (by decide) with
  | ⟨_, _, pages, hpages, hcover⟩ =>
    ⟨by decide, by decide, by decide, by decide, by decide, hd, by decide, pages, hpages,
      hcover hd⟩

/-! ### The logo of an updated party -/

/-- C29. `updateParty` never changes a party's `logo_path`: for every request, with or
without an uploaded file and whatever the database layer does, the parties table after
the call has, row for row, the same id and the same `logo_path` as before, every row with
another id is unchanged, the other tables are unchanged, and no file deletion is
requested. -/
theorem updateParty_keeps_logo (fault : Fault) (db : Db) (id : Nat) (req : PartyRequest) :
    List.Forall₂
      (fun p p1 => p1.logo_path = p.logo_path ∧ p1.id = p.id ∧ (p.id ≠ id → p1 = p))
      db.parties (updateParty fault db id req).db.parties ∧
    (updateParty fault db id req).db.voters = db.voters ∧
    (updateParty fault db id req).db.villages = db.villages ∧
    (updateParty fault db id req).db.vote_logs = db.vote_logs := by
  rcases updateParty_cases fault db id req with h | ⟨abbr, col, desc, _, _, h⟩
  · rw [h]
    refine ⟨?_, rfl, rfl, rfl⟩
    rw [List.forall₂_same]
    intro p _
    exact ⟨rfl, rfl, fun _ => rfl⟩
  · rw [h]
    refine ⟨?_, rfl, rfl, rfl⟩
    rw [List.forall₂_map_right_iff, List.forall₂_same]
    intro p _
    by_cases hid : (p.id == id) = true
    · rw [if_pos hid]
      exact ⟨rfl, rfl, fun hne => absurd (by simpa using hid) hne⟩
    · rw [if_neg hid]
      exact ⟨rfl, rfl, fun _ => rfl⟩

/-! ### Answers of the handlers under database failures -/

theorem successOrError_error {status : Nat} (msg : String)
    (h : status = 400 ∨ status = 404 ∨ status = 500) : SuccessOrError ⟨status, .error msg⟩ :=
  Or.inr (Or.inr ⟨⟨msg, rfl⟩, h⟩)

theorem addVoterCatch_answer (e : DbError) : SuccessOrError (addVoterCatch e) := by
  unfold addVoterCatch
  split
  · exact successOrError_error _ (Or.inl rfl)
  · exact successOrError_error _ (Or.inr (Or.inr rfl))

theorem villageCatch_answer (what : String) (e : DbError) :
    SuccessOrError (villageCatch what e) := by
  unfold villageCatch
  split
  · exact successOrError_error _ (Or.inl rfl)
  · exact successOrError_error _ (Or.inr (Or.inr rfl))

theorem partyCatch_answer (what : String) (e : DbError) :
    SuccessOrError (partyCatch what e) := by
  unfold partyCatch
  split
  · exact successOrError_error _ (Or.inl rfl)
  · exact successOrError_error _ (Or.inr (Or.inr rfl))

/-- Whatever the database layer does, the handlers of the voters controller other than
`castVote` answer with a success or with an error body of status 400, 404 or 500. -/
theorem voter_handlers_answer (fault : Fault) (db : Db) (id : Nat) (body : VoterBody) :
    SuccessOrError (addVoter fault db body).response ∧
    SuccessOrError (getVoterById fault db id) ∧
    SuccessOrError (updateVoter fault db id body).response ∧
    SuccessOrError (deleteVoter fault db id).response := by
  refine ⟨?_, ?_, ?_, ?_⟩
  · unfold addVoter
    repeat' split
    all_goals first
      | exact addVoterCatch_answer _
      | exact successOrError_error _ (Or.inl rfl)
      | exact Or.inr (Or.inl rfl)
  · unfold getVoterById
    repeat' split
    all_goals first
      | exact successOrError_error _ (Or.inl rfl)
      | exact successOrError_error _ (Or.inr (Or.inl rfl))
      | exact successOrError_error _ (Or.inr (Or.inr rfl))
      | exact Or.inl rfl
  · unfold updateVoter
    repeat' split
    all_goals first
      | exact successOrError_error _ (Or.inl rfl)
      | exact successOrError_error _ (Or.inr (Or.inl rfl))
      | exact successOrError_error _ (Or.inr (Or.inr rfl))
      | exact Or.inl rfl
  · unfold deleteVoter
    repeat' split
    all_goals first
      | exact successOrError_error _ (Or.inl rfl)
      | exact successOrError_error _ (Or.inr (Or.inl rfl))
      | exact successOrError_error _ (Or.inr (Or.inr rfl))
      | exact Or.inl rfl

/-- Whatever the database layer does, the writing handlers of the villages and parties
controllers answer with a success or with an error body of status 400, 404 or 500. -/
theorem village_party_handlers_answer (fault : Fault) (db : Db) (id : Nat)
    (body : VillageBody) (req : PartyRequest) :
    SuccessOrError (addVillage fault db body).response ∧
    SuccessOrError (updateVillage fault db id body).response ∧
    SuccessOrError (deleteVillage fault db id).response ∧
    SuccessOrError (addParty fault db req).response ∧
    SuccessOrError (updateParty fault db id req).response ∧
    SuccessOrError (deleteParty fault db id).response ∧
    SuccessOrError (uploadLogo fault db id req.file).response := by
  refine ⟨?_, ?_, ?_, ?_, ?_, ?_, ?_⟩
  · unfold addVillage
    repeat' split
    all_goals first
      | exact villageCatch_answer _ _
      | exact successOrError_error _ (Or.inl rfl)
      | exact Or.inr (Or.inl rfl)
  · unfold updateVillage
    repeat' split
    all_goals first
      | exact villageCatch_answer _ _
      | exact successOrError_error _ (Or.inl rfl)
      | exact successOrError_error _ (Or.inr (Or.inl rfl))
      | exact Or.inl rfl
  · unfold deleteVillage
    repeat' split
    all_goals first
      | exact successOrError_error _ (Or.inl rfl)
      | exact successOrError_error _ (Or.inr (Or.inl rfl))
      | exact successOrError_error _ (Or.inr (Or.inr rfl))
      | exact Or.inl rfl
  · unfold addParty
    dsimp only
    repeat' split
    all_goals first
      | exact partyCatch_answer _ _
      | exact successOrError_error _ (Or.inl rfl)
      | exact Or.inr (Or.inl rfl)
  · unfold updateParty
    repeat' split
    all_goals first
      | exact partyCatch_answer _ _
      | exact successOrError_error _ (Or.inl rfl)
      | exact successOrError_error _ (Or.inr (Or.inl rfl))
      | exact Or.inl rfl
  · unfold deleteParty
    repeat' split
    all_goals first
      | exact successOrError_error _ (Or.inl rfl)
      | exact successOrError_error _ (Or.inr (Or.inl rfl))
      | exact successOrError_error _ (Or.inr (Or.inr rfl))
      | exact Or.inl rfl
  · unfold uploadLogo
    repeat' split
    all_goals first
      | exact successOrError_error _ (Or.inl rfl)
      | exact successOrError_error _ (Or.inr (Or.inl rfl))
      | exact successOrError_error _ (Or.inr (Or.inr rfl))
      | exact Or.inl rfl

end PruVoting
